import Mathlib

/-!
# Election management system: validation-and-consistency engine

A shallow embedding of `election.cpp` (class `ElectionSystem`), `candidate.cpp`
and `voter.cpp`, followed by theorems about the embedded operations.

Modelling conventions.

* A `std::string` is a Lean `String`; each `Char` stands for one C `char`, so
  `length()` is the number of characters and `::isdigit` / `::isalpha` are the
  "C" locale classes `0-9` and `A-Z a-z`.
* `std::set<std::string>` is a `Finset String`; `std::map<std::string, int64_t>`
  is a key-sorted association list (`VoteMap`).
* `int` and `int64_t` are `Int` values, narrowed with `wrap32` / `wrap64` where
  the program converts or increments.
* Operator input comes from a `Prompter`: one queue per kind of answer the
  program asks for (text, a single character, an integer choice). The program
  alone decides which kind it asks for next, so the order inside each queue is
  all that an input script fixes.
* An operation yields a `Run`: `done` when the C++ function returns, `eof` when
  the Prompter runs dry inside it (the process exits or waits forever, the
  function never returns), `undefined` when the C++ has undefined behaviour.
* The admin credential table and the console output are not part of the model.
-/

namespace Election

/-! ## Data model -/

/-- Class `Candidate` (candidate.h): the five private attributes. -/
structure Candidate where
  candidateID : String
  candidateName : String
  partySymbol : String
  regionID : String
  numOfVotes : Int
  deriving DecidableEq

/-- Class `Voter` (voter.h). -/
structure Voter where
  aadhaarID : String
  votingStatus : Bool
  deriving DecidableEq

/-- The ledger type `std::map<std::string, int64_t>`, entries kept in key order. -/
abbrev VoteMap := List (String × Int)

/-- The data members of `ElectionSystem` (election.h). -/
structure ElectionSystem where
  invalidCandidateList : List Candidate
  validCandidateList : List Candidate
  validVoterList : List Voter
  invalidVoterList : List (String × String)
  idSet : Finset String
  symbolSet : Finset String
  checkAadhar : Finset String
  votesSet : VoteMap
  errorMessage : String
  deriving DecidableEq

/-- A freshly constructed `ElectionSystem`: every container is empty. -/
def ElectionSystem.empty : ElectionSystem :=
  { invalidCandidateList := [], validCandidateList := [], validVoterList := [],
    invalidVoterList := [], idSet := ∅, symbolSet := ∅, checkAadhar := ∅,
    votesSet := [], errorMessage := "" }

/-- Operator answers still to come, one queue per kind of prompt. -/
structure Prompter where
  strings : List String
  chars : List Char
  choices : List Int
  deriving DecidableEq

/-- Outcome of running a piece of the program. -/
inductive Run (α : Type) where
  | done (a : α)
  | eof
  | undefined
  deriving DecidableEq

/-! ## Machine integers -/

/-- Conversion of an integer value to `int` (32-bit two's complement). -/
def wrap32 (x : Int) : Int := (x + 2147483648) % 4294967296 - 2147483648

/-- Conversion of an integer value to `int64_t` (64-bit two's complement). -/
def wrap64 (x : Int) : Int :=
  (x + 9223372036854775808) % 18446744073709551616 - 9223372036854775808

/-! ## The ledger container -/

/-- Lookup `m.find(k)`: the mapped value when the key is present. -/
def mapFind : VoteMap → String → Option Int
  | [], _ => none
  | (k', v) :: rest, k => if k' = k then some v else mapFind rest k

/-- Assignment `m[k] = v`: overwrite the entry, or insert it at its place in key order. -/
def mapAssign : VoteMap → String → Int → VoteMap
  | [], k, v => [(k, v)]
  | (k', v') :: rest, k, v =>
    if k' = k then (k', v) :: rest
    else if k.data < k'.data then (k, v) :: (k', v') :: rest
    else (k', v') :: mapAssign rest k v

/-- Call `m.erase(k)`. -/
def mapErase (m : VoteMap) (k : String) : VoteMap :=
  m.filter (fun e => decide (e.1 ≠ k))

/-- The container after evaluating `m[k]`: a missing key is inserted with value 0. -/
def mapTouch (m : VoteMap) (k : String) : VoteMap :=
  match mapFind m k with
  | some _ => m
  | none => mapAssign m k 0

/-- The value of `m[k]`: 0 for a missing key. -/
def mapAt (m : VoteMap) (k : String) : Int := (mapFind m k).getD 0

/-! ## Prompter collaborators -/

/-- Method `GetValidString` (and the `std::getline` / `std::cin >>` reads of text). -/
def GetValidString (p : Prompter) : Run (String × Prompter) :=
  match p.strings with
  | [] => .eof
  | s :: rest => .done (s, { p with strings := rest })

/-- Method `GetValidChar`. -/
def GetValidChar (p : Prompter) : Run (Char × Prompter) :=
  match p.chars with
  | [] => .eof
  | c :: rest => .done (c, { p with chars := rest })

/-- Method `GetChoice`. -/
def GetChoice (p : Prompter) : Run (Int × Prompter) :=
  match p.choices with
  | [] => .eof
  | n :: rest => .done (n, { p with choices := rest })

/-! ## Validation rules -/

/-- C `isdigit` in the "C" locale. -/
def isdigit (c : Char) : Bool := c.isDigit

/-- C `isalpha` in the "C" locale. -/
def isalpha (c : Char) : Bool := c.isAlpha

/-- C `isspace` in the "C" locale. -/
def isspace (c : Char) : Bool :=
  c = ' ' || c = '\t' || c = '\n' || c = '\r' || c.toNat = 11 || c.toNat = 12

/-- Store a message in `errorMessage`. -/
def ElectionSystem.setError (st : ElectionSystem) (msg : String) : ElectionSystem :=
  { st with errorMessage := msg }

/-- Method `ValidateCandidateID`: verdict and the system with `errorMessage` written. -/
def ValidateCandidateID (st : ElectionSystem) (id : String) : Bool × ElectionSystem :=
  if id ∈ st.idSet then
    (false, st.setError "Candidate ID already exists. Please enter a different ID.")
  else if id.length < 3 || id.length > 5 || !(id.data.any isdigit) || !(id.data.any isalpha) then
    (false, st.setError "Invalid Candidate ID format.")
  else if (id.data.all fun c => !(isdigit c)) || (id.data.all fun c => !(isalpha c)) then
    (false, st.setError
      "Candidate ID should contain at least one alpha and one numeric character.")
  else (true, st.setError "")

/-- Method `ValidateCandidateName`. -/
def ValidateCandidateName (st : ElectionSystem) (name : String) : Bool × ElectionSystem :=
  if name.length < 2 || name.length > 20 then
    (false, st.setError "Invalid Candidate Name length.")
  else if !(name.data.all isalpha) then
    (false, st.setError "Invalid characters in Candidate Name. Only alphabets are allowed.")
  else (true, st.setError "")

/-- Method `ValidatePartySymbol`. -/
def ValidatePartySymbol (st : ElectionSystem) (symbol : String) : Bool × ElectionSystem :=
  if symbol ∈ st.symbolSet then
    (false, st.setError "Party Symbol already exists. Please enter a different symbol.")
  else if symbol.length < 2 || symbol.length > 20 then
    (false, st.setError "Invalid Party Symbol length.")
  else if !(symbol.data.all isalpha) then
    (false, st.setError "Invalid characters in Party Symbol. Only alphabets are allowed.")
  else (true, st.setError "")

/-- Method `ValidateRegionCode`. -/
def ValidateRegionCode (st : ElectionSystem) (code : String) : Bool × ElectionSystem :=
  if (code.data.all fun c => !(isdigit c)) || (code.data.all fun c => !(isalpha c)) then
    (false, st.setError
      "Region Code should contain at least one alpha and one numeric character.")
  else (true, st.setError "")

/-- Library call `std::stoi(str)`: skip leading white space, read an optional sign and
the longest run of digits; `none` stands for a thrown exception (no digits, or a
value outside `int`). -/
def stoi (str : String) : Option Int :=
  let s := str.data.dropWhile isspace
  let neg := s.head? = some '-'
  let s := if s.head? = some '-' ∨ s.head? = some '+' then s.tail else s
  let ds := s.takeWhile isdigit
  if ds = [] then none
  else
    let v : Int := ds.foldl (fun acc c => acc * 10 + ((c.toNat : Int) - 48)) 0
    let v := if neg then -v else v
    if -2147483648 ≤ v ∧ v ≤ 2147483647 then some v else none

/-- Method `IsValidNumber`. -/
def IsValidNumber (str : String) : Bool :=
  if str.isEmpty then false
  else if !(str.data.all isdigit) then false
  else match stoi str with
    | some value => decide (value ≥ 0)
    | none => false

/-- Method `Convert2Int`. -/
def Convert2Int (str : String) : Int :=
  match stoi str with
  | some value => if value ≥ 0 then value else 0
  | none => 0

/-- Method `IsValidAadhar`; `aadhar[0]` of an empty string is the terminating NUL. -/
def IsValidAadhar (st : ElectionSystem) (aadhar : String) : Bool × ElectionSystem :=
  if aadhar.data.headD (Char.ofNat 0) ≠ '0' ∧ aadhar.length = 12 ∧ aadhar.data.all isdigit then
    (true, st.setError "")
  else (false, st.setError "Invalid Aadhar ID ")

/-- Method `IsValidStatus`. -/
def IsValidStatus (st : ElectionSystem) (status : String) : Bool × ElectionSystem :=
  if status.length = 1 ∧ (status = "0" ∨ status = "1") then (true, st.setError "")
  else (false, st.setError "Invalid Voting Status ")

/-! ## Control-flow helpers -/

/-- Sequencing of runs: the first outcome that is not `done` ends the run. -/
def Run.bind {α β : Type} (x : Run α) (f : α → Run β) : Run β :=
  match x with
  | .done a => f a
  | .eof => .eof
  | .undefined => .undefined

instance : Monad Run where
  pure := Run.done
  bind := Run.bind

/-- The retry loop every interactive operation is built from: read a text answer and
validate it; a valid answer leaves the loop (`some`), an invalid one is followed by
the "Do you want to continue ? n for back" question, where the answer `n` gives up
(`none`) and any other character asks again. -/
def promptLoop (validate : ElectionSystem → String → Bool × ElectionSystem) :
    ElectionSystem → List String → List Char →
      Run (Option String × ElectionSystem × List String × List Char)
  | _, [], _ => .eof
  | st, s :: ss, cs =>
    if (validate st s).1 then .done (some s, (validate st s).2, ss, cs)
    else
      match cs with
      | [] => .eof
      | c :: cs' =>
        if c = 'n' then .done (none, (validate st s).2, ss, cs')
        else promptLoop validate (validate st s).2 ss cs'

/-- The retry loop run against a `Prompter`. -/
def promptUntilValid (validate : ElectionSystem → String → Bool × ElectionSystem)
    (st : ElectionSystem) (p : Prompter) : Run (Option String × ElectionSystem × Prompter) :=
  match promptLoop validate st p.strings p.chars with
  | .done (r, st', ss, cs) => .done (r, st', { p with strings := ss, chars := cs })
  | .eof => .eof
  | .undefined => .undefined

/-- Update the first element satisfying `pred`, as a `for` loop with `break` does. -/
def setFirst {α : Type} (pred : α → Bool) (f : α → α) : List α → List α
  | [] => []
  | x :: xs => if pred x then f x :: xs else x :: setFirst pred f xs

/-! ## Loading from the record source -/

/-- One line of `Candidate.csv` split at commas: id, name, symbol, region, count
(a missing field is the empty string). -/
structure CandidateRow where
  id : String
  name : String
  symbol : String
  reg : String
  count : String
  deriving DecidableEq

/-- The body of the `while (std::getline(inputFile, line))` loop of `CandidateCsvCheck`. -/
def CandidateCsvCheck.line (st : ElectionSystem) (row : CandidateRow) : ElectionSystem :=
  if row.id.isEmpty then st
  else
    let count := if row.count.isEmpty || !(IsValidNumber row.count) then "0" else row.count
    let r1 := ValidateCandidateID st row.id
    let r2 := if r1.1 then ValidateCandidateName r1.2 row.name else r1
    let r3 := if r2.1 then ValidatePartySymbol r2.2 row.symbol else r2
    let r4 := if r3.1 then ValidateRegionCode r3.2 row.reg else r3
    let candidate : Candidate := ⟨row.id, row.name, row.symbol, row.reg, Convert2Int count⟩
    if r4.1 then
      { r4.2 with
        validCandidateList := r4.2.validCandidateList ++ [candidate]
        idSet := insert row.id r4.2.idSet
        symbolSet := insert row.symbol r4.2.symbolSet
        votesSet := mapAssign r4.2.votesSet row.id (Convert2Int count) }
    else
      { r4.2 with invalidCandidateList := r4.2.invalidCandidateList ++ [candidate] }

/-- Method `CandidateCsvCheck`; `file = none` when `Candidate.csv` cannot be opened. -/
def CandidateCsvCheck (file : Option (List CandidateRow)) (st : ElectionSystem) :
    Bool × ElectionSystem :=
  match file with
  | none => (false, st)
  | some rows =>
    let st' := rows.foldl CandidateCsvCheck.line st
    (decide (st'.validCandidateList.length ≥ 1), st')

/-- The body of the line loop of `VoterCsvCheck` for a non-empty line: the Aadhar field
and the status field, which is `none` when nothing follows the Aadhar field on the line
(the second `std::getline` fails). An empty line yields no row. -/
def VoterCsvCheck.line (st : ElectionSystem) (row : String × Option String) : ElectionSystem :=
  let aadhar := row.1
  match row.2 with
  | some status =>
    let r1 := IsValidAadhar st aadhar
    let r2 :=
      if r1.1 ∧ aadhar ∉ r1.2.checkAadhar then IsValidStatus r1.2 status else (false, r1.2)
    if r2.1 then
      { r2.2 with
        checkAadhar := insert aadhar r2.2.checkAadhar
        validVoterList := r2.2.validVoterList ++ [⟨aadhar, decide (status = "1")⟩] }
    else if !aadhar.isEmpty then
      { r2.2 with invalidVoterList := r2.2.invalidVoterList ++ [(aadhar, status)] }
    else r2.2
  | none =>
    if !aadhar.isEmpty then
      { st with invalidVoterList := st.invalidVoterList ++ [(aadhar, "")] }
    else st

/-- Method `VoterCsvCheck`; `file = none` when `Voter.csv` cannot be opened. -/
def VoterCsvCheck (file : Option (List (String × Option String))) (st : ElectionSystem) :
    Bool × ElectionSystem :=
  match file with
  | none => (false, st)
  | some rows =>
    let st' := rows.foldl VoterCsvCheck.line st
    (decide (st'.validVoterList.length ≥ 1), st')

/-! ## Candidate operations -/

/-- Method `AddCandidate`. -/
def AddCandidate (st : ElectionSystem) (p : Prompter) : Run (Bool × ElectionSystem × Prompter) := do
  let (rid, st1, p1) ← promptUntilValid ValidateCandidateID st p
  match rid with
  | none => pure (false, st1, p1)
  | some id =>
    let (rname, st2, p2) ← promptUntilValid ValidateCandidateName st1 p1
    match rname with
    | none =>
      pure (false, { st2 with
        invalidCandidateList := st2.invalidCandidateList ++ [⟨id, "", "", "", 0⟩] }, p2)
    | some name =>
      let (rsym, st3, p3) ← promptUntilValid ValidatePartySymbol st2 p2
      match rsym with
      | none =>
        pure (false, { st3 with
          invalidCandidateList := st3.invalidCandidateList ++ [⟨id, name, "", "", 0⟩] }, p3)
      | some symbol =>
        let (rreg, st4, p4) ← promptUntilValid ValidateRegionCode st3 p3
        match rreg with
        | none =>
          pure (false, { st4 with
            invalidCandidateList := st4.invalidCandidateList ++ [⟨id, name, symbol, "", 0⟩] }, p4)
        | some regionCode =>
          pure (true, { st4 with
            symbolSet := insert symbol st4.symbolSet
            idSet := insert id st4.idSet
            validCandidateList := st4.validCandidateList ++ [⟨id, name, symbol, regionCode, 0⟩] },
            p4)

/-- The test that puts a rejected record into `temp` in `FillMissingCandidateInfo`
(lines 653-656), evaluated left to right with short-circuit. -/
def FillMissingCandidateInfo.defective (st : ElectionSystem) (c : Candidate) :
    Bool × ElectionSystem :=
  if c.candidateID.isEmpty || c.candidateName.isEmpty || c.partySymbol.isEmpty
      || c.regionID.isEmpty then (true, st)
  else
    let r1 := ValidateCandidateID st c.candidateID
    if !r1.1 then (true, r1.2)
    else
      let r2 := ValidateCandidateName r1.2 c.candidateName
      if !r2.1 then (true, r2.2)
      else
        let r3 := ValidatePartySymbol r2.2 c.partySymbol
        if !r3.1 then (true, r3.2)
        else
          let r4 := ValidateRegionCode r3.2 c.regionID
          (!r4.1, r4.2)

/-- The first loop of `FillMissingCandidateInfo`: collect the defective records in `temp`. -/
def FillMissingCandidateInfo.scan :
    ElectionSystem → List Candidate → List Candidate × ElectionSystem
  | st, [] => ([], st)
  | st, c :: cs =>
    let r := FillMissingCandidateInfo.defective st c
    let rest := FillMissingCandidateInfo.scan r.2 cs
    (if r.1 then c :: rest.1 else rest.1, rest.2)

/-- One defect slot of `FillMissingCandidateInfo` and `FillMissingVoterInfo`: keep the
current value when it validates, otherwise run the retry loop. The flag tells whether
the value was re-entered. -/
def repairSlot (validate : ElectionSystem → String → Bool × ElectionSystem)
    (st : ElectionSystem) (p : Prompter) (current : String) :
    Run (Option (String × Bool) × ElectionSystem × Prompter) :=
  if (validate st current).1 then .done (some (current, false), (validate st current).2, p)
  else
    match promptUntilValid validate (validate st current).2 p with
    | .done (some s, st', p') => .done (some (s, true), st', p')
    | .done (none, st', p') => .done (none, st', p')
    | .eof => .eof
    | .undefined => .undefined

/-- The repair of the chosen record `modify = temp[k]` in `FillMissingCandidateInfo`
(lines 680-827). The setter calls on `modify` only touch the element of `temp` that
is erased before `temp` is swapped in, so they are not tracked. -/
def FillMissingCandidateInfo.repair (st : ElectionSystem) (p : Prompter)
    (temp : List Candidate) (k : Nat) (modify : Candidate) :
    Run (Bool × ElectionSystem × Prompter) := do
  let (rid, st1, p1) ← repairSlot ValidateCandidateID st p modify.candidateID
  match rid with
  | none => pure (false, st1, p1)
  | some (mid, entered) =>
    let st1 := if entered then { st1 with idSet := insert mid st1.idSet } else st1
    let (rname, st2, p2) ←
      repairSlot ValidateCandidateName st1 p1 modify.candidateName
    match rname with
    | none => pure (false, st2, p2)
    | some (mname, _) =>
      let (rsym, st3, p3) ←
        repairSlot ValidatePartySymbol st2 p2 modify.partySymbol
      match rsym with
      | none => pure (false, st3, p3)
      | some (msymbol, enteredSym) =>
        let st3 := if enteredSym then { st3 with symbolSet := insert msymbol st3.symbolSet } else st3
        let (rreg, st4, p4) ←
          repairSlot ValidateRegionCode st3 p3 modify.regionID
        match rreg with
        | none => pure (false, st4, p4)
        | some (mreg, _) =>
          pure (true, { st4 with
            validCandidateList :=
              st4.validCandidateList ++ [⟨mid, mname, msymbol, mreg, modify.numOfVotes⟩]
            invalidCandidateList := temp.eraseIdx k
            idSet := insert mid st4.idSet
            symbolSet := insert msymbol st4.symbolSet }, p4)

/-- The `while(true)` menu loop of `FillMissingCandidateInfo` (lines 667-840). -/
def FillMissingCandidateInfo.menu (temp : List Candidate) :
    ElectionSystem → List Int → List String → List Char →
      Run (Bool × ElectionSystem × Prompter)
  | _, [], _, _ => .eof
  | st, candidateChoice :: ns, ss, cs =>
    if candidateChoice ≥ 1 ∧ candidateChoice < (temp.length : Int) + 1 then
      match temp[(candidateChoice - 1).toNat]? with
      | some modify =>
        FillMissingCandidateInfo.repair st ⟨ss, cs, ns⟩ temp (candidateChoice - 1).toNat modify
      | none => .undefined
    else
      match cs with
      | [] => .eof
      | c :: cs' =>
        if c = 'n' then .done (false, st, ⟨ss, cs', ns⟩)
        else FillMissingCandidateInfo.menu temp st ns ss cs'

/-- Method `FillMissingCandidateInfo`. -/
def FillMissingCandidateInfo (st : ElectionSystem) (p : Prompter) :
    Run (Bool × ElectionSystem × Prompter) :=
  let r := FillMissingCandidateInfo.scan st st.invalidCandidateList
  if r.1.length ≥ 1 then FillMissingCandidateInfo.menu r.1 r.2 p.choices p.strings p.chars
  else .done (false, r.2, p)

/-- Method `RemoveCandidate`. -/
def RemoveCandidate (st : ElectionSystem) (p : Prompter) : Run (Bool × ElectionSystem × Prompter) :=
  if st.validCandidateList.isEmpty then .done (false, st, p)
  else do
    let (r, st1, p1) ← promptUntilValid
      (fun s candidateID => (s.validCandidateList.any fun c => c.candidateID = candidateID, s)) st p
    match r with
    | none => pure (false, st1, p1)
    | some candidateID =>
      pure (true, { st1 with
        validCandidateList := st1.validCandidateList.eraseP fun c => c.candidateID = candidateID
        votesSet := mapErase st1.votesSet candidateID
        idSet := st1.idSet.erase candidateID }, p1)

/-- The field menu of `ModifyCandidate` (lines 946-1066) for the candidate found. -/
def ModifyCandidate.menu (candidateID : String) :
    ElectionSystem → List Int → List String → List Char →
      Run (Bool × ElectionSystem × Prompter)
  | _, [], _, _ => .eof
  | st, choice :: ns, ss, cs =>
    if choice = 1 then do
      let (r, st1, p1) ← promptUntilValid ValidateCandidateName st ⟨ss, cs, ns⟩
      match r with
      | none => pure (false, st1, p1)
      | some newName =>
        pure (true, { st1 with
          validCandidateList := setFirst (fun c => c.candidateID = candidateID)
            (fun c => { c with candidateName := newName }) st1.validCandidateList }, p1)
    else if choice = 2 then do
      let (r, st1, p1) ← promptUntilValid ValidatePartySymbol st ⟨ss, cs, ns⟩
      match r with
      | none => pure (false, st1, p1)
      | some newPartySymbol =>
        pure (true, { st1 with
          validCandidateList := setFirst (fun c => c.candidateID = candidateID)
            (fun c => { c with partySymbol := newPartySymbol }) st1.validCandidateList
          symbolSet :=
            if st1.validCandidateList.any (fun c => c.candidateID = candidateID) then
              insert newPartySymbol st1.symbolSet
            else st1.symbolSet }, p1)
    else if choice = 3 then do
      let (r, st1, p1) ← promptUntilValid ValidateRegionCode st ⟨ss, cs, ns⟩
      match r with
      | none => pure (false, st1, p1)
      | some newRegionCode =>
        pure (true, { st1 with
          validCandidateList := setFirst (fun c => c.candidateID = candidateID)
            (fun c => { c with regionID := newRegionCode }) st1.validCandidateList }, p1)
    else
      match cs with
      | [] => .eof
      | c :: cs' =>
        if c = 'n' then .done (false, st, ⟨ss, cs', ns⟩)
        else ModifyCandidate.menu candidateID st ns ss cs'

/-- Method `ModifyCandidate`. -/
def ModifyCandidate (st : ElectionSystem) (p : Prompter) : Run (Bool × ElectionSystem × Prompter) :=
  if st.validCandidateList.isEmpty then .done (false, st, p)
  else do
    let (r, st1, p1) ← promptUntilValid
      (fun s candidateID => (s.validCandidateList.any fun c => c.candidateID = candidateID, s)) st p
    match r with
    | none => pure (false, st1, p1)
    | some candidateID => ModifyCandidate.menu candidateID st1 p1.choices p1.strings p1.chars

/-! ## Voter operations -/

/-- The test applied to an entered Aadhar number in `AddVoter`, `ModifyVoter` and
`FillMissingVoterInfo`: `IsValidAadhar(aadhar)` and then absence from `checkAadhar`. -/
def ValidateNewAadhar (st : ElectionSystem) (aadhar : String) : Bool × ElectionSystem :=
  let r := IsValidAadhar st aadhar
  if r.1 then (decide (aadhar ∉ r.2.checkAadhar), r.2) else (false, r.2)

/-- Method `AddVoter`. -/
def AddVoter (st : ElectionSystem) (p : Prompter) : Run (Bool × ElectionSystem × Prompter) := do
  let (r, st1, p1) ← promptUntilValid ValidateNewAadhar st p
  match r with
  | none => pure (false, st1, p1)
  | some aadhar =>
    pure (true, { st1 with
      checkAadhar := insert aadhar st1.checkAadhar
      validVoterList := st1.validVoterList ++ [⟨aadhar, false⟩] }, p1)

/-- The `do ... while (!IsValidStatus(status))` loop of `ModifyVoter`: no way to cancel. -/
def ModifyVoter.statusLoop : ElectionSystem → List String → Run (String × ElectionSystem × List String)
  | _, [] => .eof
  | st, status :: ss =>
    if (IsValidStatus st status).1 then .done (status, (IsValidStatus st status).2, ss)
    else ModifyVoter.statusLoop (IsValidStatus st status).2 ss

/-- The update of the chosen voter `validVoterList[k]` in `ModifyVoter` (lines 1158-1240);
`none` when the update choice is neither 1 nor 2 and the outer loop goes round again. -/
def ModifyVoter.update (st : ElectionSystem) (p : Prompter) (k : Nat) (voter : Voter)
    (updateChoice : Int) : Option (Run (Bool × ElectionSystem × Prompter)) :=
  if updateChoice = 1 then
    some (
      if voter.aadhaarID ∈ st.checkAadhar then do
        let st0 := { st with checkAadhar := st.checkAadhar.erase voter.aadhaarID }
        let (r, st1, p1) ← promptUntilValid ValidateNewAadhar st0 p
        match r with
        | none => pure (false, st1, p1)
        | some aadhar =>
          pure (true, { st1 with
            checkAadhar := insert aadhar st1.checkAadhar
            validVoterList := st1.validVoterList.set k { voter with aadhaarID := aadhar } }, p1)
      else .undefined)
  else if updateChoice = 2 then
    some (
      match ModifyVoter.statusLoop st p.strings with
      | .done (status, st1, ss) =>
        .done (true, { st1 with
          validVoterList :=
            st1.validVoterList.set k { voter with votingStatus := decide (status = "1") } },
          { p with strings := ss })
      | .eof => .eof
      | .undefined => .undefined)
  else none

/-- The `while(true)` loop of `ModifyVoter` (lines 1153-1253). -/
def ModifyVoter.menu :
    ElectionSystem → List Int → List String → List Char → Run (Bool × ElectionSystem × Prompter)
  | _, [], _, _ => .eof
  | st, aadharIdChoice :: ns, ss, cs =>
    if aadharIdChoice ≥ 1 ∧ aadharIdChoice < (st.validVoterList.length : Int) + 1 then
      match st.validVoterList[(aadharIdChoice - 1).toNat]? with
      | none => .undefined
      | some voter =>
        match ns with
        | [] => .eof
        | updateChoice :: ns' =>
          match ModifyVoter.update st ⟨ss, cs, ns'⟩ (aadharIdChoice - 1).toNat voter updateChoice with
          | some r => r
          | none => ModifyVoter.menu st ns' ss cs
    else
      match cs with
      | [] => .eof
      | c :: cs' =>
        if c = 'n' then .done (false, st, ⟨ss, cs', ns⟩)
        else ModifyVoter.menu st ns ss cs'

/-- Method `ModifyVoter`. -/
def ModifyVoter (st : ElectionSystem) (p : Prompter) : Run (Bool × ElectionSystem × Prompter) :=
  if st.validVoterList.isEmpty then .done (false, st, p)
  else ModifyVoter.menu st p.choices p.strings p.chars

/-- Method `RemoveVoter`. -/
def RemoveVoter (st : ElectionSystem) (p : Prompter) : Run (Bool × ElectionSystem × Prompter) :=
  if st.validVoterList.isEmpty then .done (false, st, p)
  else do
    let (r, st1, p1) ← promptUntilValid IsValidAadhar st p
    match r with
    | none => pure (false, st1, p1)
    | some aadharID =>
      if st1.validVoterList.any (fun v => v.aadhaarID = aadharID) then
        if aadharID ∈ st1.checkAadhar then
          pure (true, { st1 with
            checkAadhar := st1.checkAadhar.erase aadharID
            validVoterList := st1.validVoterList.eraseP fun v => v.aadhaarID = aadharID }, p1)
        else .undefined
      else pure (true, st1, p1)

/-- The repair of the chosen pair `invalidVoterList[k]` in `FillMissingVoterInfo`
(lines 1549-1662): the Aadhar slot, whose accepted value goes into `checkAadhar` at
once, then the status slot, then the promotion. -/
def FillMissingVoterInfo.repair (st : ElectionSystem) (p : Prompter) (k : Nat)
    (pair : String × String) : Run (Bool × ElectionSystem × Prompter) := do
  let (ra, st1, p1) ← repairSlot ValidateNewAadhar st p pair.1
  match ra with
  | none => pure (false, st1, p1)
  | some (aadhar, _) =>
    let (rs, st2, p2) ←
      repairSlot IsValidStatus { st1 with checkAadhar := insert aadhar st1.checkAadhar } p1 pair.2
    match rs with
    | none => pure (false, st2, p2)
    | some (status, _) =>
      pure (true, { st2 with
        validVoterList := st2.validVoterList ++ [⟨aadhar, decide (status = "1")⟩]
        invalidVoterList := st2.invalidVoterList.eraseIdx k }, p2)

/-- The `while(true)` loop of `FillMissingVoterInfo` (lines 1543-1678); `count` is the
size of `invalidVoterList` plus one and the accepted range is `1 <= choice <= count`. -/
def FillMissingVoterInfo.menu :
    ElectionSystem → List Int → List String → List Char → Run (Bool × ElectionSystem × Prompter)
  | _, [], _, _ => .eof
  | st, aadharIdChoice :: ns, ss, cs =>
    if aadharIdChoice ≥ 1 ∧ aadharIdChoice ≤ (st.invalidVoterList.length : Int) + 1 then
      match st.invalidVoterList[(aadharIdChoice - 1).toNat]? with
      | some pair => FillMissingVoterInfo.repair st ⟨ss, cs, ns⟩ (aadharIdChoice - 1).toNat pair
      | none => .undefined
    else
      match cs with
      | [] => .eof
      | c :: cs' =>
        if c = 'n' then .done (false, st, ⟨ss, cs', ns⟩)
        else FillMissingVoterInfo.menu st ns ss cs'

/-- Method `FillMissingVoterInfo`. -/
def FillMissingVoterInfo (st : ElectionSystem) (p : Prompter) :
    Run (Bool × ElectionSystem × Prompter) :=
  if st.invalidVoterList.isEmpty then .done (true, st, p)
  else FillMissingVoterInfo.menu st p.choices p.strings p.chars

/-! ## Vote casting and results -/

/-- The loop of `CastVote` at lines 1411-1416: `currentStatus` ends as the flag of the
last voter carrying the identifier, and stays uninitialised (`none`) when there is none. -/
def CastVote.currentStatus (voters : List Voter) (aadhaarID : String) : Option Bool :=
  voters.foldl (fun cur voter => if voter.aadhaarID = aadhaarID then some voter.votingStatus else cur)
    none

/-- The commit of `CastVote` (lines 1423-1438): for the first candidate carrying the
identifier, increment its ledger entry, store the entry as `int` in the candidate, and
set the flag of the first voter carrying the Aadhar identifier. -/
def CastVote.commit (st : ElectionSystem) (candidateID aadhaarID : String) : ElectionSystem :=
  if st.validCandidateList.any (fun c => c.candidateID = candidateID) then
    let votes := wrap64 (mapAt st.votesSet candidateID + 1)
    { st with
      votesSet := mapAssign st.votesSet candidateID votes
      validCandidateList := setFirst (fun c => c.candidateID = candidateID)
        (fun c => { c with numOfVotes := wrap32 votes }) st.validCandidateList
      validVoterList := setFirst (fun v => v.aadhaarID = aadhaarID)
        (fun v => { v with votingStatus := true }) st.validVoterList }
  else st

/-- The two selection loops of `CastVote` (lines 1335-1409): the candidate identifier is
asked until it is found in `idSet`, then the Aadhar identifier until it is found in
`checkAadhar`; `none` when the operator gives up in either loop. -/
def CastVote.select (st : ElectionSystem) (p : Prompter) :
    Run (Option (String × String) × Prompter) := do
  let (rc, _, p1) ← promptUntilValid (fun s candidateID => (decide (candidateID ∈ s.idSet), s)) st p
  match rc with
  | none => pure (none, p1)
  | some candidateID =>
    let (ra, _, p2) ← promptUntilValid (fun s aadhaarID => (decide (aadhaarID ∈ s.checkAadhar), s)) st p1
    match ra with
    | none => pure (none, p2)
    | some aadhaarID => pure (some (candidateID, aadhaarID), p2)

/-- Method `CastVote`. Reading the uninitialised `currentStatus` is undefined. -/
def CastVote (st : ElectionSystem) (p : Prompter) : Run (Bool × ElectionSystem × Prompter) := do
  let (sel, p1) ← CastVote.select st p
  match sel with
  | none => pure (false, st, p1)
  | some (candidateID, aadhaarID) =>
    match CastVote.currentStatus st.validVoterList aadhaarID with
    | none => .undefined
    | some currentStatus =>
      if !currentStatus then pure (true, CastVote.commit st candidateID aadhaarID, p1)
      else pure (true, st, p1)

/-- Method `IndividualResult`: printing `votesSet[candidateID]` creates a missing entry. -/
def IndividualResult (st : ElectionSystem) (p : Prompter) :
    Run (Bool × ElectionSystem × Prompter) := do
  let (r, st1, p1) ← promptUntilValid (fun s candidateID => (decide (candidateID ∈ s.idSet), s)) st p
  match r with
  | none => pure (false, st1, p1)
  | some candidateID => pure (true, { st1 with votesSet := mapTouch st1.votesSet candidateID }, p1)

/-- Method `ShowResult`: the ledger is first overwritten from the stored vote counts. -/
def ShowResult (st : ElectionSystem) : Bool × ElectionSystem :=
  (true, { st with
    votesSet := st.validCandidateList.foldl
      (fun m candidate => mapAssign m candidate.candidateID candidate.numOfVotes) st.votesSet })

/-- Method `checkCast`. -/
def checkCast (st : ElectionSystem) : Bool :=
  decide (st.validVoterList.length ≥ 1) && decide (st.validCandidateList.length ≥ 1)

/-- Method `checkCandidate`. -/
def checkCandidate (st : ElectionSystem) : Bool := decide (st.validCandidateList.length ≥ 1)

/-! ## Reachable states -/

/-- The operations of the system, with the file contents handed to the two loaders. -/
inductive Operation where
  | candidateCsvCheck (file : Option (List CandidateRow))
  | voterCsvCheck (file : Option (List (String × Option String)))
  | addCandidate
  | fillMissingCandidateInfo
  | modifyCandidate
  | removeCandidate
  | addVoter
  | fillMissingVoterInfo
  | modifyVoter
  | removeVoter
  | castVote
  | showResult
  | individualResult

/-- Run one operation on a state with the operator answers of `p`. -/
def Operation.run (op : Operation) (st : ElectionSystem) (p : Prompter) :
    Run (Bool × ElectionSystem × Prompter) :=
  match op with
  | .candidateCsvCheck file => .done ((CandidateCsvCheck file st).1, (CandidateCsvCheck file st).2, p)
  | .voterCsvCheck file => .done ((VoterCsvCheck file st).1, (VoterCsvCheck file st).2, p)
  | .addCandidate => AddCandidate st p
  | .fillMissingCandidateInfo => FillMissingCandidateInfo st p
  | .modifyCandidate => ModifyCandidate st p
  | .removeCandidate => RemoveCandidate st p
  | .addVoter => AddVoter st p
  | .fillMissingVoterInfo => FillMissingVoterInfo st p
  | .modifyVoter => ModifyVoter st p
  | .removeVoter => RemoveVoter st p
  | .castVote => CastVote st p
  | .showResult => .done ((ShowResult st).1, (ShowResult st).2, p)
  | .individualResult => IndividualResult st p

/-- States the system can be in between operations: the empty system, and every state
in which an operation returns when started in a reachable state. -/
inductive Reachable : ElectionSystem → Prop where
  | init : Reachable ElectionSystem.empty
  | step {st st' : ElectionSystem} (op : Operation) (p p' : Prompter) (b : Bool) :
      Reachable st → op.run st p = .done (b, st', p') → Reachable st'

/-! ## Predicates used in the statements -/

/-- Two systems that differ at most in `errorMessage`. -/
def SameData (a b : ElectionSystem) : Prop := ∃ m, b = a.setError m

/-- A validation rule: it writes nothing but `errorMessage`, and its verdict does not
depend on `errorMessage`. -/
structure IsRule (validate : ElectionSystem → String → Bool × ElectionSystem) : Prop where
  frame : ∀ st s, SameData st (validate st s).2
  blind : ∀ st st' s, SameData st st' → (validate st' s).1 = (validate st s).1

/-- Invariant I2 together with the index inclusions it rests on: the identifiers and
the party symbols of the admitted candidates are pairwise different and are members of
`idSet` and `symbolSet`. -/
structure CandidateInv (st : ElectionSystem) : Prop where
  idsNodup : (st.validCandidateList.map fun c => c.candidateID).Nodup
  symbolsNodup : (st.validCandidateList.map fun c => c.partySymbol).Nodup
  idIndexed : ∀ c ∈ st.validCandidateList, c.candidateID ∈ st.idSet
  symbolIndexed : ∀ c ∈ st.validCandidateList, c.partySymbol ∈ st.symbolSet

/-- The candidate side of a system: both candidate collections, the two candidate
indices and the ledger. -/
def CandidateData (st : ElectionSystem) :
    List Candidate × List Candidate × Finset String × Finset String × VoteMap :=
  (st.validCandidateList, st.invalidCandidateList, st.idSet, st.symbolSet, st.votesSet)

/-- Invariant I5: each uniqueness index is exactly the set of keys of the admitted
records. -/
def IndexExact (st : ElectionSystem) : Prop :=
  st.idSet = (st.validCandidateList.map fun c => c.candidateID).toFinset ∧
  st.symbolSet = (st.validCandidateList.map fun c => c.partySymbol).toFinset ∧
  st.checkAadhar = (st.validVoterList.map fun v => v.aadhaarID).toFinset

/-! ## Concrete scenarios -/

/-- The system after loading the single line `C1a,,Red,R1a,5` of `Candidate.csv`: the
record is rejected for its empty name and keeps its count 5. -/
def Scenario.rejectedWithVotes : ElectionSystem :=
  (CandidateCsvCheck (some [⟨"C1a", "", "Red", "R1a", "5"⟩]) ElectionSystem.empty).2

/-- The system after the rejected record of `Scenario.rejectedWithVotes` has been
repaired with the name `Alice`. -/
def Scenario.promotedWithVotes : ElectionSystem :=
  { invalidCandidateList := [], validCandidateList := [⟨"C1a", "Alice", "Red", "R1a", 5⟩],
    validVoterList := [], invalidVoterList := [], idSet := {"C1a"}, symbolSet := {"Red"},
    checkAadhar := ∅, votesSet := [], errorMessage := "" }

/-- One admitted candidate `C1a` with zero votes and one admitted voter who has not
voted, as loaded from `C1a,Alice,Red,R1a,0` and `123456789012,0`. -/
def Scenario.oneEach : ElectionSystem :=
  (VoterCsvCheck (some [("123456789012", some "0")])
    (CandidateCsvCheck (some [⟨"C1a", "Alice", "Red", "R1a", "0"⟩]) ElectionSystem.empty).2).2

/-- The state `Scenario.oneEach` after `ModifyVoter` was started for voter 1, update
choice 1 (Aadhar ID), the text `abc` was refused and the operator answered `n`: the
voter is still admitted, its identifier is gone from `checkAadhar`. -/
def Scenario.unindexedVoter : ElectionSystem :=
  { Scenario.oneEach with checkAadhar := ∅, errorMessage := "Invalid Aadhar ID " }

/-- The state `Scenario.unindexedVoter` after `AddVoter` accepted `123456789012` again. -/
def Scenario.twinVoters : ElectionSystem :=
  { Scenario.oneEach with
    checkAadhar := {"123456789012"}
    validVoterList := [⟨"123456789012", false⟩, ⟨"123456789012", false⟩]
    errorMessage := "" }

/-- The state `Scenario.oneEach` after `ModifyCandidate` changed the party symbol of
`C1a` from `Red` to `Blue`. -/
def Scenario.symbolAmended : ElectionSystem :=
  { Scenario.oneEach with
    validCandidateList := [⟨"C1a", "Alice", "Blue", "R1a", 0⟩]
    symbolSet := insert "Blue" {"Red"}
    errorMessage := "" }

/-- Two admitted candidates, loaded from `C1a,Alice,Red,R1a,0` and `B2b,Bob,Blue,R2b,3`. -/
def Scenario.twoCandidates : ElectionSystem :=
  (CandidateCsvCheck
    (some [⟨"C1a", "Alice", "Red", "R1a", "0"⟩, ⟨"B2b", "Bob", "Blue", "R2b", "3"⟩])
    ElectionSystem.empty).2

/-- The state `Scenario.twinVoters` after one `CastVote` for `C1a` by `123456789012`. -/
def Scenario.twinVotedOnce : ElectionSystem :=
  { Scenario.twinVoters with
    validCandidateList := [⟨"C1a", "Alice", "Red", "R1a", 1⟩]
    validVoterList := [⟨"123456789012", true⟩, ⟨"123456789012", false⟩]
    votesSet := [("C1a", 1)] }

/-- The state `Scenario.twinVotedOnce` after a second `CastVote` for `C1a` by the same
identifier. -/
def Scenario.twinVotedTwice : ElectionSystem :=
  { Scenario.twinVoters with
    validCandidateList := [⟨"C1a", "Alice", "Red", "R1a", 2⟩]
    validVoterList := [⟨"123456789012", true⟩, ⟨"123456789012", false⟩]
    votesSet := [("C1a", 2)] }

/-- One admitted candidate `C1a`, one rejected record `CC,,Blue,R2b,0` and one admitted
voter who has not voted. -/
def Scenario.oneRejected : ElectionSystem :=
  (VoterCsvCheck (some [("123456789012", some "0")])
    (CandidateCsvCheck
      (some [⟨"C1a", "Alice", "Red", "R1a", "0"⟩, ⟨"CC", "", "Blue", "R2b", "0"⟩])
      ElectionSystem.empty).2).2

/-- The state `Scenario.oneRejected` after `FillMissingCandidateInfo` was started for
record 1, the new ID `X9z` was accepted, the name `1` was refused and the operator
answered `n`: `X9z` stays in `idSet` although no candidate carries it. -/
def Scenario.staleId : ElectionSystem :=
  { Scenario.oneRejected with
    idSet := insert "X9z" {"C1a"}
    errorMessage := "Invalid Candidate Name length." }

/-- One admitted candidate and one admitted voter imported with status `1`. -/
def Scenario.importedVoted : ElectionSystem :=
  (VoterCsvCheck (some [("123456789012", some "1")])
    (CandidateCsvCheck (some [⟨"C1a", "Alice", "Red", "R1a", "0"⟩]) ElectionSystem.empty).2).2

/-- One admitted candidate `C1a` imported with count 2147483647 (the largest `int`) and
one admitted voter who has not voted. -/
def Scenario.atIntMax : ElectionSystem :=
  (VoterCsvCheck (some [("123456789012", some "0")])
    (CandidateCsvCheck (some [⟨"C1a", "Alice", "Red", "R1a", "2147483647"⟩])
      ElectionSystem.empty).2).2

/-- The state `Scenario.atIntMax` after `CastVote` for `C1a` by `123456789012`: the
ledger entry is 2147483648, the stored `int` count has wrapped. -/
def Scenario.pastIntMax : ElectionSystem :=
  { Scenario.atIntMax with
    validCandidateList := [⟨"C1a", "Alice", "Red", "R1a", -2147483648⟩]
    validVoterList := [⟨"123456789012", true⟩]
    votesSet := [("C1a", 2147483648)] }

/-- One admitted candidate `C1a` imported with count 2147483646 and two admitted voters
who have not voted. -/
def Scenario.belowIntMax : ElectionSystem :=
  (VoterCsvCheck (some [("123456789012", some "0"), ("223456789012", some "0")])
    (CandidateCsvCheck (some [⟨"C1a", "Alice", "Red", "R1a", "2147483646"⟩])
      ElectionSystem.empty).2).2

/-- The state `Scenario.belowIntMax` after `CastVote` for `C1a` by `123456789012`. -/
def Scenario.belowIntMaxOnce : ElectionSystem :=
  { Scenario.belowIntMax with
    validCandidateList := [⟨"C1a", "Alice", "Red", "R1a", 2147483647⟩]
    validVoterList := [⟨"123456789012", true⟩, ⟨"223456789012", false⟩]
    votesSet := [("C1a", 2147483647)] }

/-- The state `Scenario.belowIntMaxOnce` after `CastVote` for `C1a` by `223456789012`. -/
def Scenario.belowIntMaxTwice : ElectionSystem :=
  { Scenario.belowIntMax with
    validCandidateList := [⟨"C1a", "Alice", "Red", "R1a", -2147483648⟩]
    validVoterList := [⟨"123456789012", true⟩, ⟨"223456789012", true⟩]
    votesSet := [("C1a", 2147483648)] }

/-- One admitted candidate `C1a` with zero votes and two admitted voters who have not
voted. -/
def Scenario.twoVoters : ElectionSystem :=
  (VoterCsvCheck (some [("123456789012", some "0"), ("223456789012", some "0")])
    (CandidateCsvCheck (some [⟨"C1a", "Alice", "Red", "R1a", "0"⟩]) ElectionSystem.empty).2).2

/-- The state `Scenario.twoVoters` after `CastVote` for `C1a` by `123456789012`. -/
def Scenario.twoVotersOnce : ElectionSystem :=
  { Scenario.twoVoters with
    validCandidateList := [⟨"C1a", "Alice", "Red", "R1a", 1⟩]
    validVoterList := [⟨"123456789012", true⟩, ⟨"223456789012", false⟩]
    votesSet := [("C1a", 1)] }

/-- The state `Scenario.twoVotersOnce` after `CastVote` for `C1a` by `223456789012`. -/
def Scenario.twoVotersTwice : ElectionSystem :=
  { Scenario.twoVoters with
    validCandidateList := [⟨"C1a", "Alice", "Red", "R1a", 2⟩]
    validVoterList := [⟨"123456789012", true⟩, ⟨"223456789012", true⟩]
    votesSet := [("C1a", 2)] }

/-- `CastRuns candidateID voters st st'`: `CastVote` was run once for each identifier of
`voters`, in that order, every run selecting `candidateID` and that voter and returning,
and the runs led from `st` to `st'`. -/
inductive CastRuns (candidateID : String) : List String → ElectionSystem → ElectionSystem → Prop where
  | nil (st : ElectionSystem) : CastRuns candidateID [] st st
  | cons {st st1 st2 : ElectionSystem} {aadhaarID : String} {voters : List String}
      (p p' : Prompter) (b : Bool) :
      CastVote.select st p = .done (some (candidateID, aadhaarID), p') →
      CastVote st p = .done (b, st1, p') →
      CastRuns candidateID voters st1 st2 →
      CastRuns candidateID (aadhaarID :: voters) st st2

/-- The four validation rules of `CandidateCsvCheck` all accept the fields of the row
in the state. -/
def CandidateRow.passes (st : ElectionSystem) (row : CandidateRow) : Bool :=
  (ValidateCandidateID st row.id).1 && (ValidateCandidateName st row.name).1 &&
    (ValidatePartySymbol st row.symbol).1 && (ValidateRegionCode st row.reg).1

/-- The count of a row as `CandidateCsvCheck` parses it: the field is replaced by `"0"`
when it is empty or not a valid number, then converted with `Convert2Int`. -/
def CandidateRow.parsedCount (row : CandidateRow) : Int :=
  Convert2Int (if row.count.isEmpty || !(IsValidNumber row.count) then "0" else row.count)

/-- The three tests of `VoterCsvCheck` all accept the Aadhar field and the status field
in the state. -/
def voterRowPasses (st : ElectionSystem) (aadhar status : String) : Bool :=
  (IsValidAadhar st aadhar).1 && decide (aadhar ∉ st.checkAadhar) && (IsValidStatus st status).1

/-- The four record collections of a system: admitted and rejected candidates, admitted
and rejected voters. -/
def Records (st : ElectionSystem) :
    List Candidate × List Candidate × List Voter × List (String × String) :=
  (st.validCandidateList, st.invalidCandidateList, st.validVoterList, st.invalidVoterList)

/-- The system after loading the three lines `C1a,Alice,Red,R1a,0`, `C1a,Bob,Blue,R2b,0`
(rejected: duplicate ID) and `CC,,Green,R3c,0` (rejected: ID format). -/
def Scenario.threeRows : ElectionSystem :=
  (CandidateCsvCheck
    (some [⟨"C1a", "Alice", "Red", "R1a", "0"⟩, ⟨"C1a", "Bob", "Blue", "R2b", "0"⟩,
      ⟨"CC", "", "Green", "R3c", "0"⟩])
    ElectionSystem.empty).2

/-- The state `Scenario.threeRows` after `RemoveCandidate` removed `C1a`: the rejected
record `C1a,Bob,Blue,R2b` now passes every rule. -/
def Scenario.threeRowsRemoved : ElectionSystem :=
  { Scenario.threeRows with validCandidateList := [], idSet := ∅, votesSet := [] }

/-- The state `Scenario.threeRowsRemoved` after `FillMissingCandidateInfo` repaired the
record `CC` (choice 1, new ID `X9z`, new name `Carol`). -/
def Scenario.threeRowsRepaired : ElectionSystem :=
  { invalidCandidateList := [], validCandidateList := [⟨"X9z", "Carol", "Green", "R3c", 0⟩],
    validVoterList := [], invalidVoterList := [], idSet := {"X9z"},
    symbolSet := insert "Green" {"Red"}, checkAadhar := ∅, votesSet := [],
    errorMessage := "" }

/-- The system after loading the single line `123456789012,x` of `Voter.csv`: the
record is rejected for its status. -/
def Scenario.rejectedVoter : ElectionSystem :=
  (VoterCsvCheck (some [("123456789012", some "x")]) ElectionSystem.empty).2

/-- The state `Scenario.rejectedVoter` after `FillMissingVoterInfo` was started for
record 1, the status `2` was refused and the operator answered `n`: the identifier is
in `checkAadhar` although no voter carries it. -/
def Scenario.staleAadhar : ElectionSystem :=
  { Scenario.rejectedVoter with checkAadhar := {"123456789012"} }

/-- The state `Scenario.oneEach` after `RemoveCandidate` removed `C1a`. -/
def Scenario.candidateRemoved : ElectionSystem :=
  { Scenario.oneEach with validCandidateList := [], idSet := ∅, votesSet := [] }

/-- The state `Scenario.twinVoters` after `RemoveVoter` was given `123456789012` once. -/
def Scenario.twinRemovedOnce : ElectionSystem :=
  { Scenario.twinVoters with checkAadhar := ∅, validVoterList := [⟨"123456789012", false⟩] }

/-- The three amendments `ModifyCandidate` can apply to the candidate found: a new
name, a new party symbol (also inserted into `symbolSet`), a new region code. -/
inductive Amended (candidateID : String) (st st' : ElectionSystem) : Prop where
  | name (x m : String) :
      st' = { st.setError m with
        validCandidateList := setFirst (fun c => decide (c.candidateID = candidateID))
          (fun c => { c with candidateName := x }) st.validCandidateList } →
      Amended candidateID st st'
  | symbol (x m : String) :
      (ValidatePartySymbol st x).1 = true →
      st' = { st.setError m with
        validCandidateList := setFirst (fun c => decide (c.candidateID = candidateID))
          (fun c => { c with partySymbol := x }) st.validCandidateList
        symbolSet :=
          if st.validCandidateList.any (fun c => decide (c.candidateID = candidateID)) then
            insert x st.symbolSet
          else st.symbolSet } →
      Amended candidateID st st'
  | region (x m : String) :
      st' = { st.setError m with
        validCandidateList := setFirst (fun c => decide (c.candidateID = candidateID))
          (fun c => { c with regionID := x }) st.validCandidateList } →
      Amended candidateID st st'

/-- The state `Scenario.twoCandidates` after `RemoveCandidate` removed `C1a`. -/
def Scenario.twoCandidatesRemoved : ElectionSystem :=
  { Scenario.twoCandidates with
    validCandidateList := [⟨"B2b", "Bob", "Blue", "R2b", 3⟩]
    idSet := {"B2b"}
    votesSet := [("B2b", 3)] }

/-- The state `Scenario.twoVoters` after `RemoveVoter` removed `123456789012`. -/
def Scenario.twoVotersRemoved : ElectionSystem :=
  { Scenario.twoVoters with
    checkAadhar := {"223456789012"}
    validVoterList := [⟨"223456789012", false⟩] }

/-- The admission condition for a voter tuple in the words of the specification: the
identifier is exactly 12 digits with a non-zero leading digit, it is not in
`checkAadhar` yet, and the status token is `0` or `1`. -/
abbrev VoterAdmissible (st : ElectionSystem) (aadhar status : String) : Prop :=
  aadhar.length = 12 ∧ (∀ c ∈ aadhar.data, isdigit c = true) ∧
    aadhar.data.head? ≠ some '0' ∧ aadhar ∉ st.checkAadhar ∧ (status = "0" ∨ status = "1")

/-- The checks of candidate admission in the order the specification gives them, each
with its verdict on the row (`true`: the check holds) and the reason reported when it
fails: ID uniqueness, ID format, name length, name characters, symbol uniqueness,
symbol length, symbol characters, region composition. -/
def admissionChecks (st : ElectionSystem) (row : CandidateRow) : List (Bool × String) :=
  [(decide (row.id ∉ st.idSet), "Candidate ID already exists. Please enter a different ID."),
   (decide (3 ≤ row.id.length ∧ row.id.length ≤ 5) && row.id.data.any isalpha
      && row.id.data.any isdigit, "Invalid Candidate ID format."),
   (decide (2 ≤ row.name.length ∧ row.name.length ≤ 20), "Invalid Candidate Name length."),
   (row.name.data.all isalpha,
      "Invalid characters in Candidate Name. Only alphabets are allowed."),
   (decide (row.symbol ∉ st.symbolSet),
      "Party Symbol already exists. Please enter a different symbol."),
   (decide (2 ≤ row.symbol.length ∧ row.symbol.length ≤ 20), "Invalid Party Symbol length."),
   (row.symbol.data.all isalpha,
      "Invalid characters in Party Symbol. Only alphabets are allowed."),
   (row.reg.data.any isalpha && row.reg.data.any isdigit,
      "Region Code should contain at least one alpha and one numeric character.")]

/-- The system after the loop body of `CandidateCsvCheck` rejected the row with the
reason `m`: the record is appended to the rejected collection. -/
def rejectedWith (st : ElectionSystem) (row : CandidateRow) (m : String) : ElectionSystem :=
  { st with
    invalidCandidateList := st.invalidCandidateList
      ++ [⟨row.id, row.name, row.symbol, row.reg, row.parsedCount⟩]
    errorMessage := m }

/-- The reasons the validation rules report for a violation of format or content (every
message of `ValidateCandidateID`, `ValidateCandidateName`, `ValidatePartySymbol`,
`ValidateRegionCode`, `IsValidAadhar` and `IsValidStatus` that is not an "already
exists" message). -/
def formatReasons : List String :=
  ["Invalid Candidate ID format.",
   "Candidate ID should contain at least one alpha and one numeric character.",
   "Invalid Candidate Name length.",
   "Invalid characters in Candidate Name. Only alphabets are allowed.",
   "Invalid Party Symbol length.",
   "Invalid characters in Party Symbol. Only alphabets are allowed.",
   "Region Code should contain at least one alpha and one numeric character.",
   "Invalid Aadhar ID ",
   "Invalid Voting Status "]

/-- The decimal value of a string of digits. -/
def decimalValue (s : String) : Nat :=
  s.data.foldl (fun acc c => acc * 10 + (c.toNat - 48)) 0

/-- A candidate line with the count token `2147483648`, one above the largest `int`. -/
def Scenario.countAboveInt : CandidateRow := ⟨"C1a", "Alice", "Red", "R1a", "2147483648"⟩

/-! ## Writing the tally -/

/-- Put an entry into a list sorted by descending count: before the first entry whose
count is not above its own. -/
def sortedVotes.place (e : String × Int) : List (String × Int) → List (String × Int)
  | [] => [e]
  | x :: xs => if e.2 < x.2 then x :: sortedVotes.place e xs else e :: x :: xs

/-- The vector `sortedVotes` of `ShowResult` and `WriteResultDataToCSV`: the entries of
the ledger in key order, then `std::sort` with the comparator `a.second > b.second`.
The library call is rendered by a stable insertion sort; the standard leaves the order
of entries with equal counts open. -/
def sortedVotes : VoteMap → List (String × Int)
  | [] => []
  | e :: m => sortedVotes.place e (sortedVotes m)

/-- The pairs `ShowResult` prints: the ledger after it was overwritten from the stored
vote counts, sorted. -/
def ShowResult.display (st : ElectionSystem) : List (String × Int) :=
  sortedVotes (ShowResult st).2.votesSet

/-- Method `WriteResultDataToCSV`: the (identifier, count) pairs written to `result.csv`,
one per line, when the file can be opened. -/
def WriteResultDataToCSV (st : ElectionSystem) : List (String × Int) :=
  sortedVotes st.votesSet

/-- The system after `AddCandidate` was answered `X1y`, `Xavier`, `Xray`, `R1x` in the
empty system. -/
def Scenario.addedCandidate : ElectionSystem :=
  { ElectionSystem.empty with
    validCandidateList := [⟨"X1y", "Xavier", "Xray", "R1x", 0⟩]
    idSet := {"X1y"}
    symbolSet := {"Xray"} }

/-! ## Well-formed records and the effect of an operation on them -/

/-- Format of a candidate ID: length 3 to 5, a letter and a digit. -/
abbrev IdFormat (id : String) : Prop :=
  3 ≤ id.length ∧ id.length ≤ 5 ∧ (∃ c ∈ id.data, isalpha c = true) ∧
    (∃ c ∈ id.data, isdigit c = true)

/-- Format of a candidate name and of a party symbol: 2 to 20 letters. -/
abbrev LettersFormat (s : String) : Prop :=
  2 ≤ s.length ∧ s.length ≤ 20 ∧ ∀ c ∈ s.data, isalpha c = true

/-- Format of a region code: a letter and a digit. -/
abbrev RegionFormat (code : String) : Prop :=
  (∃ c ∈ code.data, isalpha c = true) ∧ (∃ c ∈ code.data, isdigit c = true)

/-- Format of a voter identifier: exactly 12 digits, the first not `0`. -/
abbrev AadharFormat (aadhar : String) : Prop :=
  aadhar.length = 12 ∧ (∀ c ∈ aadhar.data, isdigit c = true) ∧
    aadhar.data.head? ≠ some '0'

/-- The four text fields of a candidate satisfy their format rules. -/
abbrev WellFormedCandidate (c : Candidate) : Prop :=
  IdFormat c.candidateID ∧ LettersFormat c.candidateName ∧ LettersFormat c.partySymbol ∧
    RegionFormat c.regionID

/-- What an operation on the candidate side can do to the records. Every admitted
candidate of the new state either continues a candidate of the old state (same ID, same
vote count, well-formed if that one was) or is new: its ID was not in `idSet`, its
fields are well-formed and its count is non-negative if those of the rejected records
were. The admitted voters are unchanged, and rejected records and ledger entries are
old ones or have a non-negative count. -/
structure CandidateEffect (st st' : ElectionSystem) : Prop where
  shape : ∀ c' ∈ st'.validCandidateList,
    (∃ c ∈ st.validCandidateList, c.candidateID = c'.candidateID ∧
      c.numOfVotes = c'.numOfVotes ∧ (WellFormedCandidate c → WellFormedCandidate c')) ∨
    (c'.candidateID ∉ st.idSet ∧ WellFormedCandidate c' ∧
      ((∀ r ∈ st.invalidCandidateList, 0 ≤ r.numOfVotes) → 0 ≤ c'.numOfVotes))
  voters : st'.validVoterList = st.validVoterList
  rejected : ∀ r ∈ st'.invalidCandidateList, r ∈ st.invalidCandidateList ∨ 0 ≤ r.numOfVotes
  ledger : ∀ e ∈ st'.votesSet, e ∈ st.votesSet ∨ 0 ≤ e.2

/-- The format invariant of the registries, with the sign of the counts of the rejected
records: every admitted candidate is well-formed, every admitted voter has a
well-formed identifier, and no rejected candidate record has a negative count. -/
structure WellFormedRecords (st : ElectionSystem) : Prop where
  candidates : ∀ c ∈ st.validCandidateList, WellFormedCandidate c
  voters : ∀ v ∈ st.validVoterList, AadharFormat v.aadhaarID
  rejected : ∀ r ∈ st.invalidCandidateList, 0 ≤ r.numOfVotes

/-- No stored vote count and no ledger entry is negative. -/
structure CountsNonneg (st : ElectionSystem) : Prop where
  stored : ∀ c ∈ st.validCandidateList, 0 ≤ c.numOfVotes
  ledger : ∀ e ∈ st.votesSet, 0 ≤ e.2

/-- States reachable by runs in which `CastVote` is never started while an entry of the
ledger stands at 2147483647 or more. -/
inductive ReachableWithinInt : ElectionSystem → Prop where
  | init : ReachableWithinInt ElectionSystem.empty
  | step {st st' : ElectionSystem} (op : Operation) (p p' : Prompter) (b : Bool) :
      ReachableWithinInt st →
      (op = Operation.castVote → ∀ e ∈ st.votesSet, e.2 < 2147483647) →
      op.run st p = .done (b, st', p') → ReachableWithinInt st'

/-- Every voter of the list has a well-formed identifier. -/
def VotersWellFormed (l : List Voter) : Prop := ∀ v ∈ l, AadharFormat v.aadhaarID

/-- The system after `C1a,,Red,R1a,5` was rejected at loading, the voter `123456789012`
was admitted, and `FillMissingCandidateInfo` repaired the record with the name `Alice`:
the candidate is admitted with 5 votes and the ledger has no entry for it. -/
def Scenario.promotedWithVoter : ElectionSystem :=
  { Scenario.promotedWithVotes with
    validVoterList := [⟨"123456789012", false⟩]
    checkAadhar := {"123456789012"} }

/-! ## Records as text: the record sink and the record source -/

/-- Output of an `int` with `operator<<`: its decimal digits, after a `-` when negative. -/
def showInt (n : Int) : String :=
  if n < 0 then "-" ++ Nat.repr n.natAbs else Nat.repr n.toNat

/-- Output of a `bool` with `operator<<`: `1` or `0`. -/
def showBool (b : Bool) : String := if b then "1" else "0"

/-- The text of a file written line by line, every line closed by a newline. -/
def fileText : List String → String
  | [] => ""
  | l :: ls => l ++ "\n" ++ fileText ls

/-- Method `WriteCandidateDataToCSV`: the text written to `Candidate.csv` when the file
can be opened. -/
def WriteCandidateDataToCSV (st : ElectionSystem) : String :=
  fileText (st.validCandidateList.map fun candidate =>
    candidate.candidateID ++ "," ++ candidate.candidateName ++ "," ++ candidate.partySymbol
      ++ "," ++ candidate.regionID ++ "," ++ showInt candidate.numOfVotes)

/-- Method `WriteVoterDataToCSV`: the text written to `Voter.csv` when the file can be
opened. -/
def WriteVoterDataToCSV (st : ElectionSystem) : String :=
  fileText (st.validVoterList.map fun voter =>
    voter.aadhaarID ++ "," ++ showBool voter.votingStatus)

/-- The pieces of a text between the occurrences of a delimiter; the last piece is what
follows the last delimiter. -/
def splitOn (d : Char) : List Char → List (List Char)
  | [] => [[]]
  | c :: cs =>
    if c = d then [] :: splitOn d cs
    else
      match splitOn d cs with
      | [] => [[c]]
      | p :: ps => (c :: p) :: ps

/-- The lines that `std::getline(inputFile, line)` yields one after the other: the
pieces between newlines; an empty piece after the last newline is the end of the file. -/
def fileLines (text : String) : List String :=
  let pieces := splitOn '\n' text.data
  (if pieces.getLast? = some [] then pieces.dropLast else pieces).map String.mk

/-- The five reads `std::getline(ss, field, ',')` of `CandidateCsvCheck` on a line: a
field that is not there stays empty. -/
def parseCandidateLine (line : String) : CandidateRow :=
  let fields := splitOn ',' line.data
  ⟨String.mk (fields.getD 0 []), String.mk (fields.getD 1 []), String.mk (fields.getD 2 []),
    String.mk (fields.getD 3 []), String.mk (fields.getD 4 [])⟩

/-- The two reads `std::getline(ss, field, ',')` of `VoterCsvCheck` on a line. The first
fails on an empty line; the second fails when nothing follows the first field and its
comma. -/
def parseVoterLine (line : String) : Option (String × Option String) :=
  if line.data = [] then none
  else
    match splitOn ',' line.data with
    | [] => none
    | [p] => some (String.mk p, none)
    | p :: q :: rest =>
      some (String.mk p, if q = [] ∧ rest = [] then none else some (String.mk q))

/-- The system a new run starts with after the two files written from a state have been
loaded by `CandidateCsvCheck` and `VoterCsvCheck` into an empty system. -/
def reload (st : ElectionSystem) : ElectionSystem :=
  (VoterCsvCheck (some ((fileLines (WriteVoterDataToCSV st)).filterMap parseVoterLine))
    (CandidateCsvCheck (some ((fileLines (WriteCandidateDataToCSV st)).map parseCandidateLine))
      ElectionSystem.empty).2).2

/-- The system after `AddCandidate` was answered `a,1`, `Ann`, `Sun`, `R1a` in the empty
system: the ID holds a comma. -/
def Scenario.commaInId : ElectionSystem :=
  { ElectionSystem.empty with
    validCandidateList := [⟨"a,1", "Ann", "Sun", "R1a", 0⟩]
    idSet := {"a,1"}
    symbolSet := {"Sun"} }

/-! # Properties of the embedded program -/

/-! ## Runs and the retry loop -/

theorem Run.bind_eq_done {α β : Type} {x : Run α} {f : α → Run β} {b : β} :
    (x >>= f) = Run.done b ↔ ∃ a, x = Run.done a ∧ f a = Run.done b := by
  cases x <;> simp [Bind.bind, Run.bind]

theorem Run.pure_eq_done {α : Type} {a b : α} :
    (pure a : Run α) = Run.done b ↔ a = b := by
  simp [pure]

theorem SameData.refl (a : ElectionSystem) : SameData a a := ⟨a.errorMessage, rfl⟩

theorem SameData.trans {a b c : ElectionSystem} (h1 : SameData a b) (h2 : SameData b c) :
    SameData a c := by
  obtain ⟨m1, rfl⟩ := h1
  obtain ⟨m2, rfl⟩ := h2
  exact ⟨m2, rfl⟩

theorem promptLoop_done {validate : ElectionSystem → String → Bool × ElectionSystem}
    (hv : IsRule validate) :
    ∀ (ss : List String) (st : ElectionSystem) (cs : List Char) (r : Option String)
      (st' : ElectionSystem) (ss' : List String) (cs' : List Char),
      promptLoop validate st ss cs = .done (r, st', ss', cs') →
      SameData st st' ∧ ∀ x, r = some x → (validate st x).1 = true := by
  intro ss
  induction ss with
  | nil => intro st cs r st' ss' cs' h; simp [promptLoop] at h
  | cons s ss ih =>
    intro st cs r st' ss' cs' h
    unfold promptLoop at h
    split at h
    · rename_i hok
      simp only [Run.done.injEq, Prod.mk.injEq] at h
      obtain ⟨rfl, rfl, -, -⟩ := h
      refine ⟨hv.frame st s, ?_⟩
      intro x hx
      cases hx
      exact hok
    · split at h
      · simp at h
      · rename_i c cs1
        split at h
        · simp only [Run.done.injEq, Prod.mk.injEq] at h
          obtain ⟨rfl, rfl, -, -⟩ := h
          exact ⟨hv.frame st s, by intro x hx; cases hx⟩
        · obtain ⟨h1, h2⟩ := ih _ _ _ _ _ _ h
          refine ⟨(hv.frame st s).trans h1, ?_⟩
          intro x hx
          rw [← hv.blind st _ x (hv.frame st s)]
          exact h2 x hx

theorem promptUntilValid_done {validate : ElectionSystem → String → Bool × ElectionSystem}
    (hv : IsRule validate) {st : ElectionSystem} {p : Prompter} {r : Option String}
    {st' : ElectionSystem} {p' : Prompter}
    (h : promptUntilValid validate st p = .done (r, st', p')) :
    SameData st st' ∧ ∀ x, r = some x → (validate st x).1 = true := by
  unfold promptUntilValid at h
  split at h
  · rename_i r1 st1 ss cs heq
    simp only [Run.done.injEq, Prod.mk.injEq] at h
    obtain ⟨rfl, rfl, -⟩ := h
    exact promptLoop_done hv _ _ _ _ _ _ _ heq
  · simp at h
  · simp at h

/-! ## The validation rules write only `errorMessage` -/

theorem isRule_ValidateCandidateID : IsRule ValidateCandidateID := by
  constructor
  · intro st s
    unfold ValidateCandidateID
    split_ifs <;> exact ⟨_, rfl⟩
  · rintro st st' s ⟨m, rfl⟩
    simp [ValidateCandidateID, ElectionSystem.setError]

theorem isRule_ValidateCandidateName : IsRule ValidateCandidateName := by
  constructor
  · intro st s
    unfold ValidateCandidateName
    split_ifs <;> exact ⟨_, rfl⟩
  · rintro st st' s ⟨m, rfl⟩
    simp [ValidateCandidateName, ElectionSystem.setError]

theorem isRule_ValidatePartySymbol : IsRule ValidatePartySymbol := by
  constructor
  · intro st s
    unfold ValidatePartySymbol
    split_ifs <;> exact ⟨_, rfl⟩
  · rintro st st' s ⟨m, rfl⟩
    simp [ValidatePartySymbol, ElectionSystem.setError]

theorem isRule_ValidateRegionCode : IsRule ValidateRegionCode := by
  constructor
  · intro st s
    unfold ValidateRegionCode
    split_ifs <;> exact ⟨_, rfl⟩
  · rintro st st' s ⟨m, rfl⟩
    simp [ValidateRegionCode, ElectionSystem.setError]

theorem isRule_IsValidAadhar : IsRule IsValidAadhar := by
  constructor
  · intro st s
    unfold IsValidAadhar
    split_ifs <;> exact ⟨_, rfl⟩
  · rintro st st' s ⟨m, rfl⟩
    simp [IsValidAadhar, ElectionSystem.setError]

theorem isRule_IsValidStatus : IsRule IsValidStatus := by
  constructor
  · intro st s
    unfold IsValidStatus
    split_ifs <;> exact ⟨_, rfl⟩
  · rintro st st' s ⟨m, rfl⟩
    simp [IsValidStatus, ElectionSystem.setError]

theorem isRule_ValidateNewAadhar : IsRule ValidateNewAadhar := by
  constructor
  · intro st s
    have h := isRule_IsValidAadhar.frame st s
    simp only [ValidateNewAadhar]
    split_ifs <;> exact h
  · rintro st st' s ⟨m, rfl⟩
    simp [ValidateNewAadhar, IsValidAadhar, ElectionSystem.setError]

/-- A test that only reads the system is a rule. -/
theorem isRule_of_reader (test : ElectionSystem → String → Bool)
    (h : ∀ st m s, test (st.setError m) s = test st s) :
    IsRule (fun st s => (test st s, st)) := by
  constructor
  · intro st s
    exact SameData.refl st
  · rintro st st' s ⟨m, rfl⟩
    exact h st m s

/-! ## Field projections of `setError` -/

@[simp] theorem setError_invalidCandidateList (st : ElectionSystem) (m : String) :
    (st.setError m).invalidCandidateList = st.invalidCandidateList := rfl

@[simp] theorem setError_validCandidateList (st : ElectionSystem) (m : String) :
    (st.setError m).validCandidateList = st.validCandidateList := rfl

@[simp] theorem setError_validVoterList (st : ElectionSystem) (m : String) :
    (st.setError m).validVoterList = st.validVoterList := rfl

@[simp] theorem setError_invalidVoterList (st : ElectionSystem) (m : String) :
    (st.setError m).invalidVoterList = st.invalidVoterList := rfl

@[simp] theorem setError_idSet (st : ElectionSystem) (m : String) :
    (st.setError m).idSet = st.idSet := rfl

@[simp] theorem setError_symbolSet (st : ElectionSystem) (m : String) :
    (st.setError m).symbolSet = st.symbolSet := rfl

@[simp] theorem setError_checkAadhar (st : ElectionSystem) (m : String) :
    (st.setError m).checkAadhar = st.checkAadhar := rfl

@[simp] theorem setError_votesSet (st : ElectionSystem) (m : String) :
    (st.setError m).votesSet = st.votesSet := rfl

@[simp] theorem setError_setError (st : ElectionSystem) (m m' : String) :
    (st.setError m).setError m' = st.setError m' := rfl

theorem ValidateCandidateID_true {st : ElectionSystem} {id : String}
    (h : (ValidateCandidateID st id).1 = true) : id ∉ st.idSet := by
  intro hmem
  simp [ValidateCandidateID, hmem] at h

theorem ValidatePartySymbol_true {st : ElectionSystem} {symbol : String}
    (h : (ValidatePartySymbol st symbol).1 = true) : symbol ∉ st.symbolSet := by
  intro hmem
  simp [ValidatePartySymbol, hmem] at h

/-! ## Invariant I2 and the index inclusions -/

theorem CandidateInv.empty : CandidateInv ElectionSystem.empty := by
  constructor <;> simp [ElectionSystem.empty]

/-- The invariant survives any step that keeps the identifiers and symbols of the
admitted candidates and does not shrink the two indices. -/
theorem CandidateInv.of_keys {st st' : ElectionSystem} (h : CandidateInv st)
    (hid : (st'.validCandidateList.map fun c => c.candidateID)
      = st.validCandidateList.map fun c => c.candidateID)
    (hsym : (st'.validCandidateList.map fun c => c.partySymbol)
      = st.validCandidateList.map fun c => c.partySymbol)
    (hids : st.idSet ⊆ st'.idSet) (hsyms : st.symbolSet ⊆ st'.symbolSet) :
    CandidateInv st' := by
  have hmemId : ∀ c ∈ st'.validCandidateList, c.candidateID ∈ st.idSet := by
    intro c hc
    have : c.candidateID ∈ st'.validCandidateList.map fun c => c.candidateID :=
      List.mem_map_of_mem _ hc
    rw [hid, List.mem_map] at this
    obtain ⟨d, hd, hdc⟩ := this
    rw [← hdc]
    exact h.idIndexed d hd
  have hmemSym : ∀ c ∈ st'.validCandidateList, c.partySymbol ∈ st.symbolSet := by
    intro c hc
    have : c.partySymbol ∈ st'.validCandidateList.map fun c => c.partySymbol :=
      List.mem_map_of_mem _ hc
    rw [hsym, List.mem_map] at this
    obtain ⟨d, hd, hdc⟩ := this
    rw [← hdc]
    exact h.symbolIndexed d hd
  exact ⟨hid ▸ h.idsNodup, hsym ▸ h.symbolsNodup,
    fun c hc => hids (hmemId c hc), fun c hc => hsyms (hmemSym c hc)⟩

/-- The invariant survives a step that only rewrites `errorMessage`. -/
theorem CandidateInv.of_sameData {st st' : ElectionSystem} (h : CandidateInv st)
    (hs : SameData st st') : CandidateInv st' := by
  obtain ⟨m, rfl⟩ := hs
  exact h.of_keys rfl rfl (Finset.Subset.refl _) (Finset.Subset.refl _)

/-- The invariant survives the admission of a candidate whose identifier and symbol
are in neither index. -/
theorem CandidateInv.admission {st st' : ElectionSystem} (h : CandidateInv st) (c : Candidate)
    (hid : c.candidateID ∉ st.idSet) (hsym : c.partySymbol ∉ st.symbolSet)
    (hl : st'.validCandidateList = st.validCandidateList ++ [c])
    (hids : insert c.candidateID st.idSet ⊆ st'.idSet)
    (hsyms : insert c.partySymbol st.symbolSet ⊆ st'.symbolSet) : CandidateInv st' := by
  constructor
  · rw [hl, List.map_append, List.nodup_append]
    refine ⟨h.idsNodup, by simp, ?_⟩
    intro a ha hb
    simp only [List.map_cons, List.map_nil, List.mem_singleton] at hb
    rw [List.mem_map] at ha
    obtain ⟨d, hd, hda⟩ := ha
    subst hb
    exact hid (hda ▸ h.idIndexed d hd)
  · rw [hl, List.map_append, List.nodup_append]
    refine ⟨h.symbolsNodup, by simp, ?_⟩
    intro a ha hb
    simp only [List.map_cons, List.map_nil, List.mem_singleton] at hb
    rw [List.mem_map] at ha
    obtain ⟨d, hd, hda⟩ := ha
    subst hb
    exact hsym (hda ▸ h.symbolIndexed d hd)
  · intro d hd
    rw [hl, List.mem_append, List.mem_singleton] at hd
    rcases hd with hd | rfl
    · exact hids (Finset.mem_insert_of_mem (h.idIndexed d hd))
    · exact hids (Finset.mem_insert_self _ _)
  · intro d hd
    rw [hl, List.mem_append, List.mem_singleton] at hd
    rcases hd with hd | rfl
    · exact hsyms (Finset.mem_insert_of_mem (h.symbolIndexed d hd))
    · exact hsyms (Finset.mem_insert_self _ _)

theorem AddCandidate_candidateInv {st st' : ElectionSystem} {p p' : Prompter} {b : Bool}
    (h : AddCandidate st p = .done (b, st', p')) (hinv : CandidateInv st) :
    CandidateInv st' := by
  unfold AddCandidate at h
  obtain ⟨⟨rid, st1, p1⟩, h1, h⟩ := Run.bind_eq_done.mp h
  have s1 := promptUntilValid_done isRule_ValidateCandidateID h1
  cases rid with
  | none =>
    simp only [Run.pure_eq_done, Prod.mk.injEq] at h
    obtain ⟨-, rfl, -⟩ := h
    exact hinv.of_sameData s1.1
  | some id =>
    obtain ⟨⟨rname, st2, p2⟩, h2, h⟩ := Run.bind_eq_done.mp h
    have s2 := promptUntilValid_done isRule_ValidateCandidateName h2
    cases rname with
    | none =>
      simp only [Run.pure_eq_done, Prod.mk.injEq] at h
      obtain ⟨-, rfl, -⟩ := h
      exact (hinv.of_sameData (s1.1.trans s2.1)).of_keys rfl rfl
        (Finset.Subset.refl _) (Finset.Subset.refl _)
    | some name =>
      obtain ⟨⟨rsym, st3, p3⟩, h3, h⟩ := Run.bind_eq_done.mp h
      have s3 := promptUntilValid_done isRule_ValidatePartySymbol h3
      cases rsym with
      | none =>
        simp only [Run.pure_eq_done, Prod.mk.injEq] at h
        obtain ⟨-, rfl, -⟩ := h
        exact (hinv.of_sameData ((s1.1.trans s2.1).trans s3.1)).of_keys rfl rfl
          (Finset.Subset.refl _) (Finset.Subset.refl _)
      | some symbol =>
        obtain ⟨⟨rreg, st4, p4⟩, h4, h⟩ := Run.bind_eq_done.mp h
        have s4 := promptUntilValid_done isRule_ValidateRegionCode h4
        have hall : SameData st st4 := ((s1.1.trans s2.1).trans s3.1).trans s4.1
        have hst3 : SameData st st2 := s1.1.trans s2.1
        cases rreg with
        | none =>
          simp only [Run.pure_eq_done, Prod.mk.injEq] at h
          obtain ⟨-, rfl, -⟩ := h
          exact (hinv.of_sameData hall).of_keys rfl rfl
            (Finset.Subset.refl _) (Finset.Subset.refl _)
        | some regionCode =>
          simp only [Run.pure_eq_done, Prod.mk.injEq] at h
          obtain ⟨-, rfl, -⟩ := h
          have hid : id ∉ st.idSet := ValidateCandidateID_true (s1.2 id rfl)
          have hsym : symbol ∉ st2.symbolSet := ValidatePartySymbol_true (s3.2 symbol rfl)
          obtain ⟨m4, rfl⟩ := hall
          obtain ⟨m2, rfl⟩ := hst3
          exact hinv.admission ⟨id, name, symbol, regionCode, 0⟩ hid hsym rfl
            (Finset.Subset.refl _) (Finset.Subset.refl _)

theorem CandidateCsvCheck_line_candidateInv (st : ElectionSystem) (row : CandidateRow)
    (hinv : CandidateInv st) : CandidateInv (CandidateCsvCheck.line st row) := by
  unfold CandidateCsvCheck.line
  split
  · exact hinv
  · obtain ⟨m1, e1⟩ := isRule_ValidateCandidateID.frame st row.id
    cases h1 : (ValidateCandidateID st row.id).1 with
    | false =>
      simp only [h1, e1, Bool.false_eq_true, if_false, setError_setError]
      exact hinv.of_keys rfl rfl (Finset.Subset.refl _) (Finset.Subset.refl _)
    | true =>
      obtain ⟨m2, e2⟩ := isRule_ValidateCandidateName.frame (st.setError m1) row.name
      cases h2 : (ValidateCandidateName (st.setError m1) row.name).1 with
      | false =>
        simp only [h1, e1, h2, e2, Bool.false_eq_true, if_false, if_true, setError_setError]
        exact hinv.of_keys rfl rfl (Finset.Subset.refl _) (Finset.Subset.refl _)
      | true =>
        obtain ⟨m3, e3⟩ := isRule_ValidatePartySymbol.frame (st.setError m2) row.symbol
        cases h3 : (ValidatePartySymbol (st.setError m2) row.symbol).1 with
        | false =>
          simp only [h1, e1, h2, e2, h3, e3, Bool.false_eq_true, if_false, if_true,
            setError_setError]
          exact hinv.of_keys rfl rfl (Finset.Subset.refl _) (Finset.Subset.refl _)
        | true =>
          have hsym : row.symbol ∉ st.symbolSet := ValidatePartySymbol_true h3
          obtain ⟨m4, e4⟩ := isRule_ValidateRegionCode.frame (st.setError m3) row.reg
          cases h4 : (ValidateRegionCode (st.setError m3) row.reg).1 with
          | false =>
            simp only [h1, e1, h2, e2, h3, e3, h4, e4, Bool.false_eq_true, if_false, if_true,
              setError_setError]
            exact hinv.of_keys rfl rfl (Finset.Subset.refl _) (Finset.Subset.refl _)
          | true =>
            simp only [h1, e1, h2, e2, h3, e3, h4, e4, if_true, setError_setError]
            exact hinv.admission _ (ValidateCandidateID_true h1) hsym rfl
              (Finset.Subset.refl _) (Finset.Subset.refl _)

theorem CandidateCsvCheck_candidateInv (file : Option (List CandidateRow)) (st : ElectionSystem)
    (hinv : CandidateInv st) : CandidateInv (CandidateCsvCheck file st).2 := by
  cases file with
  | none => exact hinv
  | some rows =>
    simp only [CandidateCsvCheck]
    induction rows generalizing st with
    | nil => exact hinv
    | cons row rows ih =>
      exact ih _ (CandidateCsvCheck_line_candidateInv st row hinv)

theorem FillMissingCandidateInfo_defective_sameData (st : ElectionSystem) (c : Candidate) :
    SameData st (FillMissingCandidateInfo.defective st c).2 := by
  unfold FillMissingCandidateInfo.defective
  have f1 := isRule_ValidateCandidateID.frame st c.candidateID
  have f2 := isRule_ValidateCandidateName.frame (ValidateCandidateID st c.candidateID).2
    c.candidateName
  have f3 := isRule_ValidatePartySymbol.frame
    (ValidateCandidateName (ValidateCandidateID st c.candidateID).2 c.candidateName).2
    c.partySymbol
  have f4 := isRule_ValidateRegionCode.frame
    (ValidatePartySymbol
      (ValidateCandidateName (ValidateCandidateID st c.candidateID).2 c.candidateName).2
      c.partySymbol).2 c.regionID
  split
  · exact SameData.refl st
  · dsimp only
    split
    · exact f1
    · split
      · exact f1.trans f2
      · split
        · exact (f1.trans f2).trans f3
        · exact ((f1.trans f2).trans f3).trans f4

theorem FillMissingCandidateInfo_scan_sameData (l : List Candidate) (st : ElectionSystem) :
    SameData st (FillMissingCandidateInfo.scan st l).2 := by
  induction l generalizing st with
  | nil => exact SameData.refl st
  | cons c cs ih =>
    simp only [FillMissingCandidateInfo.scan]
    exact (FillMissingCandidateInfo_defective_sameData st c).trans (ih _)

theorem repairSlot_done
    {validate : ElectionSystem → String → Bool × ElectionSystem} (hv : IsRule validate)
    {st : ElectionSystem} {p : Prompter} {current : String} {r : Option (String × Bool)}
    {st' : ElectionSystem} {p' : Prompter}
    (h : repairSlot validate st p current = .done (r, st', p')) :
    SameData st st' ∧ ∀ x e, r = some (x, e) → (validate st x).1 = true := by
  unfold repairSlot at h
  split at h
  · rename_i hok
    simp only [Run.done.injEq, Prod.mk.injEq] at h
    obtain ⟨rfl, rfl, -⟩ := h
    refine ⟨hv.frame st current, ?_⟩
    intro x e hx
    simp only [Option.some.injEq, Prod.mk.injEq] at hx
    rw [← hx.1]
    exact hok
  · split at h
    · rename_i s st1 p1 heq
      simp only [Run.done.injEq, Prod.mk.injEq] at h
      obtain ⟨rfl, rfl, -⟩ := h
      have := promptUntilValid_done hv heq
      refine ⟨(hv.frame st current).trans this.1, ?_⟩
      intro x e hx
      simp only [Option.some.injEq, Prod.mk.injEq] at hx
      rw [← hv.blind st _ x (hv.frame st current)]
      exact this.2 x (by rw [hx.1])
    · rename_i st1 p1 heq
      simp only [Run.done.injEq, Prod.mk.injEq] at h
      obtain ⟨rfl, rfl, -⟩ := h
      have := promptUntilValid_done hv heq
      exact ⟨(hv.frame st current).trans this.1, by intro x e hx; cases hx⟩
    · simp at h
    · simp at h

theorem FillMissingCandidateInfo_repair_candidateInv {st st' : ElectionSystem}
    {p p' : Prompter} {temp : List Candidate} {k : Nat} {modify : Candidate} {b : Bool}
    (h : FillMissingCandidateInfo.repair st p temp k modify = .done (b, st', p'))
    (hinv : CandidateInv st) : CandidateInv st' := by
  unfold FillMissingCandidateInfo.repair at h
  obtain ⟨⟨rid, st1, p1⟩, h1, h⟩ := Run.bind_eq_done.mp h
  obtain ⟨⟨m1, rfl⟩, v1⟩ := repairSlot_done isRule_ValidateCandidateID h1
  cases rid with
  | none =>
    simp only [Run.pure_eq_done, Prod.mk.injEq] at h
    obtain ⟨-, rfl, -⟩ := h
    exact hinv.of_sameData ⟨m1, rfl⟩
  | some r1 =>
    obtain ⟨mid, entered⟩ := r1
    have hmid : mid ∉ st.idSet := ValidateCandidateID_true (v1 mid entered rfl)
    dsimp only at h
    obtain ⟨⟨rname, st2, p2⟩, h2, h⟩ := Run.bind_eq_done.mp h
    obtain ⟨⟨m2, rfl⟩, -⟩ := repairSlot_done isRule_ValidateCandidateName h2
    cases rname with
    | none =>
      simp only [Run.pure_eq_done, Prod.mk.injEq] at h
      obtain ⟨-, rfl, -⟩ := h
      refine hinv.of_keys ?_ ?_ ?_ ?_ <;> cases entered <;>
        simp [Finset.subset_insert]
    | some r2 =>
      obtain ⟨mname, e2⟩ := r2
      dsimp only at h
      obtain ⟨⟨rsym, st3, p3⟩, h3, h⟩ := Run.bind_eq_done.mp h
      obtain ⟨⟨m3, rfl⟩, v3⟩ := repairSlot_done isRule_ValidatePartySymbol h3
      cases rsym with
      | none =>
        simp only [Run.pure_eq_done, Prod.mk.injEq] at h
        obtain ⟨-, rfl, -⟩ := h
        refine hinv.of_keys ?_ ?_ ?_ ?_ <;> cases entered <;>
          simp [Finset.subset_insert]
      | some r3 =>
        obtain ⟨msymbol, enteredSym⟩ := r3
        have hsym : msymbol ∉ st.symbolSet := by
          have := ValidatePartySymbol_true (v3 msymbol enteredSym rfl)
          cases entered <;> simpa using this
        dsimp only at h
        obtain ⟨⟨rreg, st4, p4⟩, h4, h⟩ := Run.bind_eq_done.mp h
        obtain ⟨⟨m4, rfl⟩, -⟩ := repairSlot_done isRule_ValidateRegionCode h4
        cases rreg with
        | none =>
          simp only [Run.pure_eq_done, Prod.mk.injEq] at h
          obtain ⟨-, rfl, -⟩ := h
          refine hinv.of_keys ?_ ?_ ?_ ?_ <;> cases entered <;> cases enteredSym <;>
            simp [Finset.subset_insert]
        | some r4 =>
          obtain ⟨mreg, e4⟩ := r4
          simp only [Run.pure_eq_done, Prod.mk.injEq] at h
          obtain ⟨-, rfl, -⟩ := h
          refine hinv.admission ⟨mid, mname, msymbol, mreg, modify.numOfVotes⟩ hmid hsym ?_ ?_ ?_
            <;> cases entered <;> cases enteredSym <;> simp [Finset.subset_insert]

theorem FillMissingCandidateInfo_menu_cons (temp : List Candidate) (st : ElectionSystem)
    (candidateChoice : Int) (ns : List Int) (ss : List String) (cs : List Char) :
    FillMissingCandidateInfo.menu temp st (candidateChoice :: ns) ss cs =
      if candidateChoice ≥ 1 ∧ candidateChoice < (temp.length : Int) + 1 then
        match temp[(candidateChoice - 1).toNat]? with
        | some modify =>
          FillMissingCandidateInfo.repair st ⟨ss, cs, ns⟩ temp (candidateChoice - 1).toNat modify
        | none => .undefined
      else
        match cs with
        | [] => .eof
        | c :: cs' =>
          if c = 'n' then .done (false, st, ⟨ss, cs', ns⟩)
          else FillMissingCandidateInfo.menu temp st ns ss cs' := rfl

theorem FillMissingCandidateInfo_menu_candidateInv (temp : List Candidate) :
    ∀ (ns : List Int) (st : ElectionSystem) (ss : List String) (cs : List Char)
      (b : Bool) (st' : ElectionSystem) (p' : Prompter),
      FillMissingCandidateInfo.menu temp st ns ss cs = .done (b, st', p') →
      CandidateInv st → CandidateInv st' := by
  intro ns
  induction ns with
  | nil => intro st ss cs b st' p' h; simp [FillMissingCandidateInfo.menu] at h
  | cons n ns ih =>
    intro st ss cs b st' p' h hinv
    rw [FillMissingCandidateInfo_menu_cons] at h
    split at h
    · split at h
      · exact FillMissingCandidateInfo_repair_candidateInv h hinv
      · simp at h
    · split at h
      · simp at h
      · split at h
        · simp only [Run.done.injEq, Prod.mk.injEq] at h
          obtain ⟨-, rfl, -⟩ := h
          exact hinv
        · exact ih _ _ _ _ _ _ h hinv

theorem FillMissingCandidateInfo_candidateInv {st st' : ElectionSystem} {p p' : Prompter}
    {b : Bool} (h : FillMissingCandidateInfo st p = .done (b, st', p'))
    (hinv : CandidateInv st) : CandidateInv st' := by
  unfold FillMissingCandidateInfo at h
  have hs := FillMissingCandidateInfo_scan_sameData st.invalidCandidateList st
  dsimp only at h
  split at h
  · exact FillMissingCandidateInfo_menu_candidateInv _ _ _ _ _ _ _ _ h (hinv.of_sameData hs)
  · simp only [Run.done.injEq, Prod.mk.injEq] at h
    obtain ⟨-, rfl, -⟩ := h
    exact hinv.of_sameData hs

/-! ## Updating the first match -/

theorem setFirst_map_eq {α β : Type} (pred : α → Bool) (f : α → α) (g : α → β)
    (hg : ∀ x, g (f x) = g x) (l : List α) : (setFirst pred f l).map g = l.map g := by
  induction l with
  | nil => rfl
  | cons x xs ih =>
    simp only [setFirst]
    split
    · simp [hg]
    · simp [ih]

theorem setFirst_none {α : Type} (pred : α → Bool) (f : α → α) (l : List α)
    (h : ∀ x ∈ l, pred x = false) : setFirst pred f l = l := by
  induction l with
  | nil => rfl
  | cons x xs ih =>
    simp only [setFirst, h x (List.mem_cons_self _ _), Bool.false_eq_true, if_false]
    rw [ih (fun y hy => h y (List.mem_cons_of_mem _ hy))]

theorem mem_setFirst {α : Type} (pred : α → Bool) (f : α → α) (l : List α) (y : α)
    (h : y ∈ setFirst pred f l) : y ∈ l ∨ ∃ x ∈ l, pred x = true ∧ y = f x := by
  induction l with
  | nil => simp [setFirst] at h
  | cons x xs ih =>
    simp only [setFirst] at h
    split at h
    · rename_i hp
      rcases List.mem_cons.mp h with rfl | h
      · exact Or.inr ⟨x, List.mem_cons_self _ _, hp, rfl⟩
      · exact Or.inl (List.mem_cons_of_mem _ h)
    · rcases List.mem_cons.mp h with rfl | h
      · exact Or.inl (List.mem_cons_self _ _)
      · rcases ih h with h | ⟨z, hz, hpz, rfl⟩
        · exact Or.inl (List.mem_cons_of_mem _ h)
        · exact Or.inr ⟨z, List.mem_cons_of_mem _ hz, hpz, rfl⟩

theorem setFirst_length {α : Type} (pred : α → Bool) (f : α → α) (l : List α) :
    (setFirst pred f l).length = l.length := by
  induction l with
  | nil => rfl
  | cons x xs ih =>
    simp only [setFirst]
    split <;> simp [ih]

theorem setFirst_symbol_nodup (pred : Candidate → Bool) (new : String) (l : List Candidate)
    (hn : (l.map fun c => c.partySymbol).Nodup) (hnew : new ∉ l.map fun c => c.partySymbol) :
    ((setFirst pred (fun c => { c with partySymbol := new }) l).map
      fun c => c.partySymbol).Nodup := by
  induction l with
  | nil => simp [setFirst]
  | cons x xs ih =>
    simp only [List.map_cons, List.nodup_cons, List.mem_cons, not_or] at hn hnew
    simp only [setFirst]
    split
    · simp only [List.map_cons, List.nodup_cons]
      exact ⟨hnew.2, hn.2⟩
    · simp only [List.map_cons, List.nodup_cons]
      refine ⟨?_, ih hn.2 hnew.2⟩
      intro hmem
      rw [List.mem_map] at hmem
      obtain ⟨y, hy, hyx⟩ := hmem
      rcases mem_setFirst _ _ _ _ hy with hy | ⟨z, -, -, rfl⟩
      · exact hn.1 (List.mem_map.mpr ⟨y, hy, hyx⟩)
      · exact hnew.1 hyx

/-! ## Amendment and removal of candidates keep the invariant -/

theorem ModifyCandidate_menu_cons (candidateID : String) (st : ElectionSystem) (choice : Int)
    (ns : List Int) (ss : List String) (cs : List Char) :
    ModifyCandidate.menu candidateID st (choice :: ns) ss cs =
      if choice = 1 then do
        let (r, st1, p1) ← promptUntilValid ValidateCandidateName st ⟨ss, cs, ns⟩
        match r with
        | none => pure (false, st1, p1)
        | some newName =>
          pure (true, { st1 with
            validCandidateList := setFirst (fun c => c.candidateID = candidateID)
              (fun c => { c with candidateName := newName }) st1.validCandidateList }, p1)
      else if choice = 2 then do
        let (r, st1, p1) ← promptUntilValid ValidatePartySymbol st ⟨ss, cs, ns⟩
        match r with
        | none => pure (false, st1, p1)
        | some newPartySymbol =>
          pure (true, { st1 with
            validCandidateList := setFirst (fun c => c.candidateID = candidateID)
              (fun c => { c with partySymbol := newPartySymbol }) st1.validCandidateList
            symbolSet :=
              if st1.validCandidateList.any (fun c => c.candidateID = candidateID) then
                insert newPartySymbol st1.symbolSet
              else st1.symbolSet }, p1)
      else if choice = 3 then do
        let (r, st1, p1) ← promptUntilValid ValidateRegionCode st ⟨ss, cs, ns⟩
        match r with
        | none => pure (false, st1, p1)
        | some newRegionCode =>
          pure (true, { st1 with
            validCandidateList := setFirst (fun c => c.candidateID = candidateID)
              (fun c => { c with regionID := newRegionCode }) st1.validCandidateList }, p1)
      else
        match cs with
        | [] => .eof
        | c :: cs' =>
          if c = 'n' then .done (false, st, ⟨ss, cs', ns⟩)
          else ModifyCandidate.menu candidateID st ns ss cs' := rfl

theorem ModifyCandidate_menu_candidateInv (candidateID : String) :
    ∀ (ns : List Int) (st : ElectionSystem) (ss : List String) (cs : List Char)
      (b : Bool) (st' : ElectionSystem) (p' : Prompter),
      ModifyCandidate.menu candidateID st ns ss cs = .done (b, st', p') →
      CandidateInv st → CandidateInv st' := by
  intro ns
  induction ns with
  | nil => intro st ss cs b st' p' h; simp [ModifyCandidate.menu] at h
  | cons n ns ih =>
    intro st ss cs b st' p' h hinv
    rw [ModifyCandidate_menu_cons] at h
    split at h
    · obtain ⟨⟨r, st1, p1⟩, h1, h⟩ := Run.bind_eq_done.mp h
      obtain ⟨⟨m1, rfl⟩, -⟩ := promptUntilValid_done isRule_ValidateCandidateName h1
      cases r with
      | none =>
        simp only [Run.pure_eq_done, Prod.mk.injEq] at h
        obtain ⟨-, rfl, -⟩ := h
        exact hinv.of_sameData ⟨m1, rfl⟩
      | some newName =>
        simp only [Run.pure_eq_done, Prod.mk.injEq] at h
        obtain ⟨-, rfl, -⟩ := h
        refine hinv.of_keys ?_ ?_ (Finset.Subset.refl _) (Finset.Subset.refl _)
        · dsimp only [setError_validCandidateList]
          exact setFirst_map_eq _ _ _ (by intro _; rfl) _
        · dsimp only [setError_validCandidateList]
          exact setFirst_map_eq _ _ _ (by intro _; rfl) _
    · split at h
      · obtain ⟨⟨r, st1, p1⟩, h1, h⟩ := Run.bind_eq_done.mp h
        obtain ⟨⟨m1, rfl⟩, v1⟩ := promptUntilValid_done isRule_ValidatePartySymbol h1
        cases r with
        | none =>
          simp only [Run.pure_eq_done, Prod.mk.injEq] at h
          obtain ⟨-, rfl, -⟩ := h
          exact hinv.of_sameData ⟨m1, rfl⟩
        | some newPartySymbol =>
          simp only [Run.pure_eq_done, Prod.mk.injEq] at h
          obtain ⟨-, rfl, -⟩ := h
          have hnew : newPartySymbol ∉ st.symbolSet := ValidatePartySymbol_true (v1 _ rfl)
          have hnew' : newPartySymbol ∉ st.validCandidateList.map fun c => c.partySymbol := by
            intro hmem
            rw [List.mem_map] at hmem
            obtain ⟨d, hd, hdn⟩ := hmem
            exact hnew (hdn ▸ hinv.symbolIndexed d hd)
          have hids : (setFirst (fun c => decide (c.candidateID = candidateID))
              (fun c => { c with partySymbol := newPartySymbol }) st.validCandidateList).map
                (fun c => c.candidateID) = st.validCandidateList.map fun c => c.candidateID :=
            setFirst_map_eq _ _ _ (by intro _; rfl) _
          constructor
          · have := hinv.idsNodup
            rw [← hids] at this
            exact this
          · exact setFirst_symbol_nodup _ _ _ hinv.symbolsNodup hnew'
          · intro c hc
            simp only [setError_validCandidateList] at hc
            have : c.candidateID ∈ st.validCandidateList.map fun c => c.candidateID := by
              rw [← hids]
              exact List.mem_map_of_mem _ hc
            rw [List.mem_map] at this
            obtain ⟨d, hd, hdc⟩ := this
            exact hdc ▸ hinv.idIndexed d hd
          · intro c hc
            simp only [setError_validCandidateList, setError_symbolSet] at hc ⊢
            rcases mem_setFirst _ _ _ _ hc with hc | ⟨z, hz, hpz, rfl⟩
            · split
              · exact Finset.mem_insert_of_mem (hinv.symbolIndexed c hc)
              · exact hinv.symbolIndexed c hc
            · have hany : (st.validCandidateList.any fun c => decide (c.candidateID = candidateID))
                  = true := List.any_eq_true.mpr ⟨z, hz, hpz⟩
              rw [if_pos hany]
              exact Finset.mem_insert_self _ _
      · split at h
        · obtain ⟨⟨r, st1, p1⟩, h1, h⟩ := Run.bind_eq_done.mp h
          obtain ⟨⟨m1, rfl⟩, -⟩ := promptUntilValid_done isRule_ValidateRegionCode h1
          cases r with
          | none =>
            simp only [Run.pure_eq_done, Prod.mk.injEq] at h
            obtain ⟨-, rfl, -⟩ := h
            exact hinv.of_sameData ⟨m1, rfl⟩
          | some newRegionCode =>
            simp only [Run.pure_eq_done, Prod.mk.injEq] at h
            obtain ⟨-, rfl, -⟩ := h
            refine hinv.of_keys ?_ ?_ (Finset.Subset.refl _) (Finset.Subset.refl _)
            · dsimp only [setError_validCandidateList]
              exact setFirst_map_eq _ _ _ (by intro _; rfl) _
            · dsimp only [setError_validCandidateList]
              exact setFirst_map_eq _ _ _ (by intro _; rfl) _
        · split at h
          · simp at h
          · split at h
            · simp only [Run.done.injEq, Prod.mk.injEq] at h
              obtain ⟨-, rfl, -⟩ := h
              exact hinv
            · exact ih _ _ _ _ _ _ h hinv

theorem isRule_candidateListed : IsRule (fun (s : ElectionSystem) (candidateID : String) =>
    (s.validCandidateList.any fun c => decide (c.candidateID = candidateID), s)) :=
  isRule_of_reader
    (fun s candidateID => s.validCandidateList.any fun c => decide (c.candidateID = candidateID))
    (fun _ _ _ => rfl)

theorem ModifyCandidate_candidateInv {st st' : ElectionSystem} {p p' : Prompter} {b : Bool}
    (h : ModifyCandidate st p = .done (b, st', p')) (hinv : CandidateInv st) :
    CandidateInv st' := by
  unfold ModifyCandidate at h
  split at h
  · simp only [Run.done.injEq, Prod.mk.injEq] at h
    obtain ⟨-, rfl, -⟩ := h
    exact hinv
  · obtain ⟨⟨r, st1, p1⟩, h1, h⟩ := Run.bind_eq_done.mp h
    have s1 := promptUntilValid_done isRule_candidateListed h1
    cases r with
    | none =>
      simp only [Run.pure_eq_done, Prod.mk.injEq] at h
      obtain ⟨-, rfl, -⟩ := h
      exact hinv.of_sameData s1.1
    | some candidateID =>
      exact ModifyCandidate_menu_candidateInv _ _ _ _ _ _ _ _ h (hinv.of_sameData s1.1)

theorem RemoveCandidate_candidateInv {st st' : ElectionSystem} {p p' : Prompter} {b : Bool}
    (h : RemoveCandidate st p = .done (b, st', p')) (hinv : CandidateInv st) :
    CandidateInv st' := by
  unfold RemoveCandidate at h
  split at h
  · simp only [Run.done.injEq, Prod.mk.injEq] at h
    obtain ⟨-, rfl, -⟩ := h
    exact hinv
  · obtain ⟨⟨r, st1, p1⟩, h1, h⟩ := Run.bind_eq_done.mp h
    obtain ⟨⟨m1, rfl⟩, v1⟩ := promptUntilValid_done isRule_candidateListed h1
    cases r with
    | none =>
      simp only [Run.pure_eq_done, Prod.mk.injEq] at h
      obtain ⟨-, rfl, -⟩ := h
      exact hinv.of_sameData ⟨m1, rfl⟩
    | some candidateID =>
      simp only [Run.pure_eq_done, Prod.mk.injEq] at h
      obtain ⟨-, rfl, -⟩ := h
      have hany := v1 candidateID rfl
      simp only [List.any_eq_true, decide_eq_true_eq] at hany
      obtain ⟨a, ha, hpa⟩ := hany
      obtain ⟨a', l1, l2, hl1, hpa', hl, he⟩ :=
        List.exists_of_eraseP (p := fun c => decide (c.candidateID = candidateID)) ha
          (by simpa using hpa)
      have hsub : (st.validCandidateList.eraseP fun c => decide (c.candidateID = candidateID)).Sublist
          st.validCandidateList := List.eraseP_sublist _
      simp only [decide_eq_true_eq] at hpa'
      have hnd := hinv.idsNodup
      rw [hl] at hnd
      simp only [List.map_append, List.map_cons] at hnd
      have hnot : ∀ c ∈ l1 ++ l2, c.candidateID ≠ candidateID := by
        intro c hc heq
        have hnd' := List.nodup_middle.mp hnd
        rw [List.nodup_cons] at hnd'
        apply hnd'.1
        rw [← List.map_append, List.mem_map]
        exact ⟨c, hc, by rw [heq, hpa']⟩
      constructor
      · exact hinv.idsNodup.sublist (hsub.map _)
      · exact hinv.symbolsNodup.sublist (hsub.map _)
      · intro c hc
        simp only [setError_validCandidateList, setError_idSet] at hc ⊢
        rw [Finset.mem_erase]
        refine ⟨?_, hinv.idIndexed c (hsub.subset hc)⟩
        rw [he] at hc
        exact hnot c hc
      · intro c hc
        exact hinv.symbolIndexed c (hsub.subset hc)

/-! ## The voter operations leave the candidate side alone -/

theorem CandidateData_of_sameData {st st' : ElectionSystem} (h : SameData st st') :
    CandidateData st' = CandidateData st := by
  obtain ⟨m, rfl⟩ := h
  rfl

theorem CandidateInv.of_candidateData {st st' : ElectionSystem} (h : CandidateInv st)
    (hd : CandidateData st' = CandidateData st) : CandidateInv st' := by
  simp only [CandidateData, Prod.mk.injEq] at hd
  obtain ⟨h1, -, h3, h4, -⟩ := hd
  exact h.of_keys (by rw [h1]) (by rw [h1]) (by rw [h3]) (by rw [h4])

theorem VoterCsvCheck_line_candidateData (st : ElectionSystem) (row : String × Option String) :
    CandidateData (VoterCsvCheck.line st row) = CandidateData st := by
  unfold VoterCsvCheck.line
  obtain ⟨m1, e1⟩ := isRule_IsValidAadhar.frame st row.1
  split
  · rename_i status _
    obtain ⟨m2, e2⟩ := isRule_IsValidStatus.frame (st.setError m1) status
    dsimp only
    rw [e1]
    split_ifs <;> first | rfl | (rw [e2]; rfl)
  · dsimp only
    split <;> rfl

theorem VoterCsvCheck_candidateData (file : Option (List (String × Option String)))
    (st : ElectionSystem) : CandidateData (VoterCsvCheck file st).2 = CandidateData st := by
  cases file with
  | none => rfl
  | some rows =>
    simp only [VoterCsvCheck]
    induction rows generalizing st with
    | nil => rfl
    | cons row rows ih =>
      rw [List.foldl_cons, ih, VoterCsvCheck_line_candidateData]

theorem AddVoter_candidateData {st st' : ElectionSystem} {p p' : Prompter} {b : Bool}
    (h : AddVoter st p = .done (b, st', p')) : CandidateData st' = CandidateData st := by
  unfold AddVoter at h
  obtain ⟨⟨r, st1, p1⟩, h1, h⟩ := Run.bind_eq_done.mp h
  obtain ⟨⟨m1, rfl⟩, -⟩ := promptUntilValid_done isRule_ValidateNewAadhar h1
  cases r <;>
  · simp only [Run.pure_eq_done, Prod.mk.injEq] at h
    obtain ⟨-, rfl, -⟩ := h
    rfl

theorem ModifyVoter_statusLoop_sameData :
    ∀ (ss : List String) (st : ElectionSystem) (status : String) (st' : ElectionSystem)
      (ss' : List String),
      ModifyVoter.statusLoop st ss = .done (status, st', ss') → SameData st st' := by
  intro ss
  induction ss with
  | nil => intro st status st' ss' h; simp [ModifyVoter.statusLoop] at h
  | cons s ss ih =>
    intro st status st' ss' h
    simp only [ModifyVoter.statusLoop] at h
    split at h
    · simp only [Run.done.injEq, Prod.mk.injEq] at h
      obtain ⟨-, rfl, -⟩ := h
      exact isRule_IsValidStatus.frame st s
    · exact (isRule_IsValidStatus.frame st s).trans (ih _ _ _ _ h)

theorem ModifyVoter_update_candidateData {st st' : ElectionSystem} {p p' : Prompter} {k : Nat}
    {voter : Voter} {updateChoice : Int} {b : Bool}
    {r : Run (Bool × ElectionSystem × Prompter)}
    (hr : ModifyVoter.update st p k voter updateChoice = some r)
    (h : r = .done (b, st', p')) : CandidateData st' = CandidateData st := by
  unfold ModifyVoter.update at hr
  split at hr
  · simp only [Option.some.injEq] at hr
    subst hr
    split at h
    · obtain ⟨⟨r1, st1, p1⟩, h1, h⟩ := Run.bind_eq_done.mp h
      obtain ⟨⟨m1, rfl⟩, -⟩ := promptUntilValid_done isRule_ValidateNewAadhar h1
      cases r1 <;>
      · simp only [Run.pure_eq_done, Prod.mk.injEq] at h
        obtain ⟨-, rfl, -⟩ := h
        rfl
    · simp at h
  · split at hr
    · simp only [Option.some.injEq] at hr
      subst hr
      split at h
      · rename_i status st1 ss heq
        obtain ⟨m1, rfl⟩ := ModifyVoter_statusLoop_sameData _ _ _ _ _ heq
        simp only [Run.done.injEq, Prod.mk.injEq] at h
        obtain ⟨-, rfl, -⟩ := h
        rfl
      · simp at h
      · simp at h
    · simp at hr

theorem ModifyVoter_menu_cons (st : ElectionSystem) (aadharIdChoice : Int) (ns : List Int)
    (ss : List String) (cs : List Char) :
    ModifyVoter.menu st (aadharIdChoice :: ns) ss cs =
      if aadharIdChoice ≥ 1 ∧ aadharIdChoice < (st.validVoterList.length : Int) + 1 then
        match st.validVoterList[(aadharIdChoice - 1).toNat]? with
        | none => .undefined
        | some voter =>
          match ns with
          | [] => .eof
          | updateChoice :: ns' =>
            match ModifyVoter.update st ⟨ss, cs, ns'⟩ (aadharIdChoice - 1).toNat voter
                updateChoice with
            | some r => r
            | none => ModifyVoter.menu st ns' ss cs
      else
        match cs with
        | [] => .eof
        | c :: cs' =>
          if c = 'n' then .done (false, st, ⟨ss, cs', ns⟩)
          else ModifyVoter.menu st ns ss cs' := by
  cases ns with
  | nil => cases cs <;> simp only [ModifyVoter.menu]
  | cons n2 ns2 => cases cs <;> simp only [ModifyVoter.menu]

theorem ModifyVoter_menu_candidateData :
    ∀ (n : Nat) (ns : List Int), ns.length ≤ n → ∀ (st : ElectionSystem) (ss : List String)
      (cs : List Char) (b : Bool) (st' : ElectionSystem) (p' : Prompter),
      ModifyVoter.menu st ns ss cs = .done (b, st', p') →
      CandidateData st' = CandidateData st := by
  intro n
  induction n with
  | zero =>
    intro ns hn st ss cs b st' p' h
    have : ns = [] := List.length_eq_zero.mp (Nat.le_zero.mp hn)
    subst this
    simp [ModifyVoter.menu] at h
  | succ n ih =>
    intro ns hn st ss cs b st' p' h
    cases ns with
    | nil => simp [ModifyVoter.menu] at h
    | cons c1 ns =>
      rw [ModifyVoter_menu_cons] at h
      simp only [List.length_cons, Nat.add_le_add_iff_right] at hn
      split at h
      · split at h
        · simp at h
        · split at h
          · simp at h
          · rename_i c2 ns2
            split at h
            · rename_i r hr
              exact ModifyVoter_update_candidateData hr h
            · simp only [List.length_cons] at hn
              exact ih ns2 (by omega) _ _ _ _ _ _ h
      · split at h
        · simp at h
        · split at h
          · simp only [Run.done.injEq, Prod.mk.injEq] at h
            obtain ⟨-, rfl, -⟩ := h
            rfl
          · exact ih ns hn _ _ _ _ _ _ h

theorem ModifyVoter_candidateData {st st' : ElectionSystem} {p p' : Prompter} {b : Bool}
    (h : ModifyVoter st p = .done (b, st', p')) : CandidateData st' = CandidateData st := by
  unfold ModifyVoter at h
  split at h
  · simp only [Run.done.injEq, Prod.mk.injEq] at h
    obtain ⟨-, rfl, -⟩ := h
    rfl
  · exact ModifyVoter_menu_candidateData _ _ (Nat.le_refl _) _ _ _ _ _ _ h

theorem RemoveVoter_candidateData {st st' : ElectionSystem} {p p' : Prompter} {b : Bool}
    (h : RemoveVoter st p = .done (b, st', p')) : CandidateData st' = CandidateData st := by
  unfold RemoveVoter at h
  split at h
  · simp only [Run.done.injEq, Prod.mk.injEq] at h
    obtain ⟨-, rfl, -⟩ := h
    rfl
  · obtain ⟨⟨r, st1, p1⟩, h1, h⟩ := Run.bind_eq_done.mp h
    obtain ⟨⟨m1, rfl⟩, -⟩ := promptUntilValid_done isRule_IsValidAadhar h1
    cases r with
    | none =>
      simp only [Run.pure_eq_done, Prod.mk.injEq] at h
      obtain ⟨-, rfl, -⟩ := h
      rfl
    | some aadharID =>
      dsimp only at h
      split at h
      · split at h
        · simp only [Run.pure_eq_done, Prod.mk.injEq] at h
          obtain ⟨-, rfl, -⟩ := h
          rfl
        · simp at h
      · simp only [Run.pure_eq_done, Prod.mk.injEq] at h
        obtain ⟨-, rfl, -⟩ := h
        rfl

theorem FillMissingVoterInfo_repair_candidateData {st st' : ElectionSystem} {p p' : Prompter}
    {k : Nat} {pair : String × String} {b : Bool}
    (h : FillMissingVoterInfo.repair st p k pair = .done (b, st', p')) :
    CandidateData st' = CandidateData st := by
  unfold FillMissingVoterInfo.repair at h
  obtain ⟨⟨ra, st1, p1⟩, h1, h⟩ := Run.bind_eq_done.mp h
  obtain ⟨⟨m1, rfl⟩, -⟩ := repairSlot_done isRule_ValidateNewAadhar h1
  cases ra with
  | none =>
    simp only [Run.pure_eq_done, Prod.mk.injEq] at h
    obtain ⟨-, rfl, -⟩ := h
    rfl
  | some ra =>
    obtain ⟨aadhar, e1⟩ := ra
    dsimp only at h
    obtain ⟨⟨rs, st2, p2⟩, h2, h⟩ := Run.bind_eq_done.mp h
    obtain ⟨⟨m2, rfl⟩, -⟩ := repairSlot_done isRule_IsValidStatus h2
    cases rs <;>
    · simp only [Run.pure_eq_done, Prod.mk.injEq] at h
      obtain ⟨-, rfl, -⟩ := h
      rfl

theorem FillMissingVoterInfo_menu_cons (st : ElectionSystem) (aadharIdChoice : Int)
    (ns : List Int) (ss : List String) (cs : List Char) :
    FillMissingVoterInfo.menu st (aadharIdChoice :: ns) ss cs =
      if aadharIdChoice ≥ 1 ∧ aadharIdChoice ≤ (st.invalidVoterList.length : Int) + 1 then
        match st.invalidVoterList[(aadharIdChoice - 1).toNat]? with
        | some pair => FillMissingVoterInfo.repair st ⟨ss, cs, ns⟩ (aadharIdChoice - 1).toNat pair
        | none => .undefined
      else
        match cs with
        | [] => .eof
        | c :: cs' =>
          if c = 'n' then .done (false, st, ⟨ss, cs', ns⟩)
          else FillMissingVoterInfo.menu st ns ss cs' := rfl

theorem FillMissingVoterInfo_menu_candidateData :
    ∀ (ns : List Int) (st : ElectionSystem) (ss : List String) (cs : List Char)
      (b : Bool) (st' : ElectionSystem) (p' : Prompter),
      FillMissingVoterInfo.menu st ns ss cs = .done (b, st', p') →
      CandidateData st' = CandidateData st := by
  intro ns
  induction ns with
  | nil => intro st ss cs b st' p' h; simp [FillMissingVoterInfo.menu] at h
  | cons n ns ih =>
    intro st ss cs b st' p' h
    rw [FillMissingVoterInfo_menu_cons] at h
    split at h
    · split at h
      · exact FillMissingVoterInfo_repair_candidateData h
      · simp at h
    · split at h
      · simp at h
      · split at h
        · simp only [Run.done.injEq, Prod.mk.injEq] at h
          obtain ⟨-, rfl, -⟩ := h
          rfl
        · exact ih _ _ _ _ _ _ h

theorem FillMissingVoterInfo_candidateData {st st' : ElectionSystem} {p p' : Prompter}
    {b : Bool} (h : FillMissingVoterInfo st p = .done (b, st', p')) :
    CandidateData st' = CandidateData st := by
  unfold FillMissingVoterInfo at h
  split at h
  · simp only [Run.done.injEq, Prod.mk.injEq] at h
    obtain ⟨-, rfl, -⟩ := h
    rfl
  · exact FillMissingVoterInfo_menu_candidateData _ _ _ _ _ _ _ h

/-! ## Vote casting, case by case -/

theorem CastVote_of_cancel {st : ElectionSystem} {p p' : Prompter}
    (h : CastVote.select st p = .done (none, p')) : CastVote st p = .done (false, st, p') := by
  unfold CastVote
  rw [h]
  rfl

theorem CastVote_of_voted {st : ElectionSystem} {p p' : Prompter} {candidateID aadhaarID : String}
    (h : CastVote.select st p = .done (some (candidateID, aadhaarID), p'))
    (hs : CastVote.currentStatus st.validVoterList aadhaarID = some true) :
    CastVote st p = .done (true, st, p') := by
  unfold CastVote
  rw [h]
  simp only [Bind.bind, Run.bind, hs]
  rfl

theorem CastVote_of_fresh {st : ElectionSystem} {p p' : Prompter} {candidateID aadhaarID : String}
    (h : CastVote.select st p = .done (some (candidateID, aadhaarID), p'))
    (hs : CastVote.currentStatus st.validVoterList aadhaarID = some false) :
    CastVote st p = .done (true, CastVote.commit st candidateID aadhaarID, p') := by
  unfold CastVote
  rw [h]
  simp only [Bind.bind, Run.bind, hs]
  rfl

/-- Every returning run of `CastVote` is a cancelled selection, an already-voted
selection or a committed selection. -/
theorem CastVote_done {st st' : ElectionSystem} {p p' : Prompter} {b : Bool}
    (h : CastVote st p = .done (b, st', p')) :
    (CastVote.select st p = .done (none, p') ∧ b = false ∧ st' = st) ∨
    ∃ candidateID aadhaarID,
      CastVote.select st p = .done (some (candidateID, aadhaarID), p') ∧ b = true ∧
      ((CastVote.currentStatus st.validVoterList aadhaarID = some true ∧ st' = st) ∨
       (CastVote.currentStatus st.validVoterList aadhaarID = some false ∧
        st' = CastVote.commit st candidateID aadhaarID)) := by
  unfold CastVote at h
  obtain ⟨⟨sel, p1⟩, h1, h⟩ := Run.bind_eq_done.mp h
  cases sel with
  | none =>
    simp only [Run.pure_eq_done, Prod.mk.injEq] at h
    obtain ⟨rfl, rfl, rfl⟩ := h
    exact Or.inl ⟨h1, rfl, rfl⟩
  | some ids =>
    obtain ⟨candidateID, aadhaarID⟩ := ids
    dsimp only at h
    split at h
    · simp at h
    · rename_i cur hcur
      cases cur with
      | true =>
        simp only [Bool.not_true, Bool.false_eq_true, if_false, Run.pure_eq_done,
          Prod.mk.injEq] at h
        obtain ⟨rfl, rfl, rfl⟩ := h
        exact Or.inr ⟨candidateID, aadhaarID, h1, rfl, Or.inl ⟨hcur, rfl⟩⟩
      | false =>
        simp only [Bool.not_false, if_true, Run.pure_eq_done, Prod.mk.injEq] at h
        obtain ⟨rfl, rfl, rfl⟩ := h
        exact Or.inr ⟨candidateID, aadhaarID, h1, rfl, Or.inr ⟨hcur, rfl⟩⟩

theorem CastVote_commit_candidateInv (st : ElectionSystem) (candidateID aadhaarID : String)
    (hinv : CandidateInv st) : CandidateInv (CastVote.commit st candidateID aadhaarID) := by
  unfold CastVote.commit
  split
  · refine hinv.of_keys ?_ ?_ (Finset.Subset.refl _) (Finset.Subset.refl _)
    · exact setFirst_map_eq _ _ _ (by intro _; rfl) _
    · exact setFirst_map_eq _ _ _ (by intro _; rfl) _
  · exact hinv

theorem CastVote_candidateInv {st st' : ElectionSystem} {p p' : Prompter} {b : Bool}
    (h : CastVote st p = .done (b, st', p')) (hinv : CandidateInv st) : CandidateInv st' := by
  rcases CastVote_done h with ⟨-, -, rfl⟩ | ⟨c, a, -, -, ⟨-, rfl⟩ | ⟨-, rfl⟩⟩
  · exact hinv
  · exact hinv
  · exact CastVote_commit_candidateInv st c a hinv

theorem isRule_idListed : IsRule (fun (s : ElectionSystem) (candidateID : String) =>
    (decide (candidateID ∈ s.idSet), s)) :=
  isRule_of_reader (fun s candidateID => decide (candidateID ∈ s.idSet)) (fun _ _ _ => rfl)

theorem isRule_aadharListed : IsRule (fun (s : ElectionSystem) (aadhaarID : String) =>
    (decide (aadhaarID ∈ s.checkAadhar), s)) :=
  isRule_of_reader (fun s aadhaarID => decide (aadhaarID ∈ s.checkAadhar)) (fun _ _ _ => rfl)

theorem IndividualResult_candidateInv {st st' : ElectionSystem} {p p' : Prompter} {b : Bool}
    (h : IndividualResult st p = .done (b, st', p')) (hinv : CandidateInv st) :
    CandidateInv st' := by
  unfold IndividualResult at h
  obtain ⟨⟨r, st1, p1⟩, h1, h⟩ := Run.bind_eq_done.mp h
  obtain ⟨⟨m1, rfl⟩, -⟩ := promptUntilValid_done isRule_idListed h1
  cases r <;>
  · simp only [Run.pure_eq_done, Prod.mk.injEq] at h
    obtain ⟨-, rfl, -⟩ := h
    exact hinv.of_keys rfl rfl (Finset.Subset.refl _) (Finset.Subset.refl _)

/-! ## Invariant I2 holds in every reachable state -/

theorem Operation.run_candidateInv {op : Operation} {st st' : ElectionSystem}
    {p p' : Prompter} {b : Bool} (h : op.run st p = .done (b, st', p'))
    (hinv : CandidateInv st) : CandidateInv st' := by
  cases op with
  | candidateCsvCheck file =>
    simp only [Operation.run, Run.done.injEq, Prod.mk.injEq] at h
    obtain ⟨-, rfl, -⟩ := h
    exact CandidateCsvCheck_candidateInv file st hinv
  | voterCsvCheck file =>
    simp only [Operation.run, Run.done.injEq, Prod.mk.injEq] at h
    obtain ⟨-, rfl, -⟩ := h
    exact hinv.of_candidateData (VoterCsvCheck_candidateData file st)
  | addCandidate => exact AddCandidate_candidateInv h hinv
  | fillMissingCandidateInfo => exact FillMissingCandidateInfo_candidateInv h hinv
  | modifyCandidate => exact ModifyCandidate_candidateInv h hinv
  | removeCandidate => exact RemoveCandidate_candidateInv h hinv
  | addVoter => exact hinv.of_candidateData (AddVoter_candidateData h)
  | fillMissingVoterInfo => exact hinv.of_candidateData (FillMissingVoterInfo_candidateData h)
  | modifyVoter => exact hinv.of_candidateData (ModifyVoter_candidateData h)
  | removeVoter => exact hinv.of_candidateData (RemoveVoter_candidateData h)
  | castVote => exact CastVote_candidateInv h hinv
  | showResult =>
    simp only [Operation.run, Run.done.injEq, Prod.mk.injEq] at h
    obtain ⟨-, rfl, -⟩ := h
    exact hinv.of_keys rfl rfl (Finset.Subset.refl _) (Finset.Subset.refl _)
  | individualResult => exact IndividualResult_candidateInv h hinv

theorem Reachable.candidateInv {st : ElectionSystem} (h : Reachable st) : CandidateInv st := by
  induction h with
  | init => exact CandidateInv.empty
  | step op p p' b _ hrun ih => exact Operation.run_candidateInv hrun ih

/-! ## The claims -/

/-- C1 (invariant I1 is broken by the code). After the line `C1a,,Red,R1a,5` is loaded
and the rejected record is repaired through `FillMissingCandidateInfo` (choice 1, name
`Alice`), the reachable state holds the admitted candidate `C1a` with stored count 5
while the ledger has no entry for `C1a`, so `votesSet["C1a"]` reads 0. -/
theorem C1_promotion_skips_ledger :
    FillMissingCandidateInfo Scenario.rejectedWithVotes ⟨["Alice"], [], [1]⟩
        = .done (true, Scenario.promotedWithVotes, ⟨[], [], []⟩) ∧
      Reachable Scenario.promotedWithVotes ∧
      mapFind Scenario.promotedWithVotes.votesSet "C1a" = none ∧
      ∃ c ∈ Scenario.promotedWithVotes.validCandidateList,
        mapAt Scenario.promotedWithVotes.votesSet c.candidateID ≠ c.numOfVotes := by
  have hrun : FillMissingCandidateInfo Scenario.rejectedWithVotes ⟨["Alice"], [], [1]⟩
      = .done (true, Scenario.promotedWithVotes, ⟨[], [], []⟩) := by decide
  refine ⟨hrun, ?_, by decide, ⟨"C1a", "Alice", "Red", "R1a", 5⟩, by decide, by decide⟩
  have h0 : Reachable Scenario.rejectedWithVotes :=
    Reachable.step (.candidateCsvCheck (some [⟨"C1a", "", "Red", "R1a", "5"⟩]))
      ⟨[], [], []⟩ ⟨[], [], []⟩ false Reachable.init (by decide)
  exact Reachable.step .fillMissingCandidateInfo ⟨["Alice"], [], [1]⟩ ⟨[], [], []⟩ true h0 hrun

theorem Scenario.oneEach_reachable : Reachable Scenario.oneEach := by
  have h0 : Reachable
      (CandidateCsvCheck (some [⟨"C1a", "Alice", "Red", "R1a", "0"⟩]) ElectionSystem.empty).2 :=
    Reachable.step (.candidateCsvCheck (some [⟨"C1a", "Alice", "Red", "R1a", "0"⟩]))
      ⟨[], [], []⟩ ⟨[], [], []⟩ true Reachable.init (by decide)
  exact Reachable.step (.voterCsvCheck (some [("123456789012", some "0")]))
    ⟨[], [], []⟩ ⟨[], [], []⟩ true h0 (by decide)

theorem Scenario.unindexedVoter_run :
    ModifyVoter Scenario.oneEach ⟨["abc"], ['n'], [1, 1]⟩
      = .done (false, Scenario.unindexedVoter, ⟨[], [], []⟩) := by decide

theorem Scenario.twinVoters_run :
    AddVoter Scenario.unindexedVoter ⟨["123456789012"], [], []⟩
      = .done (true, Scenario.twinVoters, ⟨[], [], []⟩) := by decide

theorem Scenario.twinVoters_reachable : Reachable Scenario.twinVoters :=
  Reachable.step .addVoter ⟨["123456789012"], [], []⟩ ⟨[], [], []⟩ true
    (Reachable.step .modifyVoter ⟨["abc"], ['n'], [1, 1]⟩ ⟨[], [], []⟩ false
      Scenario.oneEach_reachable Scenario.unindexedVoter_run)
    Scenario.twinVoters_run

/-- C2 (invariant I2). In every reachable state two entries of `validCandidateList` at
different positions differ in their candidate ID and differ in their party symbol. -/
theorem C2_candidate_keys_unique (st : ElectionSystem) (h : Reachable st) (i j : Nat)
    (a b : Candidate) (ha : st.validCandidateList[i]? = some a)
    (hb : st.validCandidateList[j]? = some b) (hij : i ≠ j) :
    a.candidateID ≠ b.candidateID ∧ a.partySymbol ≠ b.partySymbol := by
  have hinv := h.candidateInv
  obtain ⟨hi, rfl⟩ := List.getElem?_eq_some.mp ha
  obtain ⟨hj, rfl⟩ := List.getElem?_eq_some.mp hb
  have hi1 : i < (st.validCandidateList.map fun c => c.candidateID).length := by simpa using hi
  have hj1 : j < (st.validCandidateList.map fun c => c.candidateID).length := by simpa using hj
  have hi2 : i < (st.validCandidateList.map fun c => c.partySymbol).length := by simpa using hi
  have hj2 : j < (st.validCandidateList.map fun c => c.partySymbol).length := by simpa using hj
  constructor
  · intro heq
    have e : (st.validCandidateList.map fun c => c.candidateID)[i]
        = (st.validCandidateList.map fun c => c.candidateID)[j] := by simpa using heq
    exact hij (hinv.idsNodup.getElem_inj_iff.mp e)
  · intro heq
    have e : (st.validCandidateList.map fun c => c.partySymbol)[i]
        = (st.validCandidateList.map fun c => c.partySymbol)[j] := by simpa using heq
    exact hij (hinv.symbolsNodup.getElem_inj_iff.mp e)

theorem Scenario.twoCandidates_reachable : Reachable Scenario.twoCandidates :=
  Reachable.step
    (.candidateCsvCheck
      (some [⟨"C1a", "Alice", "Red", "R1a", "0"⟩, ⟨"B2b", "Bob", "Blue", "R2b", "3"⟩]))
    ⟨[], [], []⟩ ⟨[], [], []⟩ true Reachable.init (by decide)

/-- Witness for C2: the two candidates loaded from a two-line file. -/
theorem C2_candidate_keys_unique_witness :
    Reachable Scenario.twoCandidates ∧
      Scenario.twoCandidates.validCandidateList[0]? = some ⟨"C1a", "Alice", "Red", "R1a", 0⟩ ∧
      Scenario.twoCandidates.validCandidateList[1]? = some ⟨"B2b", "Bob", "Blue", "R2b", 3⟩ ∧
      ("C1a" ≠ "B2b" ∧ "Red" ≠ "Blue") :=
  ⟨Scenario.twoCandidates_reachable, by decide, by decide,
    C2_candidate_keys_unique Scenario.twoCandidates Scenario.twoCandidates_reachable 0 1
      ⟨"C1a", "Alice", "Red", "R1a", 0⟩ ⟨"B2b", "Bob", "Blue", "R2b", 3⟩
      (by decide) (by decide) (by decide)⟩

/-- C3 (invariant I3 is broken by the code). A cancelled `ModifyVoter` (voter 1, update
choice 1, text `abc` refused, answer `n`) leaves the voter admitted but erased from
`checkAadhar`; `AddVoter` then accepts the same identifier again, so the reachable state
holds two admitted voters with the identifier `123456789012`. -/
theorem C3_cancelled_amendment_admits_twin :
    ModifyVoter Scenario.oneEach ⟨["abc"], ['n'], [1, 1]⟩
        = .done (false, Scenario.unindexedVoter, ⟨[], [], []⟩) ∧
      AddVoter Scenario.unindexedVoter ⟨["123456789012"], [], []⟩
        = .done (true, Scenario.twinVoters, ⟨[], [], []⟩) ∧
      Reachable Scenario.twinVoters ∧
      Scenario.twinVoters.validVoterList[0]? = some ⟨"123456789012", false⟩ ∧
      Scenario.twinVoters.validVoterList[1]? = some ⟨"123456789012", false⟩ :=
  ⟨Scenario.unindexedVoter_run, Scenario.twinVoters_run, Scenario.twinVoters_reachable,
    by decide, by decide⟩

/-- C5 (exactly-once is broken by the code). In the reachable state with two admitted
voters carrying `123456789012`, `CastVote` naming `C1a` and that voter commits on the
first run and commits again on the second run: the ledger entry and the stored count of
`C1a` go from 0 to 1 and then to 2. -/
theorem C5_second_cast_commits_again :
    Reachable Scenario.twinVoters ∧
      CastVote Scenario.twinVoters ⟨["C1a", "123456789012"], [], []⟩
        = .done (true, Scenario.twinVotedOnce, ⟨[], [], []⟩) ∧
      CastVote Scenario.twinVotedOnce ⟨["C1a", "123456789012"], [], []⟩
        = .done (true, Scenario.twinVotedTwice, ⟨[], [], []⟩) ∧
      mapAt Scenario.twinVotedOnce.votesSet "C1a" = 1 ∧
      mapAt Scenario.twinVotedTwice.votesSet "C1a" = 2 ∧
      Scenario.twinVotedTwice.votesSet ≠ Scenario.twinVotedOnce.votesSet :=
  ⟨Scenario.twinVoters_reachable, by decide, by decide, by decide, by decide, by decide⟩

theorem Scenario.oneRejected_reachable : Reachable Scenario.oneRejected := by
  have h0 : Reachable
      (CandidateCsvCheck
        (some [⟨"C1a", "Alice", "Red", "R1a", "0"⟩, ⟨"CC", "", "Blue", "R2b", "0"⟩])
        ElectionSystem.empty).2 :=
    Reachable.step
      (.candidateCsvCheck
        (some [⟨"C1a", "Alice", "Red", "R1a", "0"⟩, ⟨"CC", "", "Blue", "R2b", "0"⟩]))
      ⟨[], [], []⟩ ⟨[], [], []⟩ true Reachable.init (by decide)
  exact Reachable.step (.voterCsvCheck (some [("123456789012", some "0")]))
    ⟨[], [], []⟩ ⟨[], [], []⟩ true h0 (by decide)

/-- C7 (a resolved cast can end without committing). After a repair that was cancelled
behind its accepted ID slot, `X9z` is in `idSet` without a candidate; `CastVote` naming
`X9z` and the admitted voter `123456789012`, who has not voted, passes both selection
loops, returns true and changes nothing: no ledger entry, no stored count, no flag. -/
theorem C7_resolved_cast_without_commit :
    FillMissingCandidateInfo Scenario.oneRejected ⟨["X9z", "1"], ['n'], [1]⟩
        = .done (false, Scenario.staleId, ⟨[], [], []⟩) ∧
      Reachable Scenario.staleId ∧
      checkCast Scenario.staleId = true ∧
      "X9z" ∈ Scenario.staleId.idSet ∧
      "123456789012" ∈ Scenario.staleId.checkAadhar ∧
      Scenario.staleId.validVoterList = [⟨"123456789012", false⟩] ∧
      CastVote.select Scenario.staleId ⟨["X9z", "123456789012"], [], []⟩
        = .done (some ("X9z", "123456789012"), ⟨[], [], []⟩) ∧
      CastVote Scenario.staleId ⟨["X9z", "123456789012"], [], []⟩
        = .done (true, Scenario.staleId, ⟨[], [], []⟩) := by
  have hrun : FillMissingCandidateInfo Scenario.oneRejected ⟨["X9z", "1"], ['n'], [1]⟩
      = .done (false, Scenario.staleId, ⟨[], [], []⟩) := rfl
  exact ⟨hrun,
    Reachable.step .fillMissingCandidateInfo ⟨["X9z", "1"], ['n'], [1]⟩ ⟨[], [], []⟩ false
      Scenario.oneRejected_reachable hrun,
    by decide, by decide, by decide, by decide, by decide, by decide⟩

/-- C8 (cancelling a cast has no side effects). Whenever the selection loops of
`CastVote` end because the operator answered `n`, in the candidate loop or in the voter
loop, `CastVote` returns false and the whole system is exactly the one before the call. -/
theorem C8_cancelled_cast_changes_nothing (st : ElectionSystem) (p p' : Prompter)
    (h : CastVote.select st p = .done (none, p')) :
    CastVote st p = .done (false, st, p') :=
  CastVote_of_cancel h

/-- Witness for C8: an unknown candidate ID followed by the answer `n`. -/
theorem C8_cancelled_cast_changes_nothing_witness :
    CastVote.select Scenario.oneEach ⟨["zz"], ['n'], []⟩ = .done (none, ⟨[], [], []⟩) ∧
      CastVote Scenario.oneEach ⟨["zz"], ['n'], []⟩
        = .done (false, Scenario.oneEach, ⟨[], [], []⟩) :=
  ⟨by decide,
    C8_cancelled_cast_changes_nothing Scenario.oneEach ⟨["zz"], ['n'], []⟩ ⟨[], [], []⟩
      (by decide)⟩

theorem Scenario.twinVotedOnce_run :
    CastVote Scenario.twinVoters ⟨["C1a", "123456789012"], [], []⟩
      = .done (true, Scenario.twinVotedOnce, ⟨[], [], []⟩) := by decide

theorem Scenario.twinVotedOnce_reachable : Reachable Scenario.twinVotedOnce :=
  Reachable.step .castVote ⟨["C1a", "123456789012"], [], []⟩ ⟨[], [], []⟩ true
    Scenario.twinVoters_reachable Scenario.twinVotedOnce_run

/-- C9 (a voter whose flag is true can still cast). In the reachable state with two
admitted entries of `123456789012`, an earlier `CastVote` set the has-voted flag of the
first entry. `CastVote` naming that identifier again reads the flag of the last entry,
which is false, and commits: `votesSet` for `C1a` goes from 1 to 2 and so does the stored
vote count of `C1a`, although an admitted entry of the selected identifier has its flag
true. -/
theorem C9_voted_entry_cast_commits :
    Reachable Scenario.twinVotedOnce ∧
      CastVote Scenario.twinVoters ⟨["C1a", "123456789012"], [], []⟩
        = .done (true, Scenario.twinVotedOnce, ⟨[], [], []⟩) ∧
      Scenario.twinVotedOnce.validVoterList[0]? = some ⟨"123456789012", true⟩ ∧
      CastVote.currentStatus Scenario.twinVotedOnce.validVoterList "123456789012"
        = some false ∧
      CastVote Scenario.twinVotedOnce ⟨["C1a", "123456789012"], [], []⟩
        = .done (true, Scenario.twinVotedTwice, ⟨[], [], []⟩) ∧
      mapAt Scenario.twinVotedOnce.votesSet "C1a" = 1 ∧
      mapAt Scenario.twinVotedTwice.votesSet "C1a" = 2 ∧
      Scenario.twinVotedOnce.validCandidateList = [⟨"C1a", "Alice", "Red", "R1a", 1⟩] ∧
      Scenario.twinVotedTwice.validCandidateList = [⟨"C1a", "Alice", "Red", "R1a", 2⟩] :=
  ⟨Scenario.twinVotedOnce_reachable, Scenario.twinVotedOnce_run, by decide, by decide,
    by decide, by decide, by decide, rfl, rfl⟩

theorem Scenario.symbolAmended_run :
    ModifyCandidate Scenario.oneEach ⟨["C1a", "Blue"], [], [2]⟩
      = .done (true, Scenario.symbolAmended, ⟨[], [], []⟩) := rfl

theorem Scenario.symbolAmended_reachable : Reachable Scenario.symbolAmended :=
  Reachable.step .modifyCandidate ⟨["C1a", "Blue"], [], [2]⟩ ⟨[], [], []⟩ true
    Scenario.oneEach_reachable Scenario.symbolAmended_run

/-- C4, as stated, fails: after `ModifyCandidate` changed the party symbol of `C1a` from
`Red` to `Blue`, the reachable state still has `Red` in `symbolSet` although no admitted
candidate carries it, so the indices are not exactly the keys of the admitted records. -/
theorem C4_index_exact_counterexample :
    Reachable Scenario.symbolAmended ∧ "Red" ∈ Scenario.symbolAmended.symbolSet ∧
      (∀ c ∈ Scenario.symbolAmended.validCandidateList, c.partySymbol ≠ "Red") ∧
      ¬ IndexExact Scenario.symbolAmended := by
  refine ⟨Scenario.symbolAmended_reachable, by decide, by decide, ?_⟩
  intro h
  have hmem : "Red" ∈ Scenario.symbolAmended.symbolSet := by decide
  rw [h.2.1] at hmem
  revert hmem
  decide

/-- C4 (amended). In every reachable state every admitted candidate has its ID in
`idSet` and its party symbol in `symbolSet`: no admitted candidate is without its index
entries. (`symbolSet` may hold further symbols, since an amendment keeps the old value.) -/
theorem C4_admitted_candidates_indexed (st : ElectionSystem) (h : Reachable st) (c : Candidate)
    (hc : c ∈ st.validCandidateList) :
    c.candidateID ∈ st.idSet ∧ c.partySymbol ∈ st.symbolSet :=
  ⟨h.candidateInv.idIndexed c hc, h.candidateInv.symbolIndexed c hc⟩

/-- Witness for the amended C4: the candidate whose symbol was amended. -/
theorem C4_admitted_candidates_indexed_witness :
    Reachable Scenario.symbolAmended ∧
      (⟨"C1a", "Alice", "Blue", "R1a", 0⟩ : Candidate) ∈ Scenario.symbolAmended.validCandidateList ∧
      ("C1a" ∈ Scenario.symbolAmended.idSet ∧ "Blue" ∈ Scenario.symbolAmended.symbolSet) :=
  ⟨Scenario.symbolAmended_reachable, by decide,
    C4_admitted_candidates_indexed Scenario.symbolAmended Scenario.symbolAmended_reachable
      ⟨"C1a", "Alice", "Blue", "R1a", 0⟩ (by decide)⟩

/-! ## The ledger container and the machine integers -/

theorem mapFind_mapAssign_self (m : VoteMap) (k : String) (v : Int) :
    mapFind (mapAssign m k v) k = some v := by
  induction m with
  | nil => simp [mapAssign, mapFind]
  | cons e rest ih =>
    obtain ⟨k', v'⟩ := e
    simp only [mapAssign]
    split
    · rename_i hk
      simp [mapFind, hk]
    · rename_i hk
      split
      · simp [mapFind]
      · simp [mapFind, hk, ih]

theorem mapFind_mapAssign_ne (m : VoteMap) (k j : String) (v : Int) (hj : j ≠ k) :
    mapFind (mapAssign m k v) j = mapFind m j := by
  induction m with
  | nil => simp [mapAssign, mapFind, Ne.symm hj]
  | cons e rest ih =>
    obtain ⟨k', v'⟩ := e
    simp only [mapAssign]
    split
    · rename_i hk
      subst hk
      simp [mapFind, Ne.symm hj]
    · split
      · simp [mapFind, Ne.symm hj]
      · simp only [mapFind, ih]

theorem mapAt_mapAssign_self (m : VoteMap) (k : String) (v : Int) :
    mapAt (mapAssign m k v) k = v := by
  simp [mapAt, mapFind_mapAssign_self]

theorem mapAt_mapAssign_ne (m : VoteMap) (k j : String) (v : Int) (hj : j ≠ k) :
    mapAt (mapAssign m k v) j = mapAt m j := by
  simp [mapAt, mapFind_mapAssign_ne m k j v hj]

theorem wrap32_of_range (x : Int) (h0 : -2147483648 ≤ x) (h1 : x ≤ 2147483647) :
    wrap32 x = x := by
  unfold wrap32
  omega

theorem wrap64_of_range (x : Int) (h0 : -9223372036854775808 ≤ x)
    (h1 : x ≤ 9223372036854775807) : wrap64 x = x := by
  unfold wrap64
  omega

/-! ## First match and last match in a list with unique keys -/

theorem setFirst_eq_map_of_nodup {α κ : Type} [DecidableEq κ] (key : α → κ) (k : κ)
    (f : α → α) (l : List α) (hn : (l.map key).Nodup) :
    setFirst (fun x => decide (key x = k)) f l
      = l.map (fun x => if key x = k then f x else x) := by
  induction l with
  | nil => rfl
  | cons x xs ih =>
    simp only [List.map_cons, List.nodup_cons] at hn
    simp only [setFirst, List.map_cons]
    by_cases hx : key x = k
    · simp only [hx, decide_True, if_true, List.cons.injEq, true_and]
      symm
      have hid : ∀ y ∈ xs, (fun x => if key x = k then f x else x) y = id y := by
        intro y hy
        have : key y ≠ k := by
          intro hy'
          exact hn.1 (List.mem_map.mpr ⟨y, hy, by rw [hy', hx]⟩)
        simp [this]
      rw [List.map_congr_left hid, List.map_id]
    · simp only [hx, decide_False, Bool.false_eq_true, if_false, ih hn.2]

theorem CastVote_currentStatus_foldl (a : String) (s : Bool) :
    ∀ (l : List Voter) (acc : Option Bool),
      (∀ v ∈ l, v.aadhaarID = a → v.votingStatus = s) →
      l.foldl (fun cur voter => if voter.aadhaarID = a then some voter.votingStatus else cur) acc
        = if l.any (fun v => decide (v.aadhaarID = a)) then some s else acc := by
  intro l
  induction l with
  | nil => intro acc _; rfl
  | cons v vs ih =>
    intro acc h
    rw [List.foldl_cons, ih _ (fun w hw => h w (List.mem_cons_of_mem _ hw))]
    by_cases hv : v.aadhaarID = a
    · have hs := h v (List.mem_cons_self _ _) hv
      simp [hv, hs]
    · simp [hv]

/-- The flag read by `CastVote` when every admitted entry of the identifier agrees. -/
theorem CastVote_currentStatus_eq {l : List Voter} {a : String} {s : Bool}
    (hex : ∃ v ∈ l, v.aadhaarID = a) (hall : ∀ v ∈ l, v.aadhaarID = a → v.votingStatus = s) :
    CastVote.currentStatus l a = some s := by
  unfold CastVote.currentStatus
  rw [CastVote_currentStatus_foldl a s l none hall]
  have : (l.any fun v => decide (v.aadhaarID = a)) = true := by
    obtain ⟨v, hv, hva⟩ := hex
    exact List.any_eq_true.mpr ⟨v, hv, by simpa using hva⟩
  rw [if_pos this]

/-! ## The commit of a cast -/

theorem mem_setFirst_of_not_pred {α : Type} (pred : α → Bool) (f : α → α) (l : List α) (x : α)
    (hx : x ∈ l) (hp : pred x = false) : x ∈ setFirst pred f l := by
  induction l with
  | nil => simp at hx
  | cons y ys ih =>
    simp only [setFirst]
    split
    · rename_i hy
      rcases List.mem_cons.mp hx with rfl | hx
      · rw [hp] at hy
        exact absurd hy (by simp)
      · exact List.mem_cons_of_mem _ hx
    · rcases List.mem_cons.mp hx with rfl | hx
      · exact List.mem_cons_self _ _
      · exact List.mem_cons_of_mem _ (ih hx)

/-- The commit written out for a state whose candidate identifiers are unique and whose
ledger value for the candidate is a vote count below the largest `int`. -/
theorem CastVote_commit_eq (st : ElectionSystem) (candidateID aadhaarID : String)
    (hcand : ∃ c ∈ st.validCandidateList, c.candidateID = candidateID)
    (hI2 : (st.validCandidateList.map fun c => c.candidateID).Nodup)
    (hlo : 0 ≤ mapAt st.votesSet candidateID)
    (hhi : mapAt st.votesSet candidateID < 2147483647) :
    CastVote.commit st candidateID aadhaarID =
      { st with
        votesSet := mapAssign st.votesSet candidateID (mapAt st.votesSet candidateID + 1)
        validCandidateList := st.validCandidateList.map fun c =>
          if c.candidateID = candidateID then
            { c with numOfVotes := mapAt st.votesSet candidateID + 1 }
          else c
        validVoterList := setFirst (fun v => v.aadhaarID = aadhaarID)
          (fun v => { v with votingStatus := true }) st.validVoterList } := by
  have hany : (st.validCandidateList.any fun c => decide (c.candidateID = candidateID)) = true := by
    obtain ⟨c, hc, hcc⟩ := hcand
    exact List.any_eq_true.mpr ⟨c, hc, by simpa using hcc⟩
  have h64 : wrap64 (mapAt st.votesSet candidateID + 1) = mapAt st.votesSet candidateID + 1 :=
    wrap64_of_range _ (by omega) (by omega)
  have h32 : wrap32 (mapAt st.votesSet candidateID + 1) = mapAt st.votesSet candidateID + 1 :=
    wrap32_of_range _ (by omega) (by omega)
  unfold CastVote.commit
  rw [if_pos hany]
  simp only [h64, h32]
  rw [setFirst_eq_map_of_nodup (fun c : Candidate => c.candidateID) candidateID _ _ hI2]

theorem Scenario.atIntMax_reachable : Reachable Scenario.atIntMax := by
  have h0 : Reachable
      (CandidateCsvCheck (some [⟨"C1a", "Alice", "Red", "R1a", "2147483647"⟩])
        ElectionSystem.empty).2 :=
    Reachable.step (.candidateCsvCheck (some [⟨"C1a", "Alice", "Red", "R1a", "2147483647"⟩]))
      ⟨[], [], []⟩ ⟨[], [], []⟩ true Reachable.init (by decide)
  exact Reachable.step (.voterCsvCheck (some [("123456789012", some "0")]))
    ⟨[], [], []⟩ ⟨[], [], []⟩ true h0 (by decide)

/-- C6, as stated, fails at the edge of `int`: with `C1a` imported at 2147483647 votes
and an admitted voter who has not voted, the committed cast raises the ledger entry to
2147483648 while the stored vote count of `C1a` becomes -2147483648, so the stored count
does not equal the new ledger entry. -/
theorem C6_commit_effect_counterexample :
    Reachable Scenario.atIntMax ∧
      Scenario.atIntMax.validCandidateList = [⟨"C1a", "Alice", "Red", "R1a", 2147483647⟩] ∧
      Scenario.atIntMax.validVoterList = [⟨"123456789012", false⟩] ∧
      CastVote Scenario.atIntMax ⟨["C1a", "123456789012"], [], []⟩
        = .done (true, Scenario.pastIntMax, ⟨[], [], []⟩) ∧
      mapFind Scenario.pastIntMax.votesSet "C1a" = some 2147483648 ∧
      Scenario.pastIntMax.validCandidateList = [⟨"C1a", "Alice", "Red", "R1a", -2147483648⟩] ∧
      ∃ c ∈ Scenario.pastIntMax.validCandidateList,
        c.candidateID = "C1a" ∧ c.numOfVotes ≠ mapAt Scenario.pastIntMax.votesSet "C1a" :=
  ⟨Scenario.atIntMax_reachable, by decide, by decide, by decide, by decide, by decide,
    ⟨"C1a", "Alice", "Red", "R1a", -2147483648⟩, by decide, by decide, by decide⟩

/-- C6 (amended). Let the operator name a candidate ID and a voter identifier that pass
the two selection loops, the ID being that of an admitted candidate and the identifier
that of an admitted voter whose flag is false, in a state where candidate IDs and voter
identifiers are unique (I2, I3) and the candidate's ledger value is a vote count below
2147483647. Then `CastVote` returns true and the three updates are applied together:
the ledger entry of the ID is its previous value (0 if absent) plus one, the candidate
stores that value, the voter's flag is true, and every other candidate, voter, ledger
entry, index and collection is unchanged. -/
theorem C6_commit_effect (st : ElectionSystem) (p p' : Prompter)
    (candidateID aadhaarID : String)
    (hsel : CastVote.select st p = .done (some (candidateID, aadhaarID), p'))
    (hcand : ∃ c ∈ st.validCandidateList, c.candidateID = candidateID)
    (hvoter : ∃ v ∈ st.validVoterList, v.aadhaarID = aadhaarID ∧ v.votingStatus = false)
    (hI2 : (st.validCandidateList.map fun c => c.candidateID).Nodup)
    (hI3 : (st.validVoterList.map fun v => v.aadhaarID).Nodup)
    (hlo : 0 ≤ mapAt st.votesSet candidateID)
    (hhi : mapAt st.votesSet candidateID < 2147483647) :
    CastVote st p = .done (true,
        { st with
          votesSet := mapAssign st.votesSet candidateID (mapAt st.votesSet candidateID + 1)
          validCandidateList := st.validCandidateList.map fun c =>
            if c.candidateID = candidateID then
              { c with numOfVotes := mapAt st.votesSet candidateID + 1 }
            else c
          validVoterList := st.validVoterList.map fun v =>
            if v.aadhaarID = aadhaarID then { v with votingStatus := true } else v }, p') ∧
      mapFind (mapAssign st.votesSet candidateID (mapAt st.votesSet candidateID + 1)) candidateID
        = some (mapAt st.votesSet candidateID + 1) ∧
      ∀ k, k ≠ candidateID →
        mapFind (mapAssign st.votesSet candidateID (mapAt st.votesSet candidateID + 1)) k
          = mapFind st.votesSet k := by
  obtain ⟨v, hv, hva, hvs⟩ := hvoter
  have hall : ∀ w ∈ st.validVoterList, w.aadhaarID = aadhaarID → w.votingStatus = false := by
    intro w hw hwa
    have : w = v := List.inj_on_of_nodup_map hI3 hw hv (by rw [hwa, hva])
    rw [this]
    exact hvs
  have hcur : CastVote.currentStatus st.validVoterList aadhaarID = some false :=
    CastVote_currentStatus_eq ⟨v, hv, hva⟩ hall
  refine ⟨?_, mapFind_mapAssign_self _ _ _, fun k hk => mapFind_mapAssign_ne _ _ _ _ hk⟩
  rw [CastVote_of_fresh hsel hcur, CastVote_commit_eq st candidateID aadhaarID hcand hI2 hlo hhi,
    setFirst_eq_map_of_nodup (fun v : Voter => v.aadhaarID) aadhaarID _ _ hI3]

/-- Witness for the amended C6: the first cast in the system with one candidate and one
voter. -/
theorem C6_commit_effect_witness :
    CastVote.select Scenario.oneEach ⟨["C1a", "123456789012"], [], []⟩
        = .done (some ("C1a", "123456789012"), ⟨[], [], []⟩) ∧
      (∃ c ∈ Scenario.oneEach.validCandidateList, c.candidateID = "C1a") ∧
      (∃ v ∈ Scenario.oneEach.validVoterList,
        v.aadhaarID = "123456789012" ∧ v.votingStatus = false) ∧
      (Scenario.oneEach.validCandidateList.map fun c => c.candidateID).Nodup ∧
      (Scenario.oneEach.validVoterList.map fun v => v.aadhaarID).Nodup ∧
      0 ≤ mapAt Scenario.oneEach.votesSet "C1a" ∧
      mapAt Scenario.oneEach.votesSet "C1a" < 2147483647 ∧
      CastVote Scenario.oneEach ⟨["C1a", "123456789012"], [], []⟩ = .done (true,
        { Scenario.oneEach with
          votesSet := mapAssign Scenario.oneEach.votesSet "C1a"
            (mapAt Scenario.oneEach.votesSet "C1a" + 1)
          validCandidateList := Scenario.oneEach.validCandidateList.map fun c =>
            if c.candidateID = "C1a" then
              { c with numOfVotes := mapAt Scenario.oneEach.votesSet "C1a" + 1 }
            else c
          validVoterList := Scenario.oneEach.validVoterList.map fun v =>
            if v.aadhaarID = "123456789012" then { v with votingStatus := true } else v },
        ⟨[], [], []⟩) :=
  ⟨by decide, by decide, by decide, by decide, by decide, by decide, by decide,
    (C6_commit_effect Scenario.oneEach ⟨["C1a", "123456789012"], [], []⟩ ⟨[], [], []⟩
      "C1a" "123456789012" (by decide) (by decide) (by decide) (by decide) (by decide)
      (by decide) (by decide)).1⟩

/-! ## A series of casts for one candidate -/

/-- One run of the series: a cast by a voter none of whose entries has voted commits. -/
theorem CastVote_fresh_step {st st1 : ElectionSystem} {p p' : Prompter} {b : Bool}
    {candidateID aadhaarID : String}
    (hsel : CastVote.select st p = .done (some (candidateID, aadhaarID), p'))
    (hrun : CastVote st p = .done (b, st1, p'))
    (hcand : ∃ c ∈ st.validCandidateList, c.candidateID = candidateID)
    (hI2 : (st.validCandidateList.map fun c => c.candidateID).Nodup)
    (hadm : ∃ v ∈ st.validVoterList, v.aadhaarID = aadhaarID)
    (hfresh : ∀ v ∈ st.validVoterList, v.aadhaarID = aadhaarID → v.votingStatus = false)
    (hlo : 0 ≤ mapAt st.votesSet candidateID)
    (hhi : mapAt st.votesSet candidateID < 2147483647) :
    st1 = { st with
        votesSet := mapAssign st.votesSet candidateID (mapAt st.votesSet candidateID + 1)
        validCandidateList := st.validCandidateList.map fun c =>
          if c.candidateID = candidateID then
            { c with numOfVotes := mapAt st.votesSet candidateID + 1 }
          else c
        validVoterList := setFirst (fun v => v.aadhaarID = aadhaarID)
          (fun v => { v with votingStatus := true }) st.validVoterList } := by
  have hcur := CastVote_currentStatus_eq hadm hfresh
  rw [CastVote_of_fresh hsel hcur] at hrun
  simp only [Run.done.injEq, Prod.mk.injEq] at hrun
  rw [← hrun.2.1]
  exact CastVote_commit_eq st candidateID aadhaarID hcand hI2 hlo hhi

theorem CastRuns_tally (candidateID : String) :
    ∀ (voters : List String) (st st' : ElectionSystem), CastRuns candidateID voters st st' →
      (∃ c ∈ st.validCandidateList, c.candidateID = candidateID) →
      (st.validCandidateList.map fun c => c.candidateID).Nodup →
      voters.Nodup →
      (∀ a ∈ voters, ∃ v ∈ st.validVoterList, v.aadhaarID = a) →
      (∀ a ∈ voters, ∀ v ∈ st.validVoterList, v.aadhaarID = a → v.votingStatus = false) →
      0 ≤ mapAt st.votesSet candidateID →
      mapAt st.votesSet candidateID + voters.length ≤ 2147483647 →
      (voters ≠ [] ∨ ∀ c ∈ st.validCandidateList, c.candidateID = candidateID →
        c.numOfVotes = mapAt st.votesSet candidateID) →
      mapAt st'.votesSet candidateID = mapAt st.votesSet candidateID + voters.length ∧
      ∀ c ∈ st'.validCandidateList, c.candidateID = candidateID →
        c.numOfVotes = mapAt st.votesSet candidateID + voters.length := by
  intro voters st st' hruns
  induction hruns with
  | nil st =>
    intro _ _ _ _ _ _ _ hstored
    rcases hstored with hne | hstored
    · exact absurd rfl hne
    · simpa using hstored
  | @cons st st1 st2 aadhaarID voters p p' b hsel hrun _ ih =>
    intro hcand hI2 hnd hadm hfresh hlo hhi _
    simp only [List.nodup_cons] at hnd
    simp only [List.length_cons, Nat.cast_add, Nat.cast_one] at hhi ⊢
    have hstep := CastVote_fresh_step hsel hrun hcand hI2
      (hadm aadhaarID (List.mem_cons_self _ _)) (hfresh aadhaarID (List.mem_cons_self _ _))
      hlo (by omega)
    have hledger : mapAt st1.votesSet candidateID = mapAt st.votesSet candidateID + 1 := by
      rw [hstep]
      exact mapAt_mapAssign_self _ _ _
    have hids : (st1.validCandidateList.map fun c => c.candidateID)
        = st.validCandidateList.map fun c => c.candidateID := by
      rw [hstep]
      simp only [List.map_map]
      apply List.map_congr_left
      intro c _
      simp only [Function.comp]
      split <;> rfl
    have hcand1 : ∃ c ∈ st1.validCandidateList, c.candidateID = candidateID := by
      obtain ⟨c, hc, hcc⟩ := hcand
      have : candidateID ∈ st1.validCandidateList.map fun c => c.candidateID := by
        rw [hids]
        exact List.mem_map.mpr ⟨c, hc, hcc⟩
      obtain ⟨d, hd, hdc⟩ := List.mem_map.mp this
      exact ⟨d, hd, hdc⟩
    have hvoters : st1.validVoterList = setFirst (fun v => decide (v.aadhaarID = aadhaarID))
        (fun v => { v with votingStatus := true }) st.validVoterList := by
      rw [hstep]
    have hadm1 : ∀ a ∈ voters, ∃ v ∈ st1.validVoterList, v.aadhaarID = a := by
      intro a ha
      obtain ⟨v, hv, hva⟩ := hadm a (List.mem_cons_of_mem _ ha)
      refine ⟨v, ?_, hva⟩
      rw [hvoters]
      apply mem_setFirst_of_not_pred _ _ _ _ hv
      simp only [decide_eq_false_iff_not]
      intro hv'
      exact hnd.1 (by rw [← hv', hva]; exact ha)
    have hfresh1 : ∀ a ∈ voters, ∀ v ∈ st1.validVoterList, v.aadhaarID = a →
        v.votingStatus = false := by
      intro a ha v hv hva
      rw [hvoters] at hv
      rcases mem_setFirst _ _ _ _ hv with hv | ⟨x, _, hpx, rfl⟩
      · exact hfresh a (List.mem_cons_of_mem _ ha) v hv hva
      · simp only [decide_eq_true_eq] at hpx
        exact absurd ha (by
          have : a = aadhaarID := by rw [← hva, ← hpx]
          rw [this]
          exact hnd.1)
    have hstored1 : ∀ c ∈ st1.validCandidateList, c.candidateID = candidateID →
        c.numOfVotes = mapAt st1.votesSet candidateID := by
      intro c hc hcc
      rw [hledger]
      rw [hstep] at hc
      simp only [List.mem_map] at hc
      obtain ⟨d, _, hdc⟩ := hc
      by_cases hd : d.candidateID = candidateID
      · rw [if_pos hd] at hdc
        rw [← hdc]
      · rw [if_neg hd] at hdc
        rw [hdc] at hd
        exact absurd hcc hd
    have := ih hcand1 (hids ▸ hI2) hnd.2 hadm1 hfresh1 (by omega) (by omega) (Or.inr hstored1)
    rw [hledger] at this
    constructor
    · rw [this.1]
      omega
    · intro c hc hcc
      rw [this.2 c hc hcc]
      omega

theorem Scenario.belowIntMax_runs :
    CastRuns "C1a" ["123456789012", "223456789012"] Scenario.belowIntMax
      Scenario.belowIntMaxTwice :=
  CastRuns.cons ⟨["C1a", "123456789012"], [], []⟩ ⟨[], [], []⟩ true
    (show CastVote.select Scenario.belowIntMax ⟨["C1a", "123456789012"], [], []⟩
      = .done (some ("C1a", "123456789012"), ⟨[], [], []⟩) by decide)
    (show CastVote Scenario.belowIntMax ⟨["C1a", "123456789012"], [], []⟩
      = .done (true, Scenario.belowIntMaxOnce, ⟨[], [], []⟩) by decide)
    (CastRuns.cons ⟨["C1a", "223456789012"], [], []⟩ ⟨[], [], []⟩ true
      (show CastVote.select Scenario.belowIntMaxOnce ⟨["C1a", "223456789012"], [], []⟩
        = .done (some ("C1a", "223456789012"), ⟨[], [], []⟩) by decide)
      (show CastVote Scenario.belowIntMaxOnce ⟨["C1a", "223456789012"], [], []⟩
        = .done (true, Scenario.belowIntMaxTwice, ⟨[], [], []⟩) by decide)
      (CastRuns.nil _))

theorem Scenario.twoVoters_runs :
    CastRuns "C1a" ["123456789012", "223456789012"] Scenario.twoVoters Scenario.twoVotersTwice :=
  CastRuns.cons ⟨["C1a", "123456789012"], [], []⟩ ⟨[], [], []⟩ true
    (show CastVote.select Scenario.twoVoters ⟨["C1a", "123456789012"], [], []⟩
      = .done (some ("C1a", "123456789012"), ⟨[], [], []⟩) by decide)
    (show CastVote Scenario.twoVoters ⟨["C1a", "123456789012"], [], []⟩
      = .done (true, Scenario.twoVotersOnce, ⟨[], [], []⟩) by decide)
    (CastRuns.cons ⟨["C1a", "223456789012"], [], []⟩ ⟨[], [], []⟩ true
      (show CastVote.select Scenario.twoVotersOnce ⟨["C1a", "223456789012"], [], []⟩
        = .done (some ("C1a", "223456789012"), ⟨[], [], []⟩) by decide)
      (show CastVote Scenario.twoVotersOnce ⟨["C1a", "223456789012"], [], []⟩
        = .done (true, Scenario.twoVotersTwice, ⟨[], [], []⟩) by decide)
      (CastRuns.nil _))

/-- C10, as stated, fails at the edge of `int`: with `C1a` imported at 2147483646 votes,
two casts naming `C1a` by two different admitted voters who had not voted leave the
ledger entry at 2147483648 but the stored vote count of `C1a` at -2147483648, which is
not the initial ledger value plus 2. -/
theorem C10_tally_counterexample :
    CastRuns "C1a" ["123456789012", "223456789012"] Scenario.belowIntMax
        Scenario.belowIntMaxTwice ∧
      Scenario.belowIntMax.validVoterList
        = [⟨"123456789012", false⟩, ⟨"223456789012", false⟩] ∧
      mapAt Scenario.belowIntMax.votesSet "C1a" = 2147483646 ∧
      mapAt Scenario.belowIntMaxTwice.votesSet "C1a" = 2147483648 ∧
      Scenario.belowIntMaxTwice.validCandidateList
        = [⟨"C1a", "Alice", "Red", "R1a", -2147483648⟩] ∧
      ∃ c ∈ Scenario.belowIntMaxTwice.validCandidateList,
        c.candidateID = "C1a" ∧
          c.numOfVotes ≠ mapAt Scenario.belowIntMax.votesSet "C1a"
            + (["123456789012", "223456789012"] : List String).length :=
  ⟨Scenario.belowIntMax_runs, by decide, by decide, by decide, by decide,
    ⟨"C1a", "Alice", "Red", "R1a", -2147483648⟩, by decide, by decide, by decide⟩

/-- C10 (amended). Let `CastVote` be run once for each of n >= 1 pairwise different
voter identifiers, every run naming the admitted candidate c and a voter who is admitted
and whose entries all have the flag false, in a state with unique candidate IDs (I2)
whose ledger value v for c satisfies 0 <= v and v + n <= 2147483647. Then afterwards
`votesSet[c]` and the stored vote count of c both equal v + n. -/
theorem C10_tally_counts_ballots (st st' : ElectionSystem) (candidateID : String)
    (voters : List String) (hruns : CastRuns candidateID voters st st')
    (hne : voters ≠ [])
    (hcand : ∃ c ∈ st.validCandidateList, c.candidateID = candidateID)
    (hI2 : (st.validCandidateList.map fun c => c.candidateID).Nodup)
    (hdistinct : voters.Nodup)
    (hadmitted : ∀ a ∈ voters, ∃ v ∈ st.validVoterList, v.aadhaarID = a)
    (hfresh : ∀ a ∈ voters, ∀ v ∈ st.validVoterList, v.aadhaarID = a → v.votingStatus = false)
    (hlo : 0 ≤ mapAt st.votesSet candidateID)
    (hhi : mapAt st.votesSet candidateID + voters.length ≤ 2147483647) :
    mapAt st'.votesSet candidateID = mapAt st.votesSet candidateID + voters.length ∧
      ∀ c ∈ st'.validCandidateList, c.candidateID = candidateID →
        c.numOfVotes = mapAt st.votesSet candidateID + voters.length :=
  CastRuns_tally candidateID voters st st' hruns hcand hI2 hdistinct hadmitted hfresh hlo hhi
    (Or.inl hne)

/-- Witness for the amended C10, the example of the specification: `C1a` admitted with
zero votes, two casts by two voters, tally `C1a: 2`. -/
theorem C10_tally_counts_ballots_witness :
    CastRuns "C1a" ["123456789012", "223456789012"] Scenario.twoVoters Scenario.twoVotersTwice ∧
      mapAt Scenario.twoVoters.votesSet "C1a" = 0 ∧
      Scenario.twoVotersTwice.votesSet = [("C1a", 2)] ∧
      (mapAt Scenario.twoVotersTwice.votesSet "C1a"
          = mapAt Scenario.twoVoters.votesSet "C1a"
            + (["123456789012", "223456789012"] : List String).length ∧
        ∀ c ∈ Scenario.twoVotersTwice.validCandidateList, c.candidateID = "C1a" →
          c.numOfVotes = mapAt Scenario.twoVoters.votesSet "C1a"
            + (["123456789012", "223456789012"] : List String).length) :=
  ⟨Scenario.twoVoters_runs, by decide, by decide,
    C10_tally_counts_ballots Scenario.twoVoters Scenario.twoVotersTwice "C1a"
      ["123456789012", "223456789012"] Scenario.twoVoters_runs (by decide) (by decide)
      (by decide) (by decide) (by decide) (by decide) (by decide) (by decide)⟩

/-- Naming an indexed candidate ID and an indexed Aadhar identifier straight away
passes both selection loops of `CastVote`. -/
theorem CastVote_select_direct (st : ElectionSystem) (candidateID aadhaarID : String)
    (ss : List String) (cs : List Char) (ns : List Int)
    (hc : candidateID ∈ st.idSet) (ha : aadhaarID ∈ st.checkAadhar) :
    CastVote.select st ⟨candidateID :: aadhaarID :: ss, cs, ns⟩
      = .done (some (candidateID, aadhaarID), ⟨ss, cs, ns⟩) := by
  simp [CastVote.select, promptUntilValid, promptLoop, hc, ha, Bind.bind, Run.bind, pure]

/-! ## Admission from the record source, row by row -/

theorem ValidateCandidateName_setError (st : ElectionSystem) (m s : String) :
    (ValidateCandidateName (st.setError m) s).1 = (ValidateCandidateName st s).1 :=
  isRule_ValidateCandidateName.blind st _ s ⟨m, rfl⟩

theorem ValidatePartySymbol_setError (st : ElectionSystem) (m s : String) :
    (ValidatePartySymbol (st.setError m) s).1 = (ValidatePartySymbol st s).1 :=
  isRule_ValidatePartySymbol.blind st _ s ⟨m, rfl⟩

theorem ValidateRegionCode_setError (st : ElectionSystem) (m s : String) :
    (ValidateRegionCode (st.setError m) s).1 = (ValidateRegionCode st s).1 :=
  isRule_ValidateRegionCode.blind st _ s ⟨m, rfl⟩

theorem IsValidStatus_setError (st : ElectionSystem) (m s : String) :
    (IsValidStatus (st.setError m) s).1 = (IsValidStatus st s).1 :=
  isRule_IsValidStatus.blind st _ s ⟨m, rfl⟩

theorem ValidateRegionCode_of_true {st : ElectionSystem} {code : String}
    (h : (ValidateRegionCode st code).1 = true) :
    (ValidateRegionCode st code).2 = st.setError "" := by
  unfold ValidateRegionCode at h ⊢
  split
  · rename_i hc
    rw [if_pos hc] at h
    simp at h
  · rfl

theorem IsValidStatus_of_true {st : ElectionSystem} {status : String}
    (h : (IsValidStatus st status).1 = true) :
    (IsValidStatus st status).2 = st.setError "" := by
  unfold IsValidStatus at h ⊢
  split
  · rfl
  · rename_i hc
    rw [if_neg hc] at h
    simp at h

/-- A row with a non-empty id that passes the four rules is admitted. -/
theorem CandidateCsvCheck_line_of_passes (st : ElectionSystem) (row : CandidateRow)
    (hid : row.id ≠ "") (hp : row.passes st = true) :
    CandidateCsvCheck.line st row =
      { st with
        validCandidateList := st.validCandidateList
          ++ [⟨row.id, row.name, row.symbol, row.reg, row.parsedCount⟩]
        idSet := insert row.id st.idSet
        symbolSet := insert row.symbol st.symbolSet
        votesSet := mapAssign st.votesSet row.id row.parsedCount
        errorMessage := "" } := by
  have hne : row.id.isEmpty = false := by
    rw [Bool.eq_false_iff]
    intro h
    exact hid ((String.isEmpty_iff _).mp h)
  simp only [CandidateRow.passes, Bool.and_eq_true] at hp
  obtain ⟨⟨⟨h1, h2⟩, h3⟩, h4⟩ := hp
  obtain ⟨m1, e1⟩ := isRule_ValidateCandidateID.frame st row.id
  obtain ⟨m2, e2⟩ := isRule_ValidateCandidateName.frame (st.setError m1) row.name
  obtain ⟨m3, e3⟩ := isRule_ValidatePartySymbol.frame (st.setError m2) row.symbol
  have h2' := (ValidateCandidateName_setError st m1 row.name).trans h2
  have h3' := (ValidatePartySymbol_setError st m2 row.symbol).trans h3
  have h4' := (ValidateRegionCode_setError st m3 row.reg).trans h4
  have e4 := ValidateRegionCode_of_true h4'
  unfold CandidateCsvCheck.line
  simp only [hne, Bool.false_eq_true, if_false, h1, e1, h2', e2, h3', e3, h4', e4, if_true,
    setError_setError, CandidateRow.parsedCount]
  rfl

/-- A row with a non-empty id that fails a rule goes to the rejected collection and
nothing else changes but `errorMessage`. -/
theorem CandidateCsvCheck_line_of_fails (st : ElectionSystem) (row : CandidateRow)
    (hid : row.id ≠ "") (hp : row.passes st = false) :
    ∃ m, CandidateCsvCheck.line st row =
      { st with
        invalidCandidateList := st.invalidCandidateList
          ++ [⟨row.id, row.name, row.symbol, row.reg, row.parsedCount⟩]
        errorMessage := m } := by
  have hne : row.id.isEmpty = false := by
    rw [Bool.eq_false_iff]
    intro h
    exact hid ((String.isEmpty_iff _).mp h)
  obtain ⟨m1, e1⟩ := isRule_ValidateCandidateID.frame st row.id
  obtain ⟨m2, e2⟩ := isRule_ValidateCandidateName.frame (st.setError m1) row.name
  obtain ⟨m3, e3⟩ := isRule_ValidatePartySymbol.frame (st.setError m2) row.symbol
  obtain ⟨m4, e4⟩ := isRule_ValidateRegionCode.frame (st.setError m3) row.reg
  have b2 := ValidateCandidateName_setError st m1 row.name
  have b3 := ValidatePartySymbol_setError st m2 row.symbol
  have b4 := ValidateRegionCode_setError st m3 row.reg
  unfold CandidateCsvCheck.line
  simp only [hne, Bool.false_eq_true, if_false, CandidateRow.parsedCount]
  simp only [CandidateRow.passes] at hp
  cases h1 : (ValidateCandidateID st row.id).1 with
  | false =>
    simp only [h1, e1, Bool.false_eq_true, if_false]
    exact ⟨m1, rfl⟩
  | true =>
    cases h2 : (ValidateCandidateName st row.name).1 with
    | false =>
      rw [← b2] at h2
      simp only [h1, e1, h2, e2, Bool.false_eq_true, if_false, if_true, setError_setError]
      exact ⟨m2, rfl⟩
    | true =>
      cases h3 : (ValidatePartySymbol st row.symbol).1 with
      | false =>
        rw [← b2] at h2
        rw [← b3] at h3
        simp only [h1, e1, h2, e2, h3, e3, Bool.false_eq_true, if_false, if_true,
          setError_setError]
        exact ⟨m3, rfl⟩
      | true =>
        have h4 : (ValidateRegionCode st row.reg).1 = false := by
          simpa [h1, h2, h3] using hp
        rw [← b2] at h2
        rw [← b3] at h3
        rw [← b4] at h4
        simp only [h1, e1, h2, e2, h3, e3, h4, e4, Bool.false_eq_true, if_false, if_true,
          setError_setError]
        exact ⟨m4, rfl⟩

/-- A voter row whose three tests pass is admitted. -/
theorem VoterCsvCheck_line_of_passes (st : ElectionSystem) (aadhar status : String)
    (hp : voterRowPasses st aadhar status = true) :
    VoterCsvCheck.line st (aadhar, some status) =
      { st with
        checkAadhar := insert aadhar st.checkAadhar
        validVoterList := st.validVoterList ++ [⟨aadhar, decide (status = "1")⟩]
        errorMessage := "" } := by
  simp only [voterRowPasses, Bool.and_eq_true, decide_eq_true_eq] at hp
  obtain ⟨⟨h1, h2⟩, h3⟩ := hp
  obtain ⟨m1, e1⟩ := isRule_IsValidAadhar.frame st aadhar
  have h3' := (IsValidStatus_setError st m1 status).trans h3
  have e3 := IsValidStatus_of_true h3'
  unfold VoterCsvCheck.line
  simp only [h1, e1, setError_checkAadhar, h2, not_false_eq_true, and_self, if_true, h3', e3]
  rfl

/-- A voter row with a status field that fails a test, and a row without a status
field, go to the rejected collection when the Aadhar field is not empty. -/
theorem VoterCsvCheck_line_of_fails (st : ElectionSystem) (aadhar : String)
    (status : Option String) (hid : aadhar ≠ "")
    (hp : ∀ s, status = some s → voterRowPasses st aadhar s = false) :
    ∃ m, VoterCsvCheck.line st (aadhar, status) =
      { st with
        invalidVoterList := st.invalidVoterList ++ [(aadhar, status.getD "")]
        errorMessage := m } := by
  have hne : aadhar.isEmpty = false := by
    rw [Bool.eq_false_iff]
    intro h
    exact hid ((String.isEmpty_iff _).mp h)
  cases status with
  | none =>
    refine ⟨st.errorMessage, ?_⟩
    simp [VoterCsvCheck.line, hne]
  | some s =>
    have hp := hp s rfl
    simp only [voterRowPasses] at hp
    obtain ⟨m1, e1⟩ := isRule_IsValidAadhar.frame st aadhar
    obtain ⟨m2, e2⟩ := isRule_IsValidStatus.frame (st.setError m1) s
    have b3 := IsValidStatus_setError st m1 s
    unfold VoterCsvCheck.line
    simp only [e1, setError_checkAadhar, hne, Bool.not_false, if_true, Option.getD_some]
    by_cases hc : (IsValidAadhar st aadhar).1 = true ∧ aadhar ∉ st.checkAadhar
    · have h3 : (IsValidStatus st s).1 = false := by
        simpa [hc.1, hc.2] using hp
      rw [← b3] at h3
      simp only [hc, not_false_eq_true, and_self, if_true, h3, e2, Bool.false_eq_true, if_false,
        setError_setError]
      exact ⟨m2, rfl⟩
    · simp only [hc, if_false, Bool.false_eq_true]
      exact ⟨m1, rfl⟩

/-- C19 (successful candidate admission). For every state and every source tuple with a
non-empty id that passes `ValidateCandidateID`, `ValidateCandidateName`,
`ValidatePartySymbol` and `ValidateRegionCode` in that state, the loop body of
`CandidateCsvCheck` appends the candidate with the parsed count to `validCandidateList`,
inserts the id into `idSet` and the symbol into `symbolSet`, sets `votesSet[id]` to the
parsed count, and changes nothing else but `errorMessage` (so `invalidCandidateList`
stays as it was). -/
theorem C19_successful_admission (st : ElectionSystem) (row : CandidateRow)
    (hid : row.id ≠ "")
    (h1 : (ValidateCandidateID st row.id).1 = true)
    (h2 : (ValidateCandidateName st row.name).1 = true)
    (h3 : (ValidatePartySymbol st row.symbol).1 = true)
    (h4 : (ValidateRegionCode st row.reg).1 = true) :
    CandidateCsvCheck.line st row =
        { st with
          validCandidateList := st.validCandidateList
            ++ [⟨row.id, row.name, row.symbol, row.reg, row.parsedCount⟩]
          idSet := insert row.id st.idSet
          symbolSet := insert row.symbol st.symbolSet
          votesSet := mapAssign st.votesSet row.id row.parsedCount
          errorMessage := "" } ∧
      mapFind (CandidateCsvCheck.line st row).votesSet row.id = some row.parsedCount ∧
      (CandidateCsvCheck.line st row).invalidCandidateList = st.invalidCandidateList := by
  have hp : row.passes st = true := by simp [CandidateRow.passes, h1, h2, h3, h4]
  have h := CandidateCsvCheck_line_of_passes st row hid hp
  refine ⟨h, ?_, ?_⟩
  · rw [h]
    exact mapFind_mapAssign_self _ _ _
  · rw [h]

/-- Witness for C19, the example of the specification: `C1a, Alice, Red, R1a` is admitted
into the empty system. -/
theorem C19_successful_admission_witness :
    (⟨"C1a", "Alice", "Red", "R1a", ""⟩ : CandidateRow).id ≠ "" ∧
      (ValidateCandidateID ElectionSystem.empty "C1a").1 = true ∧
      (ValidateCandidateName ElectionSystem.empty "Alice").1 = true ∧
      (ValidatePartySymbol ElectionSystem.empty "Red").1 = true ∧
      (ValidateRegionCode ElectionSystem.empty "R1a").1 = true ∧
      (CandidateCsvCheck (some [⟨"C1a", "Alice", "Red", "R1a", ""⟩]) ElectionSystem.empty).2
        = { ElectionSystem.empty with
            validCandidateList := [⟨"C1a", "Alice", "Red", "R1a", 0⟩]
            idSet := {"C1a"}
            symbolSet := {"Red"}
            votesSet := [("C1a", 0)] } :=
  ⟨by decide, by decide, by decide, by decide, by decide,
    (C19_successful_admission ElectionSystem.empty ⟨"C1a", "Alice", "Red", "R1a", ""⟩
      (by decide) (by decide) (by decide) (by decide) (by decide)).1⟩

/-- C20 (failed admission touches no index). A candidate tuple with a non-empty id that
fails one of the four rules (a duplicate ID or symbol included) is appended with its
fields to `invalidCandidateList`, and a voter tuple with a non-empty identifier that
fails a test, or has no status field, is appended to `invalidVoterList`; in both cases
every registry, every index and the ledger stay as they were. -/
theorem C20_failed_admission (st : ElectionSystem) :
    (∀ row : CandidateRow, row.id ≠ "" →
      ((ValidateCandidateID st row.id).1 = false ∨ (ValidateCandidateName st row.name).1 = false ∨
        (ValidatePartySymbol st row.symbol).1 = false ∨
        (ValidateRegionCode st row.reg).1 = false) →
      ∃ m, CandidateCsvCheck.line st row =
        { st with
          invalidCandidateList := st.invalidCandidateList
            ++ [⟨row.id, row.name, row.symbol, row.reg, row.parsedCount⟩]
          errorMessage := m }) ∧
    (∀ (aadhar : String) (status : Option String), aadhar ≠ "" →
      (∀ s, status = some s →
        ((IsValidAadhar st aadhar).1 = false ∨ aadhar ∈ st.checkAadhar ∨
          (IsValidStatus st s).1 = false)) →
      ∃ m, VoterCsvCheck.line st (aadhar, status) =
        { st with
          invalidVoterList := st.invalidVoterList ++ [(aadhar, status.getD "")]
          errorMessage := m }) := by
  constructor
  · intro row hid hf
    apply CandidateCsvCheck_line_of_fails st row hid
    simp only [CandidateRow.passes]
    rcases hf with h | h | h | h <;> simp [h]
  · intro aadhar status hid hf
    apply VoterCsvCheck_line_of_fails st aadhar status hid
    intro s hs
    simp only [voterRowPasses]
    rcases hf s hs with h | h | h <;> simp [h]

/-! ## A repair that returns false keeps the record collections -/

theorem Records_of_sameData {st st' : ElectionSystem} (h : SameData st st') :
    Records st' = Records st := by
  obtain ⟨m, rfl⟩ := h
  rfl

theorem FillMissingCandidateInfo_repair_false_records {st st' : ElectionSystem}
    {p p' : Prompter} {temp : List Candidate} {k : Nat} {modify : Candidate}
    (h : FillMissingCandidateInfo.repair st p temp k modify = .done (false, st', p')) :
    Records st' = Records st := by
  unfold FillMissingCandidateInfo.repair at h
  obtain ⟨⟨rid, st1, p1⟩, h1, h⟩ := Run.bind_eq_done.mp h
  obtain ⟨⟨m1, rfl⟩, -⟩ := repairSlot_done isRule_ValidateCandidateID h1
  cases rid with
  | none =>
    simp only [Run.pure_eq_done, Prod.mk.injEq] at h
    obtain ⟨-, rfl, -⟩ := h
    rfl
  | some r1 =>
    obtain ⟨mid, entered⟩ := r1
    dsimp only at h
    obtain ⟨⟨rname, st2, p2⟩, h2, h⟩ := Run.bind_eq_done.mp h
    obtain ⟨⟨m2, rfl⟩, -⟩ := repairSlot_done isRule_ValidateCandidateName h2
    cases rname with
    | none =>
      simp only [Run.pure_eq_done, Prod.mk.injEq] at h
      obtain ⟨-, rfl, -⟩ := h
      cases entered <;> rfl
    | some r2 =>
      obtain ⟨mname, e2⟩ := r2
      dsimp only at h
      obtain ⟨⟨rsym, st3, p3⟩, h3, h⟩ := Run.bind_eq_done.mp h
      obtain ⟨⟨m3, rfl⟩, -⟩ := repairSlot_done isRule_ValidatePartySymbol h3
      cases rsym with
      | none =>
        simp only [Run.pure_eq_done, Prod.mk.injEq] at h
        obtain ⟨-, rfl, -⟩ := h
        cases entered <;> rfl
      | some r3 =>
        obtain ⟨msymbol, enteredSym⟩ := r3
        dsimp only at h
        obtain ⟨⟨rreg, st4, p4⟩, h4, h⟩ := Run.bind_eq_done.mp h
        obtain ⟨⟨m4, rfl⟩, -⟩ := repairSlot_done isRule_ValidateRegionCode h4
        cases rreg with
        | none =>
          simp only [Run.pure_eq_done, Prod.mk.injEq] at h
          obtain ⟨-, rfl, -⟩ := h
          cases entered <;> cases enteredSym <;> rfl
        | some r4 =>
          simp only [Run.pure_eq_done, Prod.mk.injEq] at h
          exact absurd h.1 (by simp)

theorem FillMissingCandidateInfo_menu_false_records (temp : List Candidate) :
    ∀ (ns : List Int) (st : ElectionSystem) (ss : List String) (cs : List Char)
      (st' : ElectionSystem) (p' : Prompter),
      FillMissingCandidateInfo.menu temp st ns ss cs = .done (false, st', p') →
      Records st' = Records st := by
  intro ns
  induction ns with
  | nil => intro st ss cs st' p' h; simp [FillMissingCandidateInfo.menu] at h
  | cons n ns ih =>
    intro st ss cs st' p' h
    rw [FillMissingCandidateInfo_menu_cons] at h
    split at h
    · split at h
      · exact FillMissingCandidateInfo_repair_false_records h
      · simp at h
    · split at h
      · simp at h
      · split at h
        · simp only [Run.done.injEq, Prod.mk.injEq] at h
          obtain ⟨-, rfl, -⟩ := h
          rfl
        · exact ih _ _ _ _ _ h

theorem FillMissingCandidateInfo_false_records {st st' : ElectionSystem} {p p' : Prompter}
    (h : FillMissingCandidateInfo st p = .done (false, st', p')) :
    Records st' = Records st := by
  unfold FillMissingCandidateInfo at h
  have hs := Records_of_sameData (FillMissingCandidateInfo_scan_sameData st.invalidCandidateList st)
  dsimp only at h
  split at h
  · rw [FillMissingCandidateInfo_menu_false_records _ _ _ _ _ _ _ h, hs]
  · simp only [Run.done.injEq, Prod.mk.injEq] at h
    obtain ⟨-, rfl, -⟩ := h
    exact hs

theorem FillMissingVoterInfo_repair_false_records {st st' : ElectionSystem} {p p' : Prompter}
    {k : Nat} {pair : String × String}
    (h : FillMissingVoterInfo.repair st p k pair = .done (false, st', p')) :
    Records st' = Records st := by
  unfold FillMissingVoterInfo.repair at h
  obtain ⟨⟨ra, st1, p1⟩, h1, h⟩ := Run.bind_eq_done.mp h
  obtain ⟨⟨m1, rfl⟩, -⟩ := repairSlot_done isRule_ValidateNewAadhar h1
  cases ra with
  | none =>
    simp only [Run.pure_eq_done, Prod.mk.injEq] at h
    obtain ⟨-, rfl, -⟩ := h
    rfl
  | some ra =>
    obtain ⟨aadhar, e1⟩ := ra
    dsimp only at h
    obtain ⟨⟨rs, st2, p2⟩, h2, h⟩ := Run.bind_eq_done.mp h
    obtain ⟨⟨m2, rfl⟩, -⟩ := repairSlot_done isRule_IsValidStatus h2
    cases rs with
    | none =>
      simp only [Run.pure_eq_done, Prod.mk.injEq] at h
      obtain ⟨-, rfl, -⟩ := h
      rfl
    | some rs =>
      simp only [Run.pure_eq_done, Prod.mk.injEq] at h
      exact absurd h.1 (by simp)

theorem FillMissingVoterInfo_menu_false_records :
    ∀ (ns : List Int) (st : ElectionSystem) (ss : List String) (cs : List Char)
      (st' : ElectionSystem) (p' : Prompter),
      FillMissingVoterInfo.menu st ns ss cs = .done (false, st', p') →
      Records st' = Records st := by
  intro ns
  induction ns with
  | nil => intro st ss cs st' p' h; simp [FillMissingVoterInfo.menu] at h
  | cons n ns ih =>
    intro st ss cs st' p' h
    rw [FillMissingVoterInfo_menu_cons] at h
    split at h
    · split at h
      · exact FillMissingVoterInfo_repair_false_records h
      · simp at h
    · split at h
      · simp at h
      · split at h
        · simp only [Run.done.injEq, Prod.mk.injEq] at h
          obtain ⟨-, rfl, -⟩ := h
          rfl
        · exact ih _ _ _ _ _ h

theorem FillMissingVoterInfo_false_records {st st' : ElectionSystem} {p p' : Prompter}
    (h : FillMissingVoterInfo st p = .done (false, st', p')) :
    Records st' = Records st := by
  unfold FillMissingVoterInfo at h
  split at h
  · simp at h
  · exact FillMissingVoterInfo_menu_false_records _ _ _ _ _ _ h

theorem Scenario.staleId_run :
    FillMissingCandidateInfo Scenario.oneRejected ⟨["X9z", "1"], ['n'], [1]⟩
      = .done (false, Scenario.staleId, ⟨[], [], []⟩) := rfl

theorem Scenario.staleAadhar_run :
    FillMissingVoterInfo Scenario.rejectedVoter ⟨["2"], ['n'], [1]⟩
      = .done (false, Scenario.staleAadhar, ⟨[], [], []⟩) := rfl

theorem Scenario.rejectedVoter_reachable : Reachable Scenario.rejectedVoter :=
  Reachable.step (.voterCsvCheck (some [("123456789012", some "x")]))
    ⟨[], [], []⟩ ⟨[], [], []⟩ false Reachable.init (by decide)

theorem Scenario.unindexedVoter_reachable : Reachable Scenario.unindexedVoter :=
  Reachable.step .modifyVoter ⟨["abc"], ['n'], [1, 1]⟩ ⟨[], [], []⟩ false
    Scenario.oneEach_reachable Scenario.unindexedVoter_run

theorem Scenario.threeRows_reachable : Reachable Scenario.threeRows :=
  Reachable.step
    (.candidateCsvCheck
      (some [⟨"C1a", "Alice", "Red", "R1a", "0"⟩, ⟨"C1a", "Bob", "Blue", "R2b", "0"⟩,
        ⟨"CC", "", "Green", "R3c", "0"⟩]))
    ⟨[], [], []⟩ ⟨[], [], []⟩ true Reachable.init (by decide)

theorem Scenario.threeRowsRemoved_run :
    RemoveCandidate Scenario.threeRows ⟨["C1a"], [], []⟩
      = .done (true, Scenario.threeRowsRemoved, ⟨[], [], []⟩) := rfl

theorem Scenario.threeRowsRepaired_run :
    FillMissingCandidateInfo Scenario.threeRowsRemoved ⟨["X9z", "Carol"], [], [1]⟩
      = .done (true, Scenario.threeRowsRepaired, ⟨[], [], []⟩) := rfl

/-- C11 (a cancelled repair leaves the record collections untouched). Whenever
`FillMissingCandidateInfo` or `FillMissingVoterInfo` returns false, which is what either
does when the operator answers `n` at a defect slot or at the record menu, the admitted
and the rejected collections of candidates and of voters are what they were before the
call. -/
theorem C11_cancelled_repair_keeps_records (st st' : ElectionSystem) (p p' : Prompter)
    (h : FillMissingCandidateInfo st p = .done (false, st', p') ∨
      FillMissingVoterInfo st p = .done (false, st', p')) :
    st'.validCandidateList = st.validCandidateList ∧
      st'.invalidCandidateList = st.invalidCandidateList ∧
      st'.validVoterList = st.validVoterList ∧
      st'.invalidVoterList = st.invalidVoterList := by
  have hrec : Records st' = Records st := by
    rcases h with h | h
    · exact FillMissingCandidateInfo_false_records h
    · exact FillMissingVoterInfo_false_records h
  simp only [Records, Prod.mk.injEq] at hrec
  exact hrec

/-- Witness for C11: a candidate repair cancelled at the name slot, after the ID slot
was resolved, and a voter repair cancelled at the status slot. -/
theorem C11_cancelled_repair_keeps_records_witness :
    FillMissingCandidateInfo Scenario.oneRejected ⟨["X9z", "1"], ['n'], [1]⟩
        = .done (false, Scenario.staleId, ⟨[], [], []⟩) ∧
      (Scenario.staleId.validCandidateList = Scenario.oneRejected.validCandidateList ∧
        Scenario.staleId.invalidCandidateList = Scenario.oneRejected.invalidCandidateList ∧
        Scenario.staleId.validVoterList = Scenario.oneRejected.validVoterList ∧
        Scenario.staleId.invalidVoterList = Scenario.oneRejected.invalidVoterList) ∧
      FillMissingVoterInfo Scenario.rejectedVoter ⟨["2"], ['n'], [1]⟩
        = .done (false, Scenario.staleAadhar, ⟨[], [], []⟩) ∧
      (Scenario.staleAadhar.validCandidateList = Scenario.rejectedVoter.validCandidateList ∧
        Scenario.staleAadhar.invalidCandidateList = Scenario.rejectedVoter.invalidCandidateList ∧
        Scenario.staleAadhar.validVoterList = Scenario.rejectedVoter.validVoterList ∧
        Scenario.staleAadhar.invalidVoterList = Scenario.rejectedVoter.invalidVoterList) :=
  ⟨Scenario.staleId_run,
    C11_cancelled_repair_keeps_records Scenario.oneRejected Scenario.staleId
      ⟨["X9z", "1"], ['n'], [1]⟩ ⟨[], [], []⟩ (Or.inl Scenario.staleId_run),
    Scenario.staleAadhar_run,
    C11_cancelled_repair_keeps_records Scenario.rejectedVoter Scenario.staleAadhar
      ⟨["2"], ['n'], [1]⟩ ⟨[], [], []⟩ (Or.inr Scenario.staleAadhar_run)⟩

/-- C12 (a cancelled repair does write the indices). `FillMissingCandidateInfo` cancelled
at the name slot, after the new ID `X9z` was accepted, leaves `X9z` in `idSet`;
`FillMissingVoterInfo` cancelled at the status slot leaves the Aadhar identifier of the
record in `checkAadhar`. Both returned false and admitted nothing. -/
theorem C12_cancelled_repair_writes_index :
    FillMissingCandidateInfo Scenario.oneRejected ⟨["X9z", "1"], ['n'], [1]⟩
        = .done (false, Scenario.staleId, ⟨[], [], []⟩) ∧
      "X9z" ∉ Scenario.oneRejected.idSet ∧ "X9z" ∈ Scenario.staleId.idSet ∧
      Scenario.staleId.idSet ≠ Scenario.oneRejected.idSet ∧
      FillMissingVoterInfo Scenario.rejectedVoter ⟨["2"], ['n'], [1]⟩
        = .done (false, Scenario.staleAadhar, ⟨[], [], []⟩) ∧
      "123456789012" ∉ Scenario.rejectedVoter.checkAadhar ∧
      "123456789012" ∈ Scenario.staleAadhar.checkAadhar ∧
      Scenario.staleAadhar.validVoterList = [] ∧
      Scenario.staleAadhar.checkAadhar ≠ Scenario.rejectedVoter.checkAadhar := by
  refine ⟨Scenario.staleId_run, by decide, by decide, ?_, Scenario.staleAadhar_run, by decide,
    by decide, by decide, ?_⟩
  · intro h
    have hm : "X9z" ∈ Scenario.staleId.idSet := by decide
    rw [h] at hm
    revert hm
    decide
  · intro h
    have hm : "123456789012" ∈ Scenario.staleAadhar.checkAadhar := by decide
    rw [h] at hm
    revert hm
    decide

/-- C13 (promotion drops other rejected records). With the rejected records
`C1a,Bob,Blue,R2b` and `CC,,Green,R3c` in `invalidCandidateList` and `C1a` removed from
the registry, the first record passes every rule, so only `CC` is offered for repair;
when the repair of `CC` succeeds, `invalidCandidateList` is replaced by the offered list
without `CC`, which is empty: the record `C1a,Bob,Blue,R2b` is in no collection any more. -/
theorem C13_promotion_drops_rejected_record :
    RemoveCandidate Scenario.threeRows ⟨["C1a"], [], []⟩
        = .done (true, Scenario.threeRowsRemoved, ⟨[], [], []⟩) ∧
      Reachable Scenario.threeRowsRemoved ∧
      Scenario.threeRowsRemoved.invalidCandidateList
        = [⟨"C1a", "Bob", "Blue", "R2b", 0⟩, ⟨"CC", "", "Green", "R3c", 0⟩] ∧
      FillMissingCandidateInfo Scenario.threeRowsRemoved ⟨["X9z", "Carol"], [], [1]⟩
        = .done (true, Scenario.threeRowsRepaired, ⟨[], [], []⟩) ∧
      Scenario.threeRowsRepaired.validCandidateList = [⟨"X9z", "Carol", "Green", "R3c", 0⟩] ∧
      Scenario.threeRowsRepaired.invalidCandidateList = [] ∧
      (⟨"C1a", "Bob", "Blue", "R2b", 0⟩ : Candidate)
        ∉ Scenario.threeRowsRepaired.invalidCandidateList :=
  ⟨Scenario.threeRowsRemoved_run,
    Reachable.step .removeCandidate ⟨["C1a"], [], []⟩ ⟨[], [], []⟩ true
      Scenario.threeRows_reachable Scenario.threeRowsRemoved_run,
    by decide, Scenario.threeRowsRepaired_run, by decide, by decide, by decide⟩

/-- C14 (a cancelled amendment of the voter identifier changes the index). `ModifyVoter`
for voter 1 with update choice 1, the text `abc` refused and the answer `n`, returns
false with the voter's identifier erased from `checkAadhar`, while the voter is still
admitted. -/
theorem C14_cancelled_amendment_erases_index :
    ModifyVoter Scenario.oneEach ⟨["abc"], ['n'], [1, 1]⟩
        = .done (false, Scenario.unindexedVoter, ⟨[], [], []⟩) ∧
      Reachable Scenario.oneEach ∧
      "123456789012" ∈ Scenario.oneEach.checkAadhar ∧
      "123456789012" ∉ Scenario.unindexedVoter.checkAadhar ∧
      Scenario.unindexedVoter.validVoterList = [⟨"123456789012", false⟩] ∧
      Scenario.unindexedVoter.checkAadhar ≠ Scenario.oneEach.checkAadhar := by
  refine ⟨Scenario.unindexedVoter_run, Scenario.oneEach_reachable, by decide, by decide,
    by decide, ?_⟩
  intro h
  have hm : "123456789012" ∈ Scenario.oneEach.checkAadhar := by decide
  rw [← h] at hm
  revert hm
  decide

/-- C16 (candidate removal keeps the party symbol). After `RemoveCandidate` removed the
admitted candidate `C1a`, whose party symbol is `Red`, no candidate is left, `C1a` is in
neither `idSet` nor the ledger, but `Red` is still in `symbolSet`, so `ValidatePartySymbol`
refuses `Red` for any later candidate. -/
theorem C16_removal_keeps_symbol :
    Reachable Scenario.oneEach ∧
      Scenario.oneEach.validCandidateList = [⟨"C1a", "Alice", "Red", "R1a", 0⟩] ∧
      RemoveCandidate Scenario.oneEach ⟨["C1a"], [], []⟩
        = .done (true, Scenario.candidateRemoved, ⟨[], [], []⟩) ∧
      Scenario.candidateRemoved.validCandidateList = [] ∧
      "C1a" ∉ Scenario.candidateRemoved.idSet ∧
      mapFind Scenario.candidateRemoved.votesSet "C1a" = none ∧
      "Red" ∈ Scenario.candidateRemoved.symbolSet ∧
      (ValidatePartySymbol Scenario.candidateRemoved "Red").1 = false :=
  ⟨Scenario.oneEach_reachable, by decide, rfl, by decide, by decide, by decide, by decide,
    by decide⟩

/-- C17 (voter removal can erase an index entry that does not exist). In the reachable
state left by a cancelled `ModifyVoter`, the admitted voter `123456789012` is not in
`checkAadhar`; `RemoveVoter` given that identifier finds the voter and erases
`checkAadhar.find(aadharID)`, the end iterator: undefined behaviour. In the reachable
state with two admitted entries of the identifier, `RemoveVoter` removes the first and
an entry with the identifier stays admitted. -/
theorem C17_removal_erases_missing_index_entry :
    Reachable Scenario.unindexedVoter ∧
      Scenario.unindexedVoter.validVoterList = [⟨"123456789012", false⟩] ∧
      "123456789012" ∉ Scenario.unindexedVoter.checkAadhar ∧
      RemoveVoter Scenario.unindexedVoter ⟨["123456789012"], [], []⟩ = .undefined ∧
      Reachable Scenario.twinVoters ∧
      RemoveVoter Scenario.twinVoters ⟨["123456789012"], [], []⟩
        = .done (true, Scenario.twinRemovedOnce, ⟨[], [], []⟩) ∧
      Scenario.twinRemovedOnce.validVoterList = [⟨"123456789012", false⟩] :=
  ⟨Scenario.unindexedVoter_reachable, by decide, by decide, by decide,
    Scenario.twinVoters_reachable, rfl, by decide⟩

/-- A retry loop whose test only reads the system returns the system it was given. -/
theorem promptLoop_reader (test : ElectionSystem → String → Bool) :
    ∀ (ss : List String) (st : ElectionSystem) (cs : List Char) (r : Option String)
      (st' : ElectionSystem) (ss' : List String) (cs' : List Char),
      promptLoop (fun s x => (test s x, s)) st ss cs = .done (r, st', ss', cs') → st' = st := by
  intro ss
  induction ss with
  | nil => intro st cs r st' ss' cs' h; simp [promptLoop] at h
  | cons s ss ih =>
    intro st cs r st' ss' cs' h
    unfold promptLoop at h
    split at h
    · simp only [Run.done.injEq, Prod.mk.injEq] at h
      exact h.2.1.symm
    · split at h
      · simp at h
      · split at h
        · simp only [Run.done.injEq, Prod.mk.injEq] at h
          exact h.2.1.symm
        · exact ih _ _ _ _ _ _ h

/-- The answer accepted by a retry loop is one of the text answers of the script. -/
theorem promptLoop_mem (validate : ElectionSystem → String → Bool × ElectionSystem) :
    ∀ (ss : List String) (st : ElectionSystem) (cs : List Char) (x : String)
      (st' : ElectionSystem) (ss' : List String) (cs' : List Char),
      promptLoop validate st ss cs = .done (some x, st', ss', cs') → x ∈ ss := by
  intro ss
  induction ss with
  | nil => intro st cs x st' ss' cs' h; simp [promptLoop] at h
  | cons s ss ih =>
    intro st cs x st' ss' cs' h
    unfold promptLoop at h
    split at h
    · simp only [Run.done.injEq, Prod.mk.injEq, Option.some.injEq] at h
      rw [← h.1]
      exact List.mem_cons_self _ _
    · split at h
      · simp at h
      · split at h
        · simp at h
        · exact List.mem_cons_of_mem _ (ih _ _ _ _ _ _ h)

theorem promptUntilValid_reader (test : ElectionSystem → String → Bool) {st : ElectionSystem}
    {p : Prompter} {r : Option String} {st' : ElectionSystem} {p' : Prompter}
    (h : promptUntilValid (fun s x => (test s x, s)) st p = .done (r, st', p')) : st' = st := by
  unfold promptUntilValid at h
  split at h
  · rename_i r0 st0 ss0 cs0 heq
    simp only [Run.done.injEq, Prod.mk.injEq] at h
    obtain ⟨-, rfl, -⟩ := h
    exact promptLoop_reader _ _ _ _ _ _ _ _ heq
  · simp at h
  · simp at h

theorem promptUntilValid_mem {validate : ElectionSystem → String → Bool × ElectionSystem}
    {st : ElectionSystem} {p : Prompter} {x : String} {st' : ElectionSystem} {p' : Prompter}
    (h : promptUntilValid validate st p = .done (some x, st', p')) : x ∈ p.strings := by
  unfold promptUntilValid at h
  split at h
  · rename_i r0 st0 ss0 cs0 heq
    simp only [Run.done.injEq, Prod.mk.injEq] at h
    obtain ⟨rfl, -, -⟩ := h
    exact promptLoop_mem _ _ _ _ _ _ _ _ heq
  · simp at h
  · simp at h

/-! ## Every outcome of `ModifyCandidate` -/

theorem ModifyCandidate_menu_done (candidateID : String) :
    ∀ (ns : List Int) (st : ElectionSystem) (ss : List String) (cs : List Char)
      (b : Bool) (st' : ElectionSystem) (p' : Prompter),
      ModifyCandidate.menu candidateID st ns ss cs = .done (b, st', p') →
      (b = false ∧ SameData st st') ∨ (b = true ∧ Amended candidateID st st') := by
  intro ns
  induction ns with
  | nil => intro st ss cs b st' p' h; simp [ModifyCandidate.menu] at h
  | cons n ns ih =>
    intro st ss cs b st' p' h
    rw [ModifyCandidate_menu_cons] at h
    split at h
    · obtain ⟨⟨r, st1, p1⟩, h1, h⟩ := Run.bind_eq_done.mp h
      obtain ⟨⟨m1, rfl⟩, -⟩ := promptUntilValid_done isRule_ValidateCandidateName h1
      cases r with
      | none =>
        simp only [Run.pure_eq_done, Prod.mk.injEq] at h
        obtain ⟨rfl, rfl, -⟩ := h
        exact Or.inl ⟨rfl, m1, rfl⟩
      | some newName =>
        simp only [Run.pure_eq_done, Prod.mk.injEq] at h
        obtain ⟨rfl, rfl, -⟩ := h
        exact Or.inr ⟨rfl, Amended.name newName m1 rfl⟩
    · split at h
      · obtain ⟨⟨r, st1, p1⟩, h1, h⟩ := Run.bind_eq_done.mp h
        obtain ⟨⟨m1, rfl⟩, v1⟩ := promptUntilValid_done isRule_ValidatePartySymbol h1
        cases r with
        | none =>
          simp only [Run.pure_eq_done, Prod.mk.injEq] at h
          obtain ⟨rfl, rfl, -⟩ := h
          exact Or.inl ⟨rfl, m1, rfl⟩
        | some newPartySymbol =>
          simp only [Run.pure_eq_done, Prod.mk.injEq] at h
          obtain ⟨rfl, rfl, -⟩ := h
          exact Or.inr ⟨rfl, Amended.symbol newPartySymbol m1 (v1 _ rfl) rfl⟩
      · split at h
        · obtain ⟨⟨r, st1, p1⟩, h1, h⟩ := Run.bind_eq_done.mp h
          obtain ⟨⟨m1, rfl⟩, -⟩ := promptUntilValid_done isRule_ValidateRegionCode h1
          cases r with
          | none =>
            simp only [Run.pure_eq_done, Prod.mk.injEq] at h
            obtain ⟨rfl, rfl, -⟩ := h
            exact Or.inl ⟨rfl, m1, rfl⟩
          | some newRegionCode =>
            simp only [Run.pure_eq_done, Prod.mk.injEq] at h
            obtain ⟨rfl, rfl, -⟩ := h
            exact Or.inr ⟨rfl, Amended.region newRegionCode m1 rfl⟩
        · split at h
          · simp at h
          · split at h
            · simp only [Run.done.injEq, Prod.mk.injEq] at h
              obtain ⟨rfl, rfl, -⟩ := h
              exact Or.inl ⟨rfl, SameData.refl st⟩
            · exact ih _ _ _ _ _ _ h

/-- `ModifyCandidate` either returns false with nothing but `errorMessage` changed, or
returns true after one amendment of a candidate whose ID is in the registry. -/
theorem ModifyCandidate_done {st st' : ElectionSystem} {p p' : Prompter} {b : Bool}
    (h : ModifyCandidate st p = .done (b, st', p')) :
    (b = false ∧ SameData st st') ∨
      (b = true ∧ ∃ candidateID, (∃ c ∈ st.validCandidateList, c.candidateID = candidateID) ∧
        Amended candidateID st st') := by
  unfold ModifyCandidate at h
  split at h
  · simp only [Run.done.injEq, Prod.mk.injEq] at h
    obtain ⟨rfl, rfl, -⟩ := h
    exact Or.inl ⟨rfl, SameData.refl st⟩
  · obtain ⟨⟨r, st1, p1⟩, h1, h⟩ := Run.bind_eq_done.mp h
    obtain ⟨hs, v1⟩ := promptUntilValid_done isRule_candidateListed h1
    have hst1 : st1 = st := by
      unfold promptUntilValid at h1
      split at h1
      · rename_i r0 st0 ss0 cs0 heq
        simp only [Run.done.injEq, Prod.mk.injEq] at h1
        obtain ⟨-, rfl, -⟩ := h1
        exact promptLoop_reader _ _ _ _ _ _ _ _ heq
      · simp at h1
      · simp at h1
    subst hst1
    cases r with
    | none =>
      simp only [Run.pure_eq_done, Prod.mk.injEq] at h
      obtain ⟨rfl, rfl, -⟩ := h
      exact Or.inl ⟨rfl, SameData.refl _⟩
    | some candidateID =>
      have hany := v1 candidateID rfl
      simp only [List.any_eq_true, decide_eq_true_eq] at hany
      rcases ModifyCandidate_menu_done candidateID _ _ _ _ _ _ _ h with hf | ⟨hb, ha⟩
      · exact Or.inl hf
      · exact Or.inr ⟨hb, candidateID, hany, ha⟩

/-- In a list with unique IDs that was mapped by an ID-preserving function, the entry
with the ID of `c` is the image of `c`. -/
theorem mem_map_of_ids_nodup {l : List Candidate} (g : Candidate → Candidate)
    (hg : ∀ x, (g x).candidateID = x.candidateID)
    (hn : (l.map fun c => c.candidateID).Nodup) {c c' : Candidate} (hc : c ∈ l)
    (hc' : c' ∈ l.map g) (hid : c'.candidateID = c.candidateID) : c' = g c := by
  obtain ⟨d, hd, rfl⟩ := List.mem_map.mp hc'
  have : d = c := List.inj_on_of_nodup_map hn hd hc (by rw [← hg d, hid])
  rw [this]

/-- C15 (symbol amendment inserts the new value and keeps the old one). In a reachable
state, let `ModifyCandidate` return true and let the candidate with the ID of `c` carry
another party symbol afterwards (`c'`) than before (`c`). Then the registry is the old
one with exactly that candidate's symbol replaced, all its other fields kept;
`symbolSet` is the previous `symbolSet` with the new symbol added, the new symbol was
not in it before and the old symbol is still a member; `idSet`, the ledger and all
other collections are unchanged. -/
theorem C15_symbol_amendment (st st' : ElectionSystem) (p p' : Prompter)
    (hreach : Reachable st) (hrun : ModifyCandidate st p = .done (true, st', p'))
    (c c' : Candidate) (hc : c ∈ st.validCandidateList) (hc' : c' ∈ st'.validCandidateList)
    (hid : c'.candidateID = c.candidateID) (hne : c'.partySymbol ≠ c.partySymbol) :
    c' = { c with partySymbol := c'.partySymbol } ∧
      st'.validCandidateList = st.validCandidateList.map (fun x =>
        if x.candidateID = c.candidateID then { x with partySymbol := c'.partySymbol } else x) ∧
      st'.symbolSet = insert c'.partySymbol st.symbolSet ∧
      c'.partySymbol ∉ st.symbolSet ∧ c.partySymbol ∈ st'.symbolSet ∧
      st'.idSet = st.idSet ∧ st'.votesSet = st.votesSet ∧
      st'.invalidCandidateList = st.invalidCandidateList ∧
      st'.validVoterList = st.validVoterList ∧
      st'.invalidVoterList = st.invalidVoterList ∧
      st'.checkAadhar = st.checkAadhar := by
  have hinv := hreach.candidateInv
  rcases ModifyCandidate_done hrun with ⟨hb, -⟩ | ⟨-, id0, hfound, ha⟩
  · exact absurd hb (by simp)
  · cases ha with
    | name x m hst =>
      exfalso
      rw [hst] at hc'
      simp only [setError_validCandidateList] at hc'
      rw [setFirst_eq_map_of_nodup (fun c : Candidate => c.candidateID) id0 _ _ hinv.idsNodup]
        at hc'
      have := mem_map_of_ids_nodup _ (by intro x; split <;> rfl) hinv.idsNodup hc hc' hid
      apply hne
      rw [this]
      split <;> rfl
    | region x m hst =>
      exfalso
      rw [hst] at hc'
      simp only [setError_validCandidateList] at hc'
      rw [setFirst_eq_map_of_nodup (fun c : Candidate => c.candidateID) id0 _ _ hinv.idsNodup]
        at hc'
      have := mem_map_of_ids_nodup _ (by intro x; split <;> rfl) hinv.idsNodup hc hc' hid
      apply hne
      rw [this]
      split <;> rfl
    | symbol x m hx hst =>
      have hany : (st.validCandidateList.any fun c => decide (c.candidateID = id0)) = true := by
        obtain ⟨d, hd, hdi⟩ := hfound
        exact List.any_eq_true.mpr ⟨d, hd, by simpa using hdi⟩
      rw [if_pos hany,
        setFirst_eq_map_of_nodup (fun c : Candidate => c.candidateID) id0 _ _ hinv.idsNodup]
        at hst
      have hc'' := hc'
      rw [hst] at hc''
      simp only at hc''
      have hcg := mem_map_of_ids_nodup _ (by intro x; split <;> rfl) hinv.idsNodup hc hc'' hid
      have hid0 : c.candidateID = id0 := by
        by_contra hcon
        apply hne
        rw [hcg, if_neg hcon]
      have hx' : c'.partySymbol = x := by
        rw [hcg, if_pos hid0]
      subst hid0
      subst hx'
      have hold : c.partySymbol ∈ st.symbolSet := hinv.symbolIndexed c hc
      refine ⟨?_, ?_, ?_, ValidatePartySymbol_true hx, ?_, ?_, ?_, ?_, ?_, ?_, ?_⟩
      · conv_lhs => rw [hcg]
        rw [if_pos rfl]
      · rw [hst]
      · rw [hst]
      · rw [hst]
        exact Finset.mem_insert_of_mem hold
      all_goals rw [hst]; rfl

/-- Witness for C15: the party symbol of `C1a` amended from `Red` to `Blue`. -/
theorem C15_symbol_amendment_witness :
    Reachable Scenario.oneEach ∧
      ModifyCandidate Scenario.oneEach ⟨["C1a", "Blue"], [], [2]⟩
        = .done (true, Scenario.symbolAmended, ⟨[], [], []⟩) ∧
      (⟨"C1a", "Alice", "Red", "R1a", 0⟩ : Candidate) ∈ Scenario.oneEach.validCandidateList ∧
      (⟨"C1a", "Alice", "Blue", "R1a", 0⟩ : Candidate)
        ∈ Scenario.symbolAmended.validCandidateList ∧
      Scenario.symbolAmended.symbolSet = insert "Blue" Scenario.oneEach.symbolSet ∧
      "Blue" ∉ Scenario.oneEach.symbolSet ∧ "Red" ∈ Scenario.symbolAmended.symbolSet ∧
      Scenario.symbolAmended.idSet = Scenario.oneEach.idSet ∧
      Scenario.symbolAmended.votesSet = Scenario.oneEach.votesSet :=
  have h := C15_symbol_amendment Scenario.oneEach Scenario.symbolAmended
    ⟨["C1a", "Blue"], [], [2]⟩ ⟨[], [], []⟩ Scenario.oneEach_reachable
    Scenario.symbolAmended_run ⟨"C1a", "Alice", "Red", "R1a", 0⟩
    ⟨"C1a", "Alice", "Blue", "R1a", 0⟩ (by decide) (by decide) (by decide) (by decide)
  ⟨Scenario.oneEach_reachable, Scenario.symbolAmended_run, by decide, by decide,
    h.2.2.1, h.2.2.2.1, h.2.2.2.2.1, h.2.2.2.2.2.1, h.2.2.2.2.2.2.1⟩

/-! ## Removal with identifiers that match no admitted record -/

theorem RemoveCandidate_of_unknown {st st' : ElectionSystem} {p p' : Prompter} {b : Bool}
    (hun : ∀ s ∈ p.strings, ∀ c ∈ st.validCandidateList, c.candidateID ≠ s)
    (h : RemoveCandidate st p = .done (b, st', p')) : b = false ∧ st' = st := by
  unfold RemoveCandidate at h
  split at h
  · simp only [Run.done.injEq, Prod.mk.injEq] at h
    exact ⟨h.1.symm, h.2.1.symm⟩
  · obtain ⟨⟨r, st1, p1⟩, h1, h⟩ := Run.bind_eq_done.mp h
    have hst1 := promptUntilValid_reader
      (fun s candidateID => s.validCandidateList.any fun c => decide (c.candidateID = candidateID))
      h1
    cases r with
    | none =>
      simp only [Run.pure_eq_done, Prod.mk.injEq] at h
      exact ⟨h.1.symm, by rw [← h.2.1, hst1]⟩
    | some candidateID =>
      exfalso
      have hv := (promptUntilValid_done isRule_candidateListed h1).2 candidateID rfl
      simp only [List.any_eq_true, decide_eq_true_eq] at hv
      obtain ⟨c, hc, hcc⟩ := hv
      exact hun candidateID (promptUntilValid_mem h1) c hc hcc

theorem RemoveVoter_of_unknown {st st' : ElectionSystem} {p p' : Prompter} {b : Bool}
    (hun : ∀ s ∈ p.strings, ∀ v ∈ st.validVoterList, v.aadhaarID ≠ s)
    (h : RemoveVoter st p = .done (b, st', p')) : SameData st st' := by
  unfold RemoveVoter at h
  split at h
  · simp only [Run.done.injEq, Prod.mk.injEq] at h
    rw [← h.2.1]
    exact SameData.refl st
  · obtain ⟨⟨r, st1, p1⟩, h1, h⟩ := Run.bind_eq_done.mp h
    obtain ⟨⟨m1, rfl⟩, -⟩ := promptUntilValid_done isRule_IsValidAadhar h1
    cases r with
    | none =>
      simp only [Run.pure_eq_done, Prod.mk.injEq] at h
      rw [← h.2.1]
      exact ⟨m1, rfl⟩
    | some aadharID =>
      dsimp only at h
      split at h
      · rename_i hany
        exfalso
        simp only [setError_validVoterList, List.any_eq_true, decide_eq_true_eq] at hany
        obtain ⟨v, hv, hva⟩ := hany
        exact hun aadharID (promptUntilValid_mem h1) v hv hva
      · simp only [Run.pure_eq_done, Prod.mk.injEq] at h
        rw [← h.2.1]
        exact ⟨m1, rfl⟩

theorem Scenario.twoCandidatesRemoved_run :
    RemoveCandidate Scenario.twoCandidates ⟨["C1a"], [], []⟩
      = .done (true, Scenario.twoCandidatesRemoved, ⟨[], [], []⟩) := rfl

theorem Scenario.twoVotersRemoved_run :
    RemoveVoter Scenario.twoVoters ⟨["123456789012"], [], []⟩
      = .done (true, Scenario.twoVotersRemoved, ⟨[], [], []⟩) := rfl

theorem Scenario.twinRemovedOnce_run :
    RemoveVoter Scenario.twinVoters ⟨["123456789012"], [], []⟩
      = .done (true, Scenario.twinRemovedOnce, ⟨[], [], []⟩) := rfl

theorem Scenario.twinRemovedOnce_reachable : Reachable Scenario.twinRemovedOnce :=
  Reachable.step .removeVoter ⟨["123456789012"], [], []⟩ ⟨[], [], []⟩ true
    Scenario.twinVoters_reachable Scenario.twinRemovedOnce_run

/-- C18 (a second removal of the same voter identifier is not a plain "not found"). In
the reachable state with two admitted entries of `123456789012`, `RemoveVoter` given the
identifier removes the first entry and erases the identifier from `checkAadhar`. The
identifier just removed still matches an admitted record, so `RemoveVoter` given it again
finds that record and erases `checkAadhar.find(aadharID)`, the end iterator: undefined
behaviour, where the second call should report not found and change nothing. -/
theorem C18_second_removal_finds_twin :
    Reachable Scenario.twinVoters ∧
      RemoveVoter Scenario.twinVoters ⟨["123456789012"], [], []⟩
        = .done (true, Scenario.twinRemovedOnce, ⟨[], [], []⟩) ∧
      Reachable Scenario.twinRemovedOnce ∧
      Scenario.twinRemovedOnce.validVoterList = [⟨"123456789012", false⟩] ∧
      "123456789012" ∉ Scenario.twinRemovedOnce.checkAadhar ∧
      RemoveVoter Scenario.twinRemovedOnce ⟨["123456789012"], [], []⟩ = .undefined :=
  ⟨Scenario.twinVoters_reachable, Scenario.twinRemovedOnce_run,
    Scenario.twinRemovedOnce_reachable, rfl, by decide, by decide⟩

/-- Witness for C20: a candidate tuple with the ID of an admitted candidate and a voter
tuple with the identifier of an admitted voter are both rejected. -/
theorem C20_failed_admission_witness :
    (⟨"C1a", "Bob", "Blue", "R2b", "7"⟩ : CandidateRow).id ≠ "" ∧
      (ValidateCandidateID Scenario.oneEach "C1a").1 = false ∧
      (∃ m, CandidateCsvCheck.line Scenario.oneEach ⟨"C1a", "Bob", "Blue", "R2b", "7"⟩ =
        { Scenario.oneEach with
          invalidCandidateList := Scenario.oneEach.invalidCandidateList
            ++ [⟨"C1a", "Bob", "Blue", "R2b",
              (⟨"C1a", "Bob", "Blue", "R2b", "7"⟩ : CandidateRow).parsedCount⟩]
          errorMessage := m }) ∧
      "123456789012" ∈ Scenario.oneEach.checkAadhar ∧
      (∃ m, VoterCsvCheck.line Scenario.oneEach ("123456789012", some "0") =
        { Scenario.oneEach with
          invalidVoterList := Scenario.oneEach.invalidVoterList
            ++ [("123456789012", (some "0" : Option String).getD "")]
          errorMessage := m }) :=
  ⟨by decide, by decide,
    (C20_failed_admission Scenario.oneEach).1 ⟨"C1a", "Bob", "Blue", "R2b", "7"⟩ (by decide)
      (Or.inl (by decide)),
    by decide,
    (C20_failed_admission Scenario.oneEach).2 "123456789012" (some "0") (by decide)
      (fun _ _ => Or.inr (Or.inl (by decide)))⟩

/-! ## The validation rules characterised -/

theorem isdigit_range {c : Char} (h : isdigit c = true) : 48 ≤ c.toNat ∧ c.toNat ≤ 57 := by
  simp only [isdigit, Char.isDigit, Bool.and_eq_true, decide_eq_true_eq] at h
  exact h

theorem isalpha_range {c : Char} (h : isalpha c = true) :
    (65 ≤ c.toNat ∧ c.toNat ≤ 90) ∨ (97 ≤ c.toNat ∧ c.toNat ≤ 122) := by
  simp only [isalpha, Char.isAlpha, Char.isUpper, Char.isLower, Bool.or_eq_true,
    Bool.and_eq_true, decide_eq_true_eq] at h
  exact h

/-- No character is both a letter and a digit. -/
theorem isdigit_of_isalpha {c : Char} (h : isalpha c = true) : isdigit c = false := by
  rw [Bool.eq_false_iff]
  intro hd
  have h1 := isdigit_range hd
  have h2 := isalpha_range h
  omega

theorem isalpha_of_isdigit {c : Char} (h : isdigit c = true) : isalpha c = false := by
  rw [Bool.eq_false_iff]
  intro ha
  have h1 := isdigit_of_isalpha ha
  rw [h] at h1
  exact Bool.noConfusion h1

/-- The three outcomes of `ValidateCandidateID`; the branch with the message
"Candidate ID should contain at least one alpha and one numeric character." is never
taken, since the format test before it already asks for a digit and a letter. -/
theorem ValidateCandidateID_eq (st : ElectionSystem) (id : String) :
    ValidateCandidateID st id =
      if id ∈ st.idSet then
        (false, st.setError "Candidate ID already exists. Please enter a different ID.")
      else if 3 ≤ id.length ∧ id.length ≤ 5 ∧ (∃ c ∈ id.data, isdigit c = true) ∧
          (∃ c ∈ id.data, isalpha c = true) then (true, st.setError "")
      else (false, st.setError "Invalid Candidate ID format.") := by
  unfold ValidateCandidateID
  by_cases h1 : id ∈ st.idSet
  · rw [if_pos h1, if_pos h1]
  · rw [if_neg h1, if_neg h1]
    by_cases h2 : 3 ≤ id.length ∧ id.length ≤ 5 ∧ (∃ c ∈ id.data, isdigit c = true) ∧
        (∃ c ∈ id.data, isalpha c = true)
    · rw [if_pos h2]
      obtain ⟨ha, hb, ⟨c, hc, hcd⟩, ⟨d, hd, hda⟩⟩ := h2
      have e1 : id.data.any isdigit = true := List.any_eq_true.mpr ⟨c, hc, hcd⟩
      have e2 : id.data.any isalpha = true := List.any_eq_true.mpr ⟨d, hd, hda⟩
      have e3 : (id.data.all fun c => !(isdigit c)) = false := by
        rw [Bool.eq_false_iff]
        intro hall
        have := List.all_eq_true.mp hall c hc
        simp [hcd] at this
      have e4 : (id.data.all fun c => !(isalpha c)) = false := by
        rw [Bool.eq_false_iff]
        intro hall
        have := List.all_eq_true.mp hall d hd
        simp [hda] at this
      have e5 : decide (id.length < 3) = false := by simpa using ha
      have e6 : decide (id.length > 5) = false := by simpa using hb
      simp [e1, e2, e3, e4, e5, e6]
    · rw [if_neg h2, if_pos]
      simp only [Bool.or_eq_true, decide_eq_true_eq, Bool.not_eq_true', List.any_eq_false]
      by_contra hcon
      apply h2
      simp only [not_or, not_lt, not_forall, Bool.not_eq_false] at hcon
      obtain ⟨⟨⟨ha, hb⟩, c, hc⟩, d, hd⟩ := hcon
      simp only [exists_prop] at hc hd
      exact ⟨ha, by omega, ⟨c, hc.1, not_not.mp hc.2⟩, ⟨d, hd.1, not_not.mp hd.2⟩⟩

theorem ValidateCandidateID_iff (st : ElectionSystem) (id : String) :
    (ValidateCandidateID st id).1 = true ↔
      id ∉ st.idSet ∧ 3 ≤ id.length ∧ id.length ≤ 5 ∧
        (∃ c ∈ id.data, isalpha c = true) ∧ (∃ c ∈ id.data, isdigit c = true) := by
  rw [ValidateCandidateID_eq]
  by_cases h1 : id ∈ st.idSet
  · rw [if_pos h1]
    constructor
    · intro h
      exact Bool.noConfusion h
    · intro h
      exact absurd h1 h.1
  · rw [if_neg h1]
    split
    · rename_i h2
      constructor
      · intro _
        exact ⟨h1, h2.1, h2.2.1, h2.2.2.2, h2.2.2.1⟩
      · intro _
        rfl
    · rename_i h2
      constructor
      · intro h
        exact Bool.noConfusion h
      · intro h
        exact absurd ⟨h.2.1, h.2.2.1, h.2.2.2.2, h.2.2.2.1⟩ h2

theorem ValidateCandidateName_iff (st : ElectionSystem) (s : String) :
    (ValidateCandidateName st s).1 = true ↔
      2 ≤ s.length ∧ s.length ≤ 20 ∧ ∀ c ∈ s.data, isalpha c = true := by
  unfold ValidateCandidateName
  split
  · rename_i h
    simp only [Bool.or_eq_true, decide_eq_true_eq] at h
    simp only [Bool.false_eq_true, false_iff]
    omega
  · rename_i h
    simp only [Bool.or_eq_true, decide_eq_true_eq, not_or, not_lt] at h
    split
    · rename_i h2
      simp only [Bool.not_eq_true', ← Bool.not_eq_true, List.all_eq_true] at h2
      simp only [Bool.false_eq_true, false_iff]
      exact fun hh => h2 hh.2.2
    · rename_i h2
      simp only [Bool.not_eq_true', Bool.not_eq_false, List.all_eq_true] at h2
      simp only [true_iff]
      exact ⟨h.1, h.2, h2⟩

theorem ValidatePartySymbol_iff (st : ElectionSystem) (s : String) :
    (ValidatePartySymbol st s).1 = true ↔
      (2 ≤ s.length ∧ s.length ≤ 20 ∧ ∀ c ∈ s.data, isalpha c = true) ∧
        s ∉ st.symbolSet := by
  unfold ValidatePartySymbol
  split
  · rename_i h0
    simp only [Bool.false_eq_true, false_iff]
    exact fun hh => hh.2 h0
  · rename_i h0
    split
    · rename_i h
      simp only [Bool.or_eq_true, decide_eq_true_eq] at h
      simp only [Bool.false_eq_true, false_iff]
      omega
    · rename_i h
      simp only [Bool.or_eq_true, decide_eq_true_eq, not_or, not_lt] at h
      split
      · rename_i h2
        simp only [Bool.not_eq_true', ← Bool.not_eq_true, List.all_eq_true] at h2
        simp only [Bool.false_eq_true, false_iff]
        exact fun hh => h2 hh.1.2.2
      · rename_i h2
        simp only [Bool.not_eq_true', Bool.not_eq_false, List.all_eq_true] at h2
        simp only [true_iff]
        exact ⟨⟨h.1, h.2, h2⟩, h0⟩

theorem ValidateRegionCode_iff (st : ElectionSystem) (code : String) :
    (ValidateRegionCode st code).1 = true ↔
      (∃ c ∈ code.data, isalpha c = true) ∧ (∃ c ∈ code.data, isdigit c = true) := by
  unfold ValidateRegionCode
  split
  · rename_i h
    simp only [Bool.or_eq_true, List.all_eq_true, Bool.not_eq_true'] at h
    simp only [Bool.false_eq_true, false_iff]
    rintro ⟨⟨c, hc, hca⟩, ⟨d, hd, hdd⟩⟩
    rcases h with h | h
    · have := h d hd
      rw [hdd] at this
      exact Bool.noConfusion this
    · have := h c hc
      rw [hca] at this
      exact Bool.noConfusion this
  · rename_i h
    simp only [Bool.or_eq_true, List.all_eq_true, Bool.not_eq_true', not_or, not_forall,
      Bool.not_eq_false, exists_prop] at h
    simp only [true_iff]
    exact ⟨h.2, h.1⟩

theorem IsValidAadhar_iff (st : ElectionSystem) (aadhar : String) :
    (IsValidAadhar st aadhar).1 = true ↔
      aadhar.length = 12 ∧ (∀ c ∈ aadhar.data, isdigit c = true) ∧
        aadhar.data.head? ≠ some '0' := by
  unfold IsValidAadhar
  have hhead : aadhar.length = 12 →
      (aadhar.data.headD (Char.ofNat 0) ≠ '0' ↔ aadhar.data.head? ≠ some '0') := by
    intro hlen
    cases hd : aadhar.data with
    | nil =>
      have : aadhar.length = 0 := by
        show aadhar.data.length = 0
        rw [hd]
        rfl
      omega
    | cons a as => simp
  split
  · rename_i h
    simp only [true_iff]
    exact ⟨h.2.1, List.all_eq_true.mp h.2.2, (hhead h.2.1).mp h.1⟩
  · rename_i h
    simp only [Bool.false_eq_true, false_iff]
    intro hh
    exact h ⟨(hhead hh.1).mpr hh.2.2, hh.1, List.all_eq_true.mpr hh.2.1⟩

theorem IsValidStatus_iff (st : ElectionSystem) (status : String) :
    (IsValidStatus st status).1 = true ↔ status = "0" ∨ status = "1" := by
  unfold IsValidStatus
  split
  · rename_i h
    simp only [true_iff]
    exact h.2
  · rename_i h
    simp only [Bool.false_eq_true, false_iff]
    intro hh
    apply h
    refine ⟨?_, hh⟩
    rcases hh with hh | hh <;> (subst hh; rfl)

/-- C23 (candidate identifier rule). `ValidateCandidateID` accepts an identifier if and
only if it is not in `idSet`, its length is between 3 and 5, and it holds at least one
letter and at least one digit; an identifier made only of letters, or only of digits,
is rejected. -/
theorem C23_candidate_id_rule (st : ElectionSystem) (id : String) :
    ((ValidateCandidateID st id).1 = true ↔
      id ∉ st.idSet ∧ 3 ≤ id.length ∧ id.length ≤ 5 ∧
        (∃ c ∈ id.data, isalpha c = true) ∧ (∃ c ∈ id.data, isdigit c = true)) ∧
    ((∀ c ∈ id.data, isalpha c = true) → (ValidateCandidateID st id).1 = false) ∧
    ((∀ c ∈ id.data, isdigit c = true) → (ValidateCandidateID st id).1 = false) := by
  refine ⟨ValidateCandidateID_iff st id, ?_, ?_⟩
  · intro hall
    rw [Bool.eq_false_iff]
    intro h
    obtain ⟨_, _, _, _, c, hc, hcd⟩ := (ValidateCandidateID_iff st id).mp h
    have := isdigit_of_isalpha (hall c hc)
    rw [hcd] at this
    exact Bool.noConfusion this
  · intro hall
    rw [Bool.eq_false_iff]
    intro h
    obtain ⟨_, _, _, ⟨c, hc, hca⟩, _⟩ := (ValidateCandidateID_iff st id).mp h
    have := isalpha_of_isdigit (hall c hc)
    rw [hca] at this
    exact Bool.noConfusion this

theorem C23_candidate_id_rule_witness :
    (ValidateCandidateID ElectionSystem.empty "C1a").1 = true ∧
    (ValidateCandidateID ElectionSystem.empty "abc").1 = false ∧
    (ValidateCandidateID ElectionSystem.empty "123").1 = false :=
  ⟨(C23_candidate_id_rule ElectionSystem.empty "C1a").1.mpr (by decide),
    (C23_candidate_id_rule ElectionSystem.empty "abc").2.1 (by decide),
    (C23_candidate_id_rule ElectionSystem.empty "123").2.2 (by decide)⟩

/-- C24 (name and symbol rules). `ValidateCandidateName` accepts a string if and only
if its length is between 2 and 20 and every character is a letter;
`ValidatePartySymbol` accepts a string if and only if it satisfies the same rule and
is not in `symbolSet`. -/
theorem C24_name_and_symbol_rules (st : ElectionSystem) (s : String) :
    ((ValidateCandidateName st s).1 = true ↔
      2 ≤ s.length ∧ s.length ≤ 20 ∧ ∀ c ∈ s.data, isalpha c = true) ∧
    ((ValidatePartySymbol st s).1 = true ↔
      (2 ≤ s.length ∧ s.length ≤ 20 ∧ ∀ c ∈ s.data, isalpha c = true) ∧
        s ∉ st.symbolSet) :=
  ⟨ValidateCandidateName_iff st s, ValidatePartySymbol_iff st s⟩

/-- C25 (region code rule). `ValidateRegionCode` accepts a code if and only if it holds
at least one letter and at least one digit: neither the length of the code nor its
other characters are looked at. -/
theorem C25_region_code_rule (st : ElectionSystem) (code : String) :
    (ValidateRegionCode st code).1 = true ↔
      (∃ c ∈ code.data, isalpha c = true) ∧ (∃ c ∈ code.data, isdigit c = true) :=
  ValidateRegionCode_iff st code

/-- C26 (region code length). The comment in `ValidateRegionCode` asks for a length
between 3 and 5, but the method never looks at the length: in every state it accepts
the two-character code `R2` and the eight-character code `Region12`. -/
theorem C26_region_length_not_checked (st : ElectionSystem) :
    ValidateRegionCode st "R2" = (true, st.setError "") ∧
    ValidateRegionCode st "Region12" = (true, st.setError "") ∧
    "R2".length < 3 ∧ 5 < "Region12".length :=
  ⟨rfl, rfl, by decide, by decide⟩

/-- C27 (Aadhar rule). `IsValidAadhar` accepts a string if and only if it consists of
exactly 12 decimal digits the first of which is not `0`; the empty string is an input
like any other and is rejected. `012345678901` is rejected and `123456789012` is
accepted. -/
theorem C27_aadhar_rule (st : ElectionSystem) :
    (∀ aadhar : String, (IsValidAadhar st aadhar).1 = true ↔
      aadhar.length = 12 ∧ (∀ c ∈ aadhar.data, isdigit c = true) ∧
        aadhar.data.head? ≠ some '0') ∧
    (IsValidAadhar st "").1 = false ∧
    (IsValidAadhar st "012345678901").1 = false ∧
    (IsValidAadhar st "123456789012").1 = true :=
  ⟨IsValidAadhar_iff st, rfl, rfl, rfl⟩

/-! ## Voter admission -/

theorem voterRowPasses_iff (st : ElectionSystem) (aadhar status : String) :
    voterRowPasses st aadhar status = true ↔ VoterAdmissible st aadhar status := by
  simp only [voterRowPasses, Bool.and_eq_true, decide_eq_true_eq, IsValidAadhar_iff,
    IsValidStatus_iff, VoterAdmissible]
  tauto

/-- A voter row that fails a test changes neither the admitted voters nor any index. -/
theorem VoterCsvCheck_line_of_refused (st : ElectionSystem) (aadhar : String)
    (status : Option String)
    (hp : ∀ s, status = some s → voterRowPasses st aadhar s = false) :
    ∃ m, VoterCsvCheck.line st (aadhar, status) =
      { st with
        invalidVoterList :=
          if aadhar = "" then st.invalidVoterList
          else st.invalidVoterList ++ [(aadhar, status.getD "")]
        errorMessage := m } := by
  by_cases hid : aadhar = ""
  · subst hid
    cases status with
    | none => exact ⟨st.errorMessage, rfl⟩
    | some s => exact ⟨"Invalid Aadhar ID ", rfl⟩
  · rw [if_neg hid]
    exact VoterCsvCheck_line_of_fails st aadhar status hid hp

/-- C22 (voter admission). For every state and every source tuple (identifier, status
token), the loop body of `VoterCsvCheck` admits the tuple if and only if the identifier
is exactly 12 digits with a non-zero leading digit, is not in `checkAadhar`, and the
token is `0` or `1`. On admission the voter appended carries the identifier and the
flag `token = "1"`, the identifier is inserted into `checkAadhar`, and nothing else
changes but `errorMessage`; otherwise the admitted voters and `checkAadhar` are left as
they were. A line without a status token is never admitted. -/
theorem C22_voter_admission (st : ElectionSystem) (aadhar status : String) :
    ((VoterCsvCheck.line st (aadhar, some status)).validVoterList =
        st.validVoterList ++ [⟨aadhar, decide (status = "1")⟩] ↔
      VoterAdmissible st aadhar status) ∧
    (VoterAdmissible st aadhar status →
      VoterCsvCheck.line st (aadhar, some status) =
        { st with
          checkAadhar := insert aadhar st.checkAadhar
          validVoterList := st.validVoterList ++ [⟨aadhar, decide (status = "1")⟩]
          errorMessage := "" }) ∧
    (¬ VoterAdmissible st aadhar status →
      (VoterCsvCheck.line st (aadhar, some status)).validVoterList = st.validVoterList ∧
      (VoterCsvCheck.line st (aadhar, some status)).checkAadhar = st.checkAadhar) ∧
    (VoterCsvCheck.line st (aadhar, none)).validVoterList = st.validVoterList ∧
    (VoterCsvCheck.line st (aadhar, none)).checkAadhar = st.checkAadhar := by
  have hyes : VoterAdmissible st aadhar status →
      VoterCsvCheck.line st (aadhar, some status) =
        { st with
          checkAadhar := insert aadhar st.checkAadhar
          validVoterList := st.validVoterList ++ [⟨aadhar, decide (status = "1")⟩]
          errorMessage := "" } := fun h =>
    VoterCsvCheck_line_of_passes st aadhar status ((voterRowPasses_iff st aadhar status).mpr h)
  have hno : ¬ VoterAdmissible st aadhar status →
      (VoterCsvCheck.line st (aadhar, some status)).validVoterList = st.validVoterList ∧
      (VoterCsvCheck.line st (aadhar, some status)).checkAadhar = st.checkAadhar := by
    intro h
    have hp : voterRowPasses st aadhar status = false := by
      rw [Bool.eq_false_iff]
      exact fun hh => h ((voterRowPasses_iff st aadhar status).mp hh)
    obtain ⟨m, e⟩ := VoterCsvCheck_line_of_refused st aadhar (some status) (by
      intro s hs
      cases hs
      exact hp)
    rw [e]
    exact ⟨rfl, rfl⟩
  refine ⟨⟨?_, fun h => by rw [hyes h]⟩, hyes, hno, ?_⟩
  · intro h
    by_contra hn
    rw [(hno hn).1] at h
    have := congrArg List.length h
    simp at this
  · obtain ⟨m, e⟩ := VoterCsvCheck_line_of_refused st aadhar none (by
      intro s hs
      cases hs)
    rw [e]
    exact ⟨rfl, rfl⟩

theorem C22_voter_admission_witness :
    VoterAdmissible ElectionSystem.empty "123456789012" "1" ∧
    VoterCsvCheck.line ElectionSystem.empty ("123456789012", some "1") =
      { ElectionSystem.empty with
        checkAadhar := insert "123456789012" ElectionSystem.empty.checkAadhar
        validVoterList := ElectionSystem.empty.validVoterList ++
          [⟨"123456789012", decide ("1" = "1")⟩]
        errorMessage := "" } ∧
    ¬ VoterAdmissible ElectionSystem.empty "012345678901" "0" ∧
    (VoterCsvCheck.line ElectionSystem.empty ("012345678901", some "0")).validVoterList =
      ElectionSystem.empty.validVoterList ∧
    (VoterCsvCheck.line ElectionSystem.empty ("012345678901", some "0")).checkAadhar =
      ElectionSystem.empty.checkAadhar :=
  ⟨by decide,
    (C22_voter_admission ElectionSystem.empty "123456789012" "1").2.1 (by decide),
    by decide,
    (C22_voter_admission ElectionSystem.empty "012345678901" "0").2.2.1 (by decide)⟩

/-! ## The order of the admission checks -/

theorem setError_errorMessage (st : ElectionSystem) (m : String) :
    (st.setError m).errorMessage = m := rfl

theorem ValidateCandidateID_checks (st : ElectionSystem) (id : String) :
    ValidateCandidateID st id =
      if decide (id ∉ st.idSet) then
        if decide (3 ≤ id.length ∧ id.length ≤ 5) && id.data.any isalpha
            && id.data.any isdigit then (true, st.setError "")
        else (false, st.setError "Invalid Candidate ID format.")
      else (false, st.setError "Candidate ID already exists. Please enter a different ID.") := by
  rw [ValidateCandidateID_eq]
  by_cases h1 : id ∈ st.idSet
  · simp [h1]
  · by_cases h2 : 3 ≤ id.length ∧ id.length ≤ 5 ∧ (∃ c ∈ id.data, isdigit c = true) ∧
        (∃ c ∈ id.data, isalpha c = true)
    · have h2' := h2
      simp only [← List.any_eq_true] at h2'
      simp [h1, h2, h2'.1, h2'.2.1, h2'.2.2.1, h2'.2.2.2]
    · have h2' := h2
      simp only [← List.any_eq_true] at h2'
      rw [if_neg h1, if_neg h2, if_pos (by simpa using h1), if_neg]
      simp only [Bool.and_eq_true, decide_eq_true_eq]
      tauto

theorem all_not_eq_not_any (p : Char → Bool) (l : List Char) :
    (l.all fun c => !(p c)) = !(l.any p) := by
  induction l with
  | nil => rfl
  | cons a l ih => rw [List.all_cons, List.any_cons, ih, Bool.not_or]

theorem length_checks (n lo hi : Nat) :
    (decide (n < lo) || decide (n > hi)) = !(decide (lo ≤ n ∧ n ≤ hi)) := by
  by_cases h : lo ≤ n ∧ n ≤ hi
  · have h1 : ¬ n < lo := by omega
    have h2 : ¬ n > hi := by omega
    rw [decide_eq_true h, decide_eq_false h1, decide_eq_false h2]
    rfl
  · have h3 : n < lo ∨ n > hi := by omega
    rw [decide_eq_false h]
    rcases h3 with h3 | h3
    · rw [decide_eq_true h3]
      rfl
    · rw [decide_eq_true h3, Bool.or_true]
      rfl

theorem ValidateCandidateName_checks (st : ElectionSystem) (s : String) :
    ValidateCandidateName st s =
      if decide (2 ≤ s.length ∧ s.length ≤ 20) then
        if s.data.all isalpha then (true, st.setError "")
        else (false, st.setError
          "Invalid characters in Candidate Name. Only alphabets are allowed.")
      else (false, st.setError "Invalid Candidate Name length.") := by
  unfold ValidateCandidateName
  rw [length_checks]
  cases decide (2 ≤ s.length ∧ s.length ≤ 20)
  · rfl
  · cases s.data.all isalpha <;> rfl

theorem ValidatePartySymbol_checks (st : ElectionSystem) (s : String) :
    ValidatePartySymbol st s =
      if decide (s ∉ st.symbolSet) then
        if decide (2 ≤ s.length ∧ s.length ≤ 20) then
          if s.data.all isalpha then (true, st.setError "")
          else (false, st.setError
            "Invalid characters in Party Symbol. Only alphabets are allowed.")
        else (false, st.setError "Invalid Party Symbol length.")
      else (false, st.setError
        "Party Symbol already exists. Please enter a different symbol.") := by
  unfold ValidatePartySymbol
  rw [length_checks]
  by_cases h0 : s ∈ st.symbolSet
  · rw [if_pos h0, decide_eq_false (not_not.mpr h0)]
    rfl
  · rw [if_neg h0, decide_eq_true h0]
    cases decide (2 ≤ s.length ∧ s.length ≤ 20)
    · rfl
    · cases s.data.all isalpha <;> rfl

theorem ValidateRegionCode_checks (st : ElectionSystem) (code : String) :
    ValidateRegionCode st code =
      if code.data.any isalpha && code.data.any isdigit then (true, st.setError "")
      else (false, st.setError
        "Region Code should contain at least one alpha and one numeric character.") := by
  unfold ValidateRegionCode
  rw [all_not_eq_not_any, all_not_eq_not_any]
  cases code.data.any isalpha <;> cases code.data.any isdigit <;> rfl

theorem CandidateCsvCheck_line_eq_find (st : ElectionSystem) (row : CandidateRow)
    (hid : row.id ≠ "") :
    CandidateCsvCheck.line st row =
      match (admissionChecks st row).find? (fun c => !c.1) with
      | some c => rejectedWith st row c.2
      | none =>
        { st with
          validCandidateList := st.validCandidateList
            ++ [⟨row.id, row.name, row.symbol, row.reg, row.parsedCount⟩]
          idSet := insert row.id st.idSet
          symbolSet := insert row.symbol st.symbolSet
          votesSet := mapAssign st.votesSet row.id row.parsedCount
          errorMessage := "" } := by
  have hne : row.id.isEmpty = false := by
    rw [Bool.eq_false_iff]
    intro h
    exact hid ((String.isEmpty_iff _).mp h)
  unfold CandidateCsvCheck.line
  simp only [hne, Bool.false_eq_true, if_false, admissionChecks, ValidateCandidateID_checks,
    ValidateCandidateName_checks, ValidatePartySymbol_checks, ValidateRegionCode_checks]
  cases h1 : decide (row.id ∉ st.idSet)
  · rfl
  cases h2 : (decide (3 ≤ row.id.length ∧ row.id.length ≤ 5) && row.id.data.any isalpha
      && row.id.data.any isdigit)
  · rfl
  cases h3 : decide (2 ≤ row.name.length ∧ row.name.length ≤ 20)
  · rfl
  cases h4 : row.name.data.all isalpha
  · rfl
  simp only [if_true, setError_symbolSet]
  cases h5 : decide (row.symbol ∉ st.symbolSet)
  · rfl
  cases h6 : decide (2 ≤ row.symbol.length ∧ row.symbol.length ≤ 20)
  · rfl
  cases h7 : row.symbol.data.all isalpha
  · rfl
  cases h8 : (row.reg.data.any isalpha && row.reg.data.any isdigit)
  · rfl
  · rfl

/-- C21 (fixed rule order with short-circuit). Take the checks of candidate admission
in the order ID uniqueness, ID format, name length, name characters, symbol
uniqueness, symbol length, symbol characters, region composition. When a check fails
and every check before it holds, the loop body of `CandidateCsvCheck` rejects the
tuple and the reason left in `errorMessage` is the reason of that check, whatever the
verdicts of the checks after it; when every check holds the tuple is admitted. -/
theorem C21_first_failing_check_reported (st : ElectionSystem) (row : CandidateRow)
    (hid : row.id ≠ "") :
    (∀ (pre post : List (Bool × String)) (c : Bool × String),
      admissionChecks st row = pre ++ c :: post → (∀ x ∈ pre, x.1 = true) → c.1 = false →
        CandidateCsvCheck.line st row = rejectedWith st row c.2) ∧
    ((∀ x ∈ admissionChecks st row, x.1 = true) →
      CandidateCsvCheck.line st row =
        { st with
          validCandidateList := st.validCandidateList
            ++ [⟨row.id, row.name, row.symbol, row.reg, row.parsedCount⟩]
          idSet := insert row.id st.idSet
          symbolSet := insert row.symbol st.symbolSet
          votesSet := mapAssign st.votesSet row.id row.parsedCount
          errorMessage := "" }) := by
  constructor
  · intro pre post c hsplit hpre hc
    have hnone : pre.find? (fun c => !c.1) = none := by
      rw [List.find?_eq_none]
      intro x hx
      rw [hpre x hx]
      exact Bool.noConfusion
    rw [CandidateCsvCheck_line_eq_find st row hid, hsplit, List.find?_append, hnone,
      Option.none_or, List.find?_cons, hc]
    rfl
  · intro hall
    have hnone : (admissionChecks st row).find? (fun c => !c.1) = none := by
      rw [List.find?_eq_none]
      intro x hx
      rw [hall x hx]
      exact Bool.noConfusion
    rw [CandidateCsvCheck_line_eq_find st row hid, hnone]

theorem C21_first_failing_check_reported_witness :
    CandidateCsvCheck.line ElectionSystem.empty ⟨"CC", "", "Green", "R3c", "0"⟩ =
        rejectedWith ElectionSystem.empty ⟨"CC", "", "Green", "R3c", "0"⟩
          "Invalid Candidate ID format." ∧
      CandidateCsvCheck.line ElectionSystem.empty ⟨"C1a", "Alice", "Red", "R1a", "0"⟩ =
        { ElectionSystem.empty with
          validCandidateList := [⟨"C1a", "Alice", "Red", "R1a", 0⟩]
          idSet := {"C1a"}
          symbolSet := {"Red"}
          votesSet := [("C1a", 0)]
          errorMessage := "" } :=
  ⟨(C21_first_failing_check_reported ElectionSystem.empty ⟨"CC", "", "Green", "R3c", "0"⟩
      (by decide)).1
      [(true, "Candidate ID already exists. Please enter a different ID.")]
      [(false, "Invalid Candidate Name length."),
        (true, "Invalid characters in Candidate Name. Only alphabets are allowed."),
        (true, "Party Symbol already exists. Please enter a different symbol."),
        (true, "Invalid Party Symbol length."),
        (true, "Invalid characters in Party Symbol. Only alphabets are allowed."),
        (true, "Region Code should contain at least one alpha and one numeric character.")]
      (false, "Invalid Candidate ID format.") rfl (by decide) rfl,
    (C21_first_failing_check_reported ElectionSystem.empty
      ⟨"C1a", "Alice", "Red", "R1a", "0"⟩ (by decide)).2 (by decide)⟩

/-! ## Reasons for refusing a candidate identifier -/

/-- A row whose id is already in `idSet` is rejected for that reason, whatever its
other fields. -/
theorem CandidateCsvCheck_line_of_known_id (st : ElectionSystem) (row : CandidateRow)
    (hid : row.id ≠ "") (hmem : row.id ∈ st.idSet) :
    CandidateCsvCheck.line st row =
      rejectedWith st row "Candidate ID already exists. Please enter a different ID." := by
  rw [CandidateCsvCheck_line_eq_find st row hid]
  simp only [admissionChecks, List.find?, hmem, not_true_eq_false, decide_False, Bool.not_false]

theorem ne_empty_of_ValidateCandidateID {st : ElectionSystem} {id : String}
    (h : (ValidateCandidateID st id).1 = true) : id ≠ "" := by
  intro he
  subst he
  have := ((ValidateCandidateID_iff st "").mp h).2.1
  exact absurd this (by decide)

/-- C29 (duplicate identifier). For every state and every pair of candidate tuples
with the same identifier of which the first passes all rules, `CandidateCsvCheck` on
the two tuples admits the first and rejects the second, whatever the other fields of
the second are. The reason left in `errorMessage` is the sentence
"Candidate ID already exists." followed by " Please enter a different ID.", and it is
none of the reasons reported for a violation of format. -/
theorem C29_duplicate_identifier (st : ElectionSystem) (first second : CandidateRow)
    (hsame : second.id = first.id) (hp : first.passes st = true) :
    (CandidateCsvCheck (some [first, second]) st).2 =
      rejectedWith
        { st with
          validCandidateList := st.validCandidateList
            ++ [⟨first.id, first.name, first.symbol, first.reg, first.parsedCount⟩]
          idSet := insert first.id st.idSet
          symbolSet := insert first.symbol st.symbolSet
          votesSet := mapAssign st.votesSet first.id first.parsedCount
          errorMessage := "" }
        second "Candidate ID already exists. Please enter a different ID." ∧
    "Candidate ID already exists. Please enter a different ID." =
      "Candidate ID already exists." ++ " Please enter a different ID." ∧
    "Candidate ID already exists. Please enter a different ID." ∉ formatReasons := by
  refine ⟨?_, by decide, by decide⟩
  have h1 : (ValidateCandidateID st first.id).1 = true := by
    simp only [CandidateRow.passes, Bool.and_eq_true] at hp
    exact hp.1.1.1
  have hid : first.id ≠ "" := ne_empty_of_ValidateCandidateID h1
  show CandidateCsvCheck.line (CandidateCsvCheck.line st first) second = _
  rw [CandidateCsvCheck_line_of_passes st first hid hp]
  apply CandidateCsvCheck_line_of_known_id
  · rw [hsame]
    exact hid
  · rw [hsame]
    exact Finset.mem_insert_self _ _

theorem C29_duplicate_identifier_witness :
    (CandidateCsvCheck
        (some [⟨"C1a", "Alice", "Red", "R1a", "0"⟩, ⟨"C1a", "Bob", "Blue", "R2b", "0"⟩])
        ElectionSystem.empty).2 =
      { ElectionSystem.empty with
        validCandidateList := [⟨"C1a", "Alice", "Red", "R1a", 0⟩]
        invalidCandidateList := [⟨"C1a", "Bob", "Blue", "R2b", 0⟩]
        idSet := {"C1a"}
        symbolSet := {"Red"}
        votesSet := [("C1a", 0)]
        errorMessage := "Candidate ID already exists. Please enter a different ID." } :=
  (C29_duplicate_identifier ElectionSystem.empty ⟨"C1a", "Alice", "Red", "R1a", "0"⟩
    ⟨"C1a", "Bob", "Blue", "R2b", "0"⟩ rfl (by decide)).1

/-- C30 (format reason). For every identifier that is not in `idSet` and violates the
format (length below 3 or above 5, or no letter, or no digit), `ValidateCandidateID`
returns false and leaves in `errorMessage` the reason "Invalid Candidate ID format"
closed by a full stop; and on no input does it leave the reason
"Candidate ID should contain at least one alpha and one numeric character.". -/
theorem C30_format_reason (st : ElectionSystem) (id : String) :
    (id ∉ st.idSet →
      (id.length < 3 ∨ 5 < id.length ∨ (∀ c ∈ id.data, isalpha c = false) ∨
        (∀ c ∈ id.data, isdigit c = false)) →
      ValidateCandidateID st id = (false, st.setError "Invalid Candidate ID format.")) ∧
    "Invalid Candidate ID format." = "Invalid Candidate ID format" ++ "." ∧
    (ValidateCandidateID st id).2.errorMessage ≠
      "Candidate ID should contain at least one alpha and one numeric character." := by
  refine ⟨?_, by decide, ?_⟩
  · intro hmem hbad
    rw [ValidateCandidateID_eq, if_neg hmem, if_neg]
    rintro ⟨h3, h5, ⟨c, hc, hcd⟩, ⟨d, hd, hda⟩⟩
    rcases hbad with h | h | h | h
    · omega
    · omega
    · rw [h d hd] at hda
      exact Bool.noConfusion hda
    · rw [h c hc] at hcd
      exact Bool.noConfusion hcd
  · rw [ValidateCandidateID_eq]
    split
    · simp only [setError_errorMessage]
      decide
    · split
      · simp only [setError_errorMessage]
        decide
      · simp only [setError_errorMessage]
        decide

theorem C30_format_reason_witness :
    ValidateCandidateID ElectionSystem.empty "CC" =
      (false, ElectionSystem.empty.setError "Invalid Candidate ID format.") :=
  (C30_format_reason ElectionSystem.empty "CC").1 (by decide) (Or.inl (by decide))

/-! ## Parsing the initial vote count -/

theorem isspace_of_isdigit {c : Char} (h : isdigit c = true) : isspace c = false := by
  have hr := isdigit_range h
  rw [Bool.eq_false_iff]
  intro hs
  simp only [isspace, Bool.or_eq_true, decide_eq_true_eq] at hs
  rcases hs with ((((hs | hs) | hs) | hs) | hs) | hs
  · subst hs
    exact absurd hr.1 (by decide)
  · subst hs
    exact absurd hr.1 (by decide)
  · subst hs
    exact absurd hr.1 (by decide)
  · subst hs
    exact absurd hr.1 (by decide)
  · omega
  · omega

theorem takeWhile_of_all {α : Type} (p : α → Bool) (l : List α) (h : ∀ x ∈ l, p x = true) :
    l.takeWhile p = l := by
  induction l with
  | nil => rfl
  | cons a l ih =>
    rw [List.takeWhile_cons, h a (List.mem_cons_self a l),
      ih (fun x hx => h x (List.mem_cons_of_mem a hx))]
    rfl

theorem foldl_digits (l : List Char) (h : ∀ c ∈ l, isdigit c = true) (acc : Nat) :
    l.foldl (fun (acc : Int) c => acc * 10 + ((c.toNat : Int) - 48)) (acc : Int) =
      ((l.foldl (fun acc c => acc * 10 + (c.toNat - 48)) acc : Nat) : Int) := by
  induction l generalizing acc with
  | nil => rfl
  | cons a l ih =>
    have ha := isdigit_range (h a (List.mem_cons_self a l))
    rw [List.foldl_cons, List.foldl_cons]
    have e : (acc : Int) * 10 + ((a.toNat : Int) - 48) = ((acc * 10 + (a.toNat - 48) : Nat) : Int) := by
      omega
    rw [e]
    exact ih (fun x hx => h x (List.mem_cons_of_mem a hx)) _

/-- `std::stoi` on a non-empty string of digits: its decimal value when that fits an
`int`, an exception otherwise. -/
theorem stoi_of_digits (s : String) (hne : s ≠ "")
    (hd : ∀ c ∈ s.data, isdigit c = true) :
    stoi s = if decimalValue s ≤ 2147483647 then some (decimalValue s : Int) else none := by
  obtain ⟨l⟩ := s
  cases l with
  | nil => exact absurd rfl hne
  | cons a l =>
    have ha := hd a (List.mem_cons_self a l)
    have hr := isdigit_range ha
    have hsp := isspace_of_isdigit ha
    have hminus : a ≠ '-' := by
      intro e
      subst e
      exact absurd hr.1 (by decide)
    have hplus : a ≠ '+' := by
      intro e
      subst e
      exact absurd hr.1 (by decide)
    have htw : (a :: l).takeWhile isdigit = a :: l := takeWhile_of_all _ _ hd
    have hf := foldl_digits (a :: l) hd 0
    simp only [stoi, decimalValue, List.dropWhile_cons, hsp, Bool.false_eq_true, if_false,
      List.head?_cons, Option.some.injEq, hminus, hplus, or_self, htw, decide_False]
    rw [Int.ofNat_zero] at hf
    rw [if_neg (List.cons_ne_nil a l), hf]
    generalize List.foldl (fun acc c => acc * 10 + (c.toNat - 48)) 0 (a :: l) = n
    by_cases hn : n ≤ 2147483647
    · rw [if_pos hn, if_pos]
      omega
    · rw [if_neg hn, if_neg]
      omega

theorem Convert2Int_zero : Convert2Int "0" = 0 := by decide

/-- The count `CandidateCsvCheck` stores for a row. -/
theorem parsedCount_eq (row : CandidateRow) :
    row.parsedCount =
      if row.count ≠ "" ∧ (∀ c ∈ row.count.data, isdigit c = true) ∧
          decimalValue row.count ≤ 2147483647 then (decimalValue row.count : Int)
      else 0 := by
  unfold CandidateRow.parsedCount
  by_cases hne : row.count = ""
  · rw [hne]
    rfl
  have hne' : row.count.isEmpty = false := by
    rw [Bool.eq_false_iff]
    intro h
    exact hne ((String.isEmpty_iff _).mp h)
  by_cases hd : ∀ c ∈ row.count.data, isdigit c = true
  · have hall : row.count.data.all isdigit = true := List.all_eq_true.mpr hd
    have hs := stoi_of_digits row.count hne hd
    by_cases hn : decimalValue row.count ≤ 2147483647
    · rw [if_pos hn] at hs
      have hv : IsValidNumber row.count = true := by
        simp only [IsValidNumber, hne', hall, hs, Bool.false_eq_true, if_false, Bool.not_true,
          decide_eq_true_eq]
        omega
      have htok : (if row.count.isEmpty || !(IsValidNumber row.count) then "0"
          else row.count) = row.count := by
        rw [hne', hv]
        rfl
      rw [htok, if_pos ⟨hne, hd, hn⟩]
      simp only [Convert2Int, hs]
      rw [if_pos]
      omega
    · rw [if_neg hn] at hs
      have hv : IsValidNumber row.count = false := by
        simp only [IsValidNumber, hne', hall, hs, Bool.false_eq_true, if_false, Bool.not_true]
      have htok : (if row.count.isEmpty || !(IsValidNumber row.count) then "0"
          else row.count) = "0" := by
        rw [hne', hv]
        rfl
      rw [htok, if_neg (fun h => hn h.2.2)]
      exact Convert2Int_zero
  · have hall : row.count.data.all isdigit = false := by
      rw [Bool.eq_false_iff]
      exact fun h => hd (List.all_eq_true.mp h)
    have hv : IsValidNumber row.count = false := by
      simp only [IsValidNumber, hne', hall, Bool.false_eq_true, if_false, Bool.not_false, if_true]
    have htok : (if row.count.isEmpty || !(IsValidNumber row.count) then "0"
        else row.count) = "0" := by
      rw [hne', hv]
      rfl
    rw [htok, if_neg (fun h => hd h.2.1)]
    exact Convert2Int_zero

/-- C28 as stated fails: the count token `2147483648` is not empty and all digits, its
decimal value is 2147483648, and the count stored for the admitted candidate (in the
record and in `votesSet`) is 0. -/
theorem C28_initial_count_counterexample :
    Scenario.countAboveInt.count ≠ "" ∧
    (∀ c ∈ Scenario.countAboveInt.count.data, isdigit c = true) ∧
    decimalValue Scenario.countAboveInt.count = 2147483648 ∧
    (CandidateCsvCheck (some [Scenario.countAboveInt]) ElectionSystem.empty).2 =
      { ElectionSystem.empty with
        validCandidateList := [⟨"C1a", "Alice", "Red", "R1a", 0⟩]
        idSet := {"C1a"}
        symbolSet := {"Red"}
        votesSet := [("C1a", 0)] } ∧
    Scenario.countAboveInt.parsedCount ≠ (decimalValue Scenario.countAboveInt.count : Int) := by
  refine ⟨by decide, by decide, by decide, rfl, by decide⟩

/-- C28, amended (permissive initial vote count). For every candidate tuple the count
that the loop body of `CandidateCsvCheck` stores equals the decimal value of the token
when the token is non-empty, every character is a digit and the value is at most
2147483647, and is zero for every other token; it is never negative. Whether the tuple
is admitted does not depend on the count token: a tuple with an id is admitted with the
parsed count when its other four fields pass the rules and goes to the rejected
collection with the parsed count otherwise. -/
theorem C28_initial_count (st : ElectionSystem) (row : CandidateRow) :
    (row.parsedCount =
      if row.count ≠ "" ∧ (∀ c ∈ row.count.data, isdigit c = true) ∧
          decimalValue row.count ≤ 2147483647 then (decimalValue row.count : Int)
      else 0) ∧
    0 ≤ row.parsedCount ∧
    (∀ count : String, ({ row with count := count } : CandidateRow).passes st = row.passes st) ∧
    (row.id ≠ "" → row.passes st = true →
      CandidateCsvCheck.line st row =
        { st with
          validCandidateList := st.validCandidateList
            ++ [⟨row.id, row.name, row.symbol, row.reg, row.parsedCount⟩]
          idSet := insert row.id st.idSet
          symbolSet := insert row.symbol st.symbolSet
          votesSet := mapAssign st.votesSet row.id row.parsedCount
          errorMessage := "" }) ∧
    (row.id ≠ "" → row.passes st = false →
      ∃ m, CandidateCsvCheck.line st row = rejectedWith st row m) := by
  refine ⟨parsedCount_eq row, ?_, fun _ => rfl, CandidateCsvCheck_line_of_passes st row,
    CandidateCsvCheck_line_of_fails st row⟩
  rw [parsedCount_eq]
  split
  · exact Int.ofNat_nonneg _
  · exact le_refl _

theorem C28_initial_count_witness :
    CandidateCsvCheck.line ElectionSystem.empty ⟨"C1a", "Alice", "Red", "R1a", "42"⟩ =
        { ElectionSystem.empty with
          validCandidateList := [⟨"C1a", "Alice", "Red", "R1a", 42⟩]
          idSet := {"C1a"}
          symbolSet := {"Red"}
          votesSet := [("C1a", 42)] } ∧
      ∃ m, CandidateCsvCheck.line ElectionSystem.empty ⟨"CC", "Carol", "Green", "R3c", "-5"⟩ =
        rejectedWith ElectionSystem.empty ⟨"CC", "Carol", "Green", "R3c", "-5"⟩ m :=
  ⟨(C28_initial_count ElectionSystem.empty ⟨"C1a", "Alice", "Red", "R1a", "42"⟩).2.2.2.1
      (by decide) (by decide),
    (C28_initial_count ElectionSystem.empty ⟨"CC", "Carol", "Green", "R3c", "-5"⟩).2.2.2.2
      (by decide) (by decide)⟩

/-! ## The tally and the ledger's keys -/

theorem sortedVotes_place_perm (e : String × Int) (l : List (String × Int)) :
    (sortedVotes.place e l).Perm (e :: l) := by
  induction l with
  | nil => exact List.Perm.refl _
  | cons x xs ih =>
    unfold sortedVotes.place
    split
    · exact (List.Perm.cons x ih).trans (List.Perm.swap e x xs)
    · exact List.Perm.refl _

theorem sortedVotes_perm (m : VoteMap) : (sortedVotes m).Perm m := by
  induction m with
  | nil => exact List.Perm.refl _
  | cons e m ih => exact (sortedVotes_place_perm e _).trans (List.Perm.cons e ih)

theorem sortedVotes_place_sorted (e : String × Int) (l : List (String × Int))
    (h : l.Pairwise fun a b => b.2 ≤ a.2) :
    (sortedVotes.place e l).Pairwise fun a b => b.2 ≤ a.2 := by
  induction l with
  | nil => exact List.pairwise_singleton _ _
  | cons x xs ih =>
    unfold sortedVotes.place
    rw [List.pairwise_cons] at h
    split
    · rename_i hlt
      rw [List.pairwise_cons]
      refine ⟨?_, ih h.2⟩
      intro y hy
      rcases List.mem_cons.mp ((sortedVotes_place_perm e xs).mem_iff.mp hy) with hy | hy
      · rw [hy]
        exact le_of_lt hlt
      · exact h.1 y hy
    · rename_i hge
      rw [List.pairwise_cons]
      refine ⟨?_, List.pairwise_cons.mpr h⟩
      intro y hy
      rcases List.mem_cons.mp hy with hy | hy
      · rw [hy]
        exact not_lt.mp hge
      · exact le_trans (h.1 y hy) (not_lt.mp hge)

theorem sortedVotes_sorted (m : VoteMap) :
    (sortedVotes m).Pairwise fun a b => b.2 ≤ a.2 := by
  induction m with
  | nil => exact List.Pairwise.nil
  | cons e m ih => exact sortedVotes_place_sorted e _ ih

/-- C32 (sorted tally). The pairs written by `WriteResultDataToCSV` are a permutation of
the entries of `votesSet` in non-increasing order of count; the pairs displayed by
`ShowResult` are a permutation of the entries of the ledger as `ShowResult` leaves it,
in non-increasing order of count. -/
theorem C32_sorted_tally (st : ElectionSystem) :
    (WriteResultDataToCSV st).Perm st.votesSet ∧
    (WriteResultDataToCSV st).Pairwise (fun a b => b.2 ≤ a.2) ∧
    (ShowResult.display st).Perm (ShowResult st).2.votesSet ∧
    (ShowResult.display st).Pairwise (fun a b => b.2 ≤ a.2) :=
  ⟨sortedVotes_perm _, sortedVotes_sorted _, sortedVotes_perm _, sortedVotes_sorted _⟩

theorem Scenario.addedCandidate_run :
    AddCandidate ElectionSystem.empty ⟨["X1y", "Xavier", "Xray", "R1x"], [], []⟩
      = .done (true, Scenario.addedCandidate, ⟨[], [], []⟩) := rfl

theorem Scenario.addedCandidate_reachable : Reachable Scenario.addedCandidate :=
  Reachable.step .addCandidate ⟨["X1y", "Xavier", "Xray", "R1x"], [], []⟩ ⟨[], [], []⟩ true
    Reachable.init Scenario.addedCandidate_run

/-- C33 (one ledger entry per admitted candidate) fails in reachable states: after
`AddCandidate` admitted `X1y`, and after `FillMissingCandidateInfo` promoted `C1a`, the
candidate is in `validCandidateList` while `votesSet` has no entry for it, and the tally
written by `WriteResultDataToCSV` has no pair for it. -/
theorem C33_admitted_without_ledger_entry :
    (Reachable Scenario.addedCandidate ∧
      Scenario.addedCandidate.validCandidateList.map (fun c => c.candidateID) = ["X1y"] ∧
      Scenario.addedCandidate.votesSet.map (fun e => e.1) = [] ∧
      WriteResultDataToCSV Scenario.addedCandidate = []) ∧
    (Reachable Scenario.promotedWithVotes ∧
      Scenario.promotedWithVotes.validCandidateList.map (fun c => c.candidateID) = ["C1a"] ∧
      Scenario.promotedWithVotes.votesSet.map (fun e => e.1) = [] ∧
      WriteResultDataToCSV Scenario.promotedWithVotes = []) := by
  refine ⟨⟨Scenario.addedCandidate_reachable, rfl, rfl, rfl⟩, ⟨?_, rfl, rfl, rfl⟩⟩
  exact Reachable.step .fillMissingCandidateInfo ⟨["Alice"], [], [1]⟩ ⟨[], [], []⟩ true
    (Reachable.step (.candidateCsvCheck (some [⟨"C1a", "", "Red", "R1a", "5"⟩]))
      ⟨[], [], []⟩ ⟨[], [], []⟩ false Reachable.init rfl) rfl

/-- C36 (repair menu choices in range) fails: with one rejected voter (`n = 1`),
`FillMissingVoterInfo` accepts the choice 2, reads `invalidVoterList[1]` past the end of
the collection, and its behaviour is undefined; the choices 0 and 3 are refused. -/
theorem C36_choice_past_the_end_accepted :
    Reachable Scenario.rejectedVoter ∧
    Scenario.rejectedVoter.invalidVoterList.length = 1 ∧
    FillMissingVoterInfo Scenario.rejectedVoter ⟨[], [], [2]⟩ = .undefined ∧
    FillMissingVoterInfo Scenario.rejectedVoter ⟨[], ['n'], [3]⟩
      = .done (false, Scenario.rejectedVoter, ⟨[], [], []⟩) ∧
    FillMissingVoterInfo Scenario.rejectedVoter ⟨[], ['n'], [0]⟩
      = .done (false, Scenario.rejectedVoter, ⟨[], [], []⟩) :=
  ⟨Scenario.rejectedVoter_reachable, rfl, rfl, rfl, rfl⟩

/-- C38 (admitted candidates are always indexed). In every reachable state the ID of
every entry of `validCandidateList` is a member of `idSet` and its party symbol is a
member of `symbolSet`. -/
theorem C38_admitted_candidates_always_indexed (st : ElectionSystem) (h : Reachable st) :
    ∀ c ∈ st.validCandidateList, c.candidateID ∈ st.idSet ∧ c.partySymbol ∈ st.symbolSet :=
  fun c hc => ⟨h.candidateInv.idIndexed c hc, h.candidateInv.symbolIndexed c hc⟩

theorem C38_admitted_candidates_always_indexed_witness :
    (⟨"C1a", "Alice", "Red", "R1a", 0⟩ : Candidate).candidateID ∈ Scenario.threeRows.idSet ∧
      (⟨"C1a", "Alice", "Red", "R1a", 0⟩ : Candidate).partySymbol
        ∈ Scenario.threeRows.symbolSet :=
  C38_admitted_candidates_always_indexed Scenario.threeRows Scenario.threeRows_reachable
    ⟨"C1a", "Alice", "Red", "R1a", 0⟩ (by decide)

/-- C39 (`IndividualResult` is read-only) fails in a reachable state: after
`AddCandidate` admitted `X1y` the ledger has no entry for it, and `IndividualResult`
answered `X1y` leaves the entry `(X1y, 0)` in `votesSet`. -/
theorem C39_individual_result_writes_ledger :
    Reachable Scenario.addedCandidate ∧
    Scenario.addedCandidate.votesSet = [] ∧
    IndividualResult Scenario.addedCandidate ⟨["X1y"], [], []⟩
      = .done (true, { Scenario.addedCandidate with votesSet := [("X1y", 0)] }, ⟨[], [], []⟩) :=
  ⟨Scenario.addedCandidate_reachable, rfl, rfl⟩

/-! ## Cancelling `AddCandidate` -/

/-- A run of `AddCandidate` that returns false leaves the admitted candidates, both
candidate indices and the ledger as they were. -/
theorem AddCandidate_false_frame {st st' : ElectionSystem} {p p' : Prompter}
    (h : AddCandidate st p = .done (false, st', p')) :
    st'.validCandidateList = st.validCandidateList ∧ st'.idSet = st.idSet ∧
      st'.symbolSet = st.symbolSet ∧ st'.votesSet = st.votesSet := by
  unfold AddCandidate at h
  obtain ⟨⟨rid, st1, p1⟩, h1, h⟩ := Run.bind_eq_done.mp h
  obtain ⟨m1, rfl⟩ := (promptUntilValid_done isRule_ValidateCandidateID h1).1
  cases rid with
  | none =>
    simp only [Run.pure_eq_done, Prod.mk.injEq] at h
    obtain ⟨-, rfl, -⟩ := h
    exact ⟨rfl, rfl, rfl, rfl⟩
  | some id =>
    obtain ⟨⟨rname, st2, p2⟩, h2, h⟩ := Run.bind_eq_done.mp h
    obtain ⟨m2, rfl⟩ := (promptUntilValid_done isRule_ValidateCandidateName h2).1
    cases rname with
    | none =>
      simp only [Run.pure_eq_done, Prod.mk.injEq] at h
      obtain ⟨-, rfl, -⟩ := h
      exact ⟨rfl, rfl, rfl, rfl⟩
    | some name =>
      obtain ⟨⟨rsym, st3, p3⟩, h3, h⟩ := Run.bind_eq_done.mp h
      obtain ⟨m3, rfl⟩ := (promptUntilValid_done isRule_ValidatePartySymbol h3).1
      cases rsym with
      | none =>
        simp only [Run.pure_eq_done, Prod.mk.injEq] at h
        obtain ⟨-, rfl, -⟩ := h
        exact ⟨rfl, rfl, rfl, rfl⟩
      | some symbol =>
        obtain ⟨⟨rreg, st4, p4⟩, h4, h⟩ := Run.bind_eq_done.mp h
        obtain ⟨m4, rfl⟩ := (promptUntilValid_done isRule_ValidateRegionCode h4).1
        cases rreg with
        | none =>
          simp only [Run.pure_eq_done, Prod.mk.injEq] at h
          obtain ⟨-, rfl, -⟩ := h
          exact ⟨rfl, rfl, rfl, rfl⟩
        | some regionCode =>
          simp only [Run.pure_eq_done, Prod.mk.injEq] at h
          exact absurd h.1 (by decide)

/-- C35 (cancelled operator entry of a candidate). When `AddCandidate` is cancelled in
the ID loop it returns false and nothing but `errorMessage` changes. When it is
cancelled in the name, symbol or region loop it returns false and one record holding
exactly the fields accepted so far, the others empty and zero votes, is appended to
`invalidCandidateList`, nothing else changing but `errorMessage`. Every run that returns
false leaves `validCandidateList`, `idSet`, `symbolSet` and `votesSet` as they were. -/
theorem C35_cancelled_candidate_entry (st : ElectionSystem) (p : Prompter) :
    (∀ st1 p1, promptUntilValid ValidateCandidateID st p = .done (none, st1, p1) →
      AddCandidate st p = .done (false, st1, p1) ∧ ∃ m, st1 = st.setError m) ∧
    (∀ id st1 p1 st2 p2,
      promptUntilValid ValidateCandidateID st p = .done (some id, st1, p1) →
      promptUntilValid ValidateCandidateName st1 p1 = .done (none, st2, p2) →
      ∃ m, AddCandidate st p = .done (false,
        { st.setError m with
          invalidCandidateList := st.invalidCandidateList ++ [⟨id, "", "", "", 0⟩] }, p2)) ∧
    (∀ id name st1 p1 st2 p2 st3 p3,
      promptUntilValid ValidateCandidateID st p = .done (some id, st1, p1) →
      promptUntilValid ValidateCandidateName st1 p1 = .done (some name, st2, p2) →
      promptUntilValid ValidatePartySymbol st2 p2 = .done (none, st3, p3) →
      ∃ m, AddCandidate st p = .done (false,
        { st.setError m with
          invalidCandidateList := st.invalidCandidateList ++ [⟨id, name, "", "", 0⟩] }, p3)) ∧
    (∀ id name symbol st1 p1 st2 p2 st3 p3 st4 p4,
      promptUntilValid ValidateCandidateID st p = .done (some id, st1, p1) →
      promptUntilValid ValidateCandidateName st1 p1 = .done (some name, st2, p2) →
      promptUntilValid ValidatePartySymbol st2 p2 = .done (some symbol, st3, p3) →
      promptUntilValid ValidateRegionCode st3 p3 = .done (none, st4, p4) →
      ∃ m, AddCandidate st p = .done (false,
        { st.setError m with
          invalidCandidateList := st.invalidCandidateList ++ [⟨id, name, symbol, "", 0⟩] },
        p4)) ∧
    (∀ st' p', AddCandidate st p = .done (false, st', p') →
      st'.validCandidateList = st.validCandidateList ∧ st'.idSet = st.idSet ∧
        st'.symbolSet = st.symbolSet ∧ st'.votesSet = st.votesSet) := by
  refine ⟨?_, ?_, ?_, ?_, fun st' p' h => AddCandidate_false_frame h⟩
  · intro st1 p1 h1
    refine ⟨?_, (promptUntilValid_done isRule_ValidateCandidateID h1).1⟩
    unfold AddCandidate
    rw [h1]
    rfl
  · intro id st1 p1 st2 p2 h1 h2
    obtain ⟨m1, e1⟩ := (promptUntilValid_done isRule_ValidateCandidateID h1).1
    obtain ⟨m2, e2⟩ := (promptUntilValid_done isRule_ValidateCandidateName h2).1
    refine ⟨m2, ?_⟩
    unfold AddCandidate
    rw [h1]
    show (promptUntilValid ValidateCandidateName st1 p1 >>= _) = _
    rw [h2, e2, e1]
    rfl
  · intro id name st1 p1 st2 p2 st3 p3 h1 h2 h3
    obtain ⟨m1, e1⟩ := (promptUntilValid_done isRule_ValidateCandidateID h1).1
    obtain ⟨m2, e2⟩ := (promptUntilValid_done isRule_ValidateCandidateName h2).1
    obtain ⟨m3, e3⟩ := (promptUntilValid_done isRule_ValidatePartySymbol h3).1
    refine ⟨m3, ?_⟩
    unfold AddCandidate
    rw [h1]
    show (promptUntilValid ValidateCandidateName st1 p1 >>= _) = _
    rw [h2]
    show (promptUntilValid ValidatePartySymbol st2 p2 >>= _) = _
    rw [h3, e3, e2, e1]
    rfl
  · intro id name symbol st1 p1 st2 p2 st3 p3 st4 p4 h1 h2 h3 h4
    obtain ⟨m1, e1⟩ := (promptUntilValid_done isRule_ValidateCandidateID h1).1
    obtain ⟨m2, e2⟩ := (promptUntilValid_done isRule_ValidateCandidateName h2).1
    obtain ⟨m3, e3⟩ := (promptUntilValid_done isRule_ValidatePartySymbol h3).1
    obtain ⟨m4, e4⟩ := (promptUntilValid_done isRule_ValidateRegionCode h4).1
    refine ⟨m4, ?_⟩
    unfold AddCandidate
    rw [h1]
    show (promptUntilValid ValidateCandidateName st1 p1 >>= _) = _
    rw [h2]
    show (promptUntilValid ValidatePartySymbol st2 p2 >>= _) = _
    rw [h3]
    show (promptUntilValid ValidateRegionCode st3 p3 >>= _) = _
    rw [h4, e4, e3, e2, e1]
    rfl

theorem C35_cancelled_candidate_entry_witness :
    (∃ m, AddCandidate ElectionSystem.empty ⟨["C1a", "Alice", "9"], ['n'], []⟩ =
      .done (false,
        { ElectionSystem.empty.setError m with
          invalidCandidateList :=
            ElectionSystem.empty.invalidCandidateList ++ [⟨"C1a", "Alice", "", "", 0⟩] },
        ⟨[], [], []⟩)) ∧
    (AddCandidate ElectionSystem.empty ⟨["CC"], ['n'], []⟩ =
        .done (false, ElectionSystem.empty.setError "Invalid Candidate ID format.",
          ⟨[], [], []⟩) ∧
      ∃ m, ElectionSystem.empty.setError "Invalid Candidate ID format."
        = ElectionSystem.empty.setError m) :=
  ⟨(C35_cancelled_candidate_entry ElectionSystem.empty ⟨["C1a", "Alice", "9"], ['n'], []⟩).2.2.1
      "C1a" "Alice" (ElectionSystem.empty.setError "") ⟨["Alice", "9"], ['n'], []⟩
      (ElectionSystem.empty.setError "") ⟨["9"], ['n'], []⟩
      (ElectionSystem.empty.setError "Invalid Party Symbol length.") ⟨[], [], []⟩ rfl rfl rfl,
    (C35_cancelled_candidate_entry ElectionSystem.empty ⟨["CC"], ['n'], []⟩).1
      (ElectionSystem.empty.setError "Invalid Candidate ID format.") ⟨[], [], []⟩ rfl⟩

/-! ## The effect of the candidate operations on the records -/

theorem CandidateEffect.of_fields {st st' : ElectionSystem}
    (hv : st'.validCandidateList = st.validCandidateList)
    (hvo : st'.validVoterList = st.validVoterList)
    (hi : st'.invalidCandidateList = st.invalidCandidateList)
    (hl : st'.votesSet = st.votesSet) : CandidateEffect st st' := by
  constructor
  · intro c' hc'
    rw [hv] at hc'
    exact Or.inl ⟨c', hc', rfl, rfl, id⟩
  · exact hvo
  · intro r hr
    rw [hi] at hr
    exact Or.inl hr
  · intro e he
    rw [hl] at he
    exact Or.inl he

theorem CandidateEffect_of_sameData {st st' : ElectionSystem} (h : SameData st st') :
    CandidateEffect st st' := by
  obtain ⟨m, rfl⟩ := h
  exact CandidateEffect.of_fields rfl rfl rfl rfl

/-- Two effects in a row, when the first did not take an ID out of `idSet`. -/
theorem CandidateEffect_trans {a b c : ElectionSystem} (h1 : CandidateEffect a b)
    (h2 : CandidateEffect b c) (hsub : a.idSet ⊆ b.idSet) : CandidateEffect a c := by
  constructor
  · intro x hx
    rcases h2.shape x hx with ⟨y, hy, hid, hvotes, hwf⟩ | ⟨hnew, hwf, hcount⟩
    · rcases h1.shape y hy with ⟨z, hz, hid', hvotes', hwf'⟩ | ⟨hnew', hwf', hcount'⟩
      · exact Or.inl ⟨z, hz, hid'.trans hid, hvotes'.trans hvotes, fun w => hwf (hwf' w)⟩
      · refine Or.inr ⟨?_, hwf hwf', ?_⟩
        · rw [← hid]
          exact hnew'
        · intro hr
          rw [← hvotes]
          exact hcount' hr
    · refine Or.inr ⟨fun hmem => hnew (hsub hmem), hwf, ?_⟩
      intro hr
      apply hcount
      intro r hrb
      rcases h1.rejected r hrb with h | h
      · exact hr r h
      · exact h
  · exact h2.voters.trans h1.voters
  · intro r hr
    rcases h2.rejected r hr with h | h
    · exact h1.rejected r h
    · exact Or.inr h
  · intro e he
    rcases h2.ledger e he with h | h
    · exact h1.ledger e h
    · exact Or.inr h

theorem wellFormed_of_validated {st1 st2 st3 st4 : ElectionSystem} {id name symbol reg : String}
    (n : Int) (h1 : (ValidateCandidateID st1 id).1 = true)
    (h2 : (ValidateCandidateName st2 name).1 = true)
    (h3 : (ValidatePartySymbol st3 symbol).1 = true)
    (h4 : (ValidateRegionCode st4 reg).1 = true) :
    WellFormedCandidate ⟨id, name, symbol, reg, n⟩ :=
  ⟨((ValidateCandidateID_iff st1 id).mp h1).2, (ValidateCandidateName_iff st2 name).mp h2,
    ((ValidatePartySymbol_iff st3 symbol).mp h3).1, (ValidateRegionCode_iff st4 reg).mp h4⟩

theorem AddCandidate_effect {st st' : ElectionSystem} {p p' : Prompter} {b : Bool}
    (h : AddCandidate st p = .done (b, st', p')) : CandidateEffect st st' := by
  unfold AddCandidate at h
  obtain ⟨⟨rid, st1, p1⟩, h1, h⟩ := Run.bind_eq_done.mp h
  obtain ⟨⟨m1, rfl⟩, v1⟩ := promptUntilValid_done isRule_ValidateCandidateID h1
  cases rid with
  | none =>
    simp only [Run.pure_eq_done, Prod.mk.injEq] at h
    obtain ⟨-, rfl, -⟩ := h
    exact CandidateEffect.of_fields rfl rfl rfl rfl
  | some id =>
    obtain ⟨⟨rname, st2, p2⟩, h2, h⟩ := Run.bind_eq_done.mp h
    obtain ⟨⟨m2, rfl⟩, v2⟩ := promptUntilValid_done isRule_ValidateCandidateName h2
    have cancelled : ∀ (m : String) (r : Candidate), r.numOfVotes = 0 →
        CandidateEffect st { st.setError m with
          invalidCandidateList := st.invalidCandidateList ++ [r] } := by
      intro m r hr
      refine ⟨fun c' hc' => Or.inl ⟨c', hc', rfl, rfl, fun w => w⟩, rfl, ?_, fun e he => Or.inl he⟩
      intro x hx
      rcases List.mem_append.mp hx with hx | hx
      · exact Or.inl hx
      · rw [List.mem_singleton.mp hx, hr]
        exact Or.inr (le_refl _)
    cases rname with
    | none =>
      simp only [Run.pure_eq_done, Prod.mk.injEq] at h
      obtain ⟨-, rfl, -⟩ := h
      exact cancelled _ _ rfl
    | some name =>
      obtain ⟨⟨rsym, st3, p3⟩, h3, h⟩ := Run.bind_eq_done.mp h
      obtain ⟨⟨m3, rfl⟩, v3⟩ := promptUntilValid_done isRule_ValidatePartySymbol h3
      cases rsym with
      | none =>
        simp only [Run.pure_eq_done, Prod.mk.injEq] at h
        obtain ⟨-, rfl, -⟩ := h
        exact cancelled _ _ rfl
      | some symbol =>
        obtain ⟨⟨rreg, st4, p4⟩, h4, h⟩ := Run.bind_eq_done.mp h
        obtain ⟨⟨m4, rfl⟩, v4⟩ := promptUntilValid_done isRule_ValidateRegionCode h4
        cases rreg with
        | none =>
          simp only [Run.pure_eq_done, Prod.mk.injEq] at h
          obtain ⟨-, rfl, -⟩ := h
          exact cancelled _ _ rfl
        | some regionCode =>
          simp only [Run.pure_eq_done, Prod.mk.injEq] at h
          obtain ⟨-, rfl, -⟩ := h
          refine ⟨?_, rfl, fun r hr => Or.inl hr, fun e he => Or.inl he⟩
          intro c' hc'
          rcases List.mem_append.mp hc' with hc' | hc'
          · exact Or.inl ⟨c', hc', rfl, rfl, fun w => w⟩
          · rw [List.mem_singleton.mp hc']
            exact Or.inr ⟨ValidateCandidateID_true (v1 id rfl),
              wellFormed_of_validated 0 (v1 id rfl) (v2 name rfl) (v3 symbol rfl)
                (v4 regionCode rfl), fun _ => le_refl _⟩

theorem mem_mapAssign {m : VoteMap} {k : String} {v : Int} {e : String × Int}
    (h : e ∈ mapAssign m k v) : e ∈ m ∨ e.2 = v := by
  induction m with
  | nil =>
    simp only [mapAssign, List.mem_singleton] at h
    rw [h]
    exact Or.inr rfl
  | cons x xs ih =>
    obtain ⟨k', v'⟩ := x
    simp only [mapAssign] at h
    split at h
    · rcases List.mem_cons.mp h with h | h
      · rw [h]
        exact Or.inr rfl
      · exact Or.inl (List.mem_cons_of_mem _ h)
    · split at h
      · rcases List.mem_cons.mp h with h | h
        · rw [h]
          exact Or.inr rfl
        · exact Or.inl h
      · rcases List.mem_cons.mp h with h | h
        · rw [h]
          exact Or.inl (List.mem_cons_self _ _)
        · rcases ih h with h | h
          · exact Or.inl (List.mem_cons_of_mem _ h)
          · exact Or.inr h

theorem parsedCount_nonneg (row : CandidateRow) : 0 ≤ row.parsedCount := by
  rw [parsedCount_eq]
  split
  · exact Int.ofNat_nonneg _
  · exact le_refl _

theorem CandidateCsvCheck_line_effect (st : ElectionSystem) (row : CandidateRow) :
    CandidateEffect st (CandidateCsvCheck.line st row) ∧
      st.idSet ⊆ (CandidateCsvCheck.line st row).idSet := by
  by_cases hid : row.id = ""
  · have hline : CandidateCsvCheck.line st row = st := by
      unfold CandidateCsvCheck.line
      rw [hid]
      rfl
    rw [hline]
    exact ⟨CandidateEffect.of_fields rfl rfl rfl rfl, Finset.Subset.refl _⟩
  · cases hp : row.passes st with
    | true =>
      rw [CandidateCsvCheck_line_of_passes st row hid hp]
      refine ⟨⟨?_, rfl, fun r hr => Or.inl hr, ?_⟩, Finset.subset_insert _ _⟩
      · intro c' hc'
        rcases List.mem_append.mp hc' with hc' | hc'
        · exact Or.inl ⟨c', hc', rfl, rfl, fun w => w⟩
        · rw [List.mem_singleton.mp hc']
          simp only [CandidateRow.passes, Bool.and_eq_true] at hp
          exact Or.inr ⟨ValidateCandidateID_true hp.1.1.1,
            wellFormed_of_validated _ hp.1.1.1 hp.1.1.2 hp.1.2 hp.2,
            fun _ => parsedCount_nonneg row⟩
      · intro e he
        rcases mem_mapAssign he with h | h
        · exact Or.inl h
        · rw [h]
          exact Or.inr (parsedCount_nonneg row)
    | false =>
      obtain ⟨m, e⟩ := CandidateCsvCheck_line_of_fails st row hid hp
      rw [e]
      refine ⟨⟨fun c' hc' => Or.inl ⟨c', hc', rfl, rfl, fun w => w⟩, rfl, ?_,
        fun e he => Or.inl he⟩, Finset.Subset.refl _⟩
      intro r hr
      rcases List.mem_append.mp hr with hr | hr
      · exact Or.inl hr
      · rw [List.mem_singleton.mp hr]
        exact Or.inr (parsedCount_nonneg row)

theorem CandidateCsvCheck_effect (file : Option (List CandidateRow)) (st : ElectionSystem) :
    CandidateEffect st (CandidateCsvCheck file st).2 := by
  cases file with
  | none => exact CandidateEffect.of_fields rfl rfl rfl rfl
  | some rows =>
    simp only [CandidateCsvCheck]
    induction rows generalizing st with
    | nil => exact CandidateEffect.of_fields rfl rfl rfl rfl
    | cons row rows ih =>
      rw [List.foldl_cons]
      exact CandidateEffect_trans (CandidateCsvCheck_line_effect st row).1 (ih _)
        (CandidateCsvCheck_line_effect st row).2

theorem CandidateEffect.of_admitted {st st' : ElectionSystem} (c : Candidate)
    (hv : st'.validCandidateList = st.validCandidateList ++ [c])
    (hvo : st'.validVoterList = st.validVoterList)
    (hi : ∀ r ∈ st'.invalidCandidateList, r ∈ st.invalidCandidateList)
    (hl : st'.votesSet = st.votesSet)
    (hnew : c.candidateID ∉ st.idSet) (hwf : WellFormedCandidate c)
    (hcount : (∀ r ∈ st.invalidCandidateList, 0 ≤ r.numOfVotes) → 0 ≤ c.numOfVotes) :
    CandidateEffect st st' := by
  constructor
  · intro c' hc'
    rw [hv] at hc'
    rcases List.mem_append.mp hc' with hc' | hc'
    · exact Or.inl ⟨c', hc', rfl, rfl, fun w => w⟩
    · rw [List.mem_singleton.mp hc']
      exact Or.inr ⟨hnew, hwf, hcount⟩
  · exact hvo
  · exact fun r hr => Or.inl (hi r hr)
  · intro e he
    rw [hl] at he
    exact Or.inl he

theorem FillMissingCandidateInfo_scan_subset :
    ∀ (l : List Candidate) (st : ElectionSystem),
      ∀ x ∈ (FillMissingCandidateInfo.scan st l).1, x ∈ l := by
  intro l
  induction l with
  | nil =>
    intro st x hx
    simp [FillMissingCandidateInfo.scan] at hx
  | cons c cs ih =>
    intro st x hx
    simp only [FillMissingCandidateInfo.scan] at hx
    split at hx
    · rcases List.mem_cons.mp hx with hx | hx
      · rw [hx]
        exact List.mem_cons_self _ _
      · exact List.mem_cons_of_mem _ (ih _ x hx)
    · exact List.mem_cons_of_mem _ (ih _ x hx)

theorem FillMissingCandidateInfo_repair_effect {st st' : ElectionSystem}
    {p p' : Prompter} {temp : List Candidate} {k : Nat} {modify : Candidate} {b : Bool}
    (h : FillMissingCandidateInfo.repair st p temp k modify = .done (b, st', p'))
    (htemp : ∀ x ∈ temp, x ∈ st.invalidCandidateList) (hmod : modify ∈ temp) :
    CandidateEffect st st' := by
  unfold FillMissingCandidateInfo.repair at h
  obtain ⟨⟨rid, st1, p1⟩, h1, h⟩ := Run.bind_eq_done.mp h
  obtain ⟨⟨m1, rfl⟩, v1⟩ := repairSlot_done isRule_ValidateCandidateID h1
  cases rid with
  | none =>
    simp only [Run.pure_eq_done, Prod.mk.injEq] at h
    obtain ⟨-, rfl, -⟩ := h
    exact CandidateEffect.of_fields rfl rfl rfl rfl
  | some r1 =>
    obtain ⟨mid, entered⟩ := r1
    dsimp only at h
    obtain ⟨⟨rname, st2, p2⟩, h2, h⟩ := Run.bind_eq_done.mp h
    obtain ⟨⟨m2, rfl⟩, v2⟩ := repairSlot_done isRule_ValidateCandidateName h2
    cases rname with
    | none =>
      simp only [Run.pure_eq_done, Prod.mk.injEq] at h
      obtain ⟨-, rfl, -⟩ := h
      cases entered <;> exact CandidateEffect.of_fields rfl rfl rfl rfl
    | some r2 =>
      obtain ⟨mname, e2⟩ := r2
      dsimp only at h
      obtain ⟨⟨rsym, st3, p3⟩, h3, h⟩ := Run.bind_eq_done.mp h
      obtain ⟨⟨m3, rfl⟩, v3⟩ := repairSlot_done isRule_ValidatePartySymbol h3
      cases rsym with
      | none =>
        simp only [Run.pure_eq_done, Prod.mk.injEq] at h
        obtain ⟨-, rfl, -⟩ := h
        cases entered <;> exact CandidateEffect.of_fields rfl rfl rfl rfl
      | some r3 =>
        obtain ⟨msymbol, enteredSym⟩ := r3
        dsimp only at h
        obtain ⟨⟨rreg, st4, p4⟩, h4, h⟩ := Run.bind_eq_done.mp h
        obtain ⟨⟨m4, rfl⟩, v4⟩ := repairSlot_done isRule_ValidateRegionCode h4
        cases rreg with
        | none =>
          simp only [Run.pure_eq_done, Prod.mk.injEq] at h
          obtain ⟨-, rfl, -⟩ := h
          cases entered <;> cases enteredSym <;> exact CandidateEffect.of_fields rfl rfl rfl rfl
        | some r4 =>
          obtain ⟨mreg, e4⟩ := r4
          simp only [Run.pure_eq_done, Prod.mk.injEq] at h
          obtain ⟨-, rfl, -⟩ := h
          have hwf : WellFormedCandidate ⟨mid, mname, msymbol, mreg, modify.numOfVotes⟩ :=
            wellFormed_of_validated _ (v1 mid entered rfl) (v2 mname e2 rfl)
              (v3 msymbol enteredSym rfl) (v4 mreg e4 rfl)
          have hsub : ∀ r ∈ temp.eraseIdx k, r ∈ st.invalidCandidateList :=
            fun r hr => htemp r ((List.eraseIdx_sublist temp k).subset hr)
          refine CandidateEffect.of_admitted ⟨mid, mname, msymbol, mreg, modify.numOfVotes⟩
            ?_ ?_ ?_ ?_ (ValidateCandidateID_true (v1 mid entered rfl)) hwf
            (fun hr => hr modify (htemp modify hmod))
          · cases entered <;> cases enteredSym <;> simp only [ElectionSystem.setError, ite_true,
              ite_false, Bool.false_eq_true]
          · cases entered <;> cases enteredSym <;> simp only [ElectionSystem.setError, ite_true,
              ite_false, Bool.false_eq_true]
          · intro r hr
            apply hsub
            cases entered <;> cases enteredSym <;> exact hr
          · cases entered <;> cases enteredSym <;> simp only [ElectionSystem.setError, ite_true,
              ite_false, Bool.false_eq_true]

theorem FillMissingCandidateInfo_menu_effect (temp : List Candidate) :
    ∀ (ns : List Int) (st : ElectionSystem) (ss : List String) (cs : List Char)
      (b : Bool) (st' : ElectionSystem) (p' : Prompter),
      FillMissingCandidateInfo.menu temp st ns ss cs = .done (b, st', p') →
      (∀ x ∈ temp, x ∈ st.invalidCandidateList) → CandidateEffect st st' := by
  intro ns
  induction ns with
  | nil => intro st ss cs b st' p' h; simp [FillMissingCandidateInfo.menu] at h
  | cons n ns ih =>
    intro st ss cs b st' p' h htemp
    rw [FillMissingCandidateInfo_menu_cons] at h
    split at h
    · split at h
      · rename_i modify hget
        exact FillMissingCandidateInfo_repair_effect h htemp (List.getElem?_mem hget)
      · simp at h
    · split at h
      · simp at h
      · split at h
        · simp only [Run.done.injEq, Prod.mk.injEq] at h
          obtain ⟨-, rfl, -⟩ := h
          exact CandidateEffect.of_fields rfl rfl rfl rfl
        · exact ih _ _ _ _ _ _ h htemp

theorem FillMissingCandidateInfo_effect {st st' : ElectionSystem} {p p' : Prompter}
    {b : Bool} (h : FillMissingCandidateInfo st p = .done (b, st', p')) :
    CandidateEffect st st' := by
  unfold FillMissingCandidateInfo at h
  obtain ⟨m, hs⟩ := FillMissingCandidateInfo_scan_sameData st.invalidCandidateList st
  have hsub := FillMissingCandidateInfo_scan_subset st.invalidCandidateList st
  dsimp only at h
  split at h
  · have := FillMissingCandidateInfo_menu_effect _ _ _ _ _ _ _ _ h (by
      rw [hs]
      exact hsub)
    rw [hs] at this
    exact CandidateEffect_trans (CandidateEffect_of_sameData ⟨m, rfl⟩) this (Finset.Subset.refl _)
  · simp only [Run.done.injEq, Prod.mk.injEq] at h
    obtain ⟨-, rfl, -⟩ := h
    exact CandidateEffect_of_sameData ⟨m, hs⟩

theorem CandidateEffect.of_amended {st st' : ElectionSystem} (pred : Candidate → Bool)
    (f : Candidate → Candidate)
    (hf : ∀ c, (f c).candidateID = c.candidateID ∧ (f c).numOfVotes = c.numOfVotes ∧
      (WellFormedCandidate c → WellFormedCandidate (f c)))
    (hv : st'.validCandidateList = setFirst pred f st.validCandidateList)
    (hvo : st'.validVoterList = st.validVoterList)
    (hi : st'.invalidCandidateList = st.invalidCandidateList)
    (hl : st'.votesSet = st.votesSet) : CandidateEffect st st' := by
  constructor
  · intro c' hc'
    rw [hv] at hc'
    rcases mem_setFirst pred f _ c' hc' with h | ⟨x, hx, -, rfl⟩
    · exact Or.inl ⟨c', h, rfl, rfl, fun w => w⟩
    · exact Or.inl ⟨x, hx, (hf x).1.symm, (hf x).2.1.symm, (hf x).2.2⟩
  · exact hvo
  · intro r hr
    rw [hi] at hr
    exact Or.inl hr
  · intro e he
    rw [hl] at he
    exact Or.inl he

theorem ModifyCandidate_menu_effect (candidateID : String) :
    ∀ (ns : List Int) (st : ElectionSystem) (ss : List String) (cs : List Char)
      (b : Bool) (st' : ElectionSystem) (p' : Prompter),
      ModifyCandidate.menu candidateID st ns ss cs = .done (b, st', p') →
      CandidateEffect st st' := by
  intro ns
  induction ns with
  | nil => intro st ss cs b st' p' h; simp [ModifyCandidate.menu] at h
  | cons n ns ih =>
    intro st ss cs b st' p' h
    rw [ModifyCandidate_menu_cons] at h
    split at h
    · obtain ⟨⟨r, st1, p1⟩, h1, h⟩ := Run.bind_eq_done.mp h
      obtain ⟨⟨m1, rfl⟩, v1⟩ := promptUntilValid_done isRule_ValidateCandidateName h1
      cases r with
      | none =>
        simp only [Run.pure_eq_done, Prod.mk.injEq] at h
        obtain ⟨-, rfl, -⟩ := h
        exact CandidateEffect.of_fields rfl rfl rfl rfl
      | some newName =>
        simp only [Run.pure_eq_done, Prod.mk.injEq] at h
        obtain ⟨-, rfl, -⟩ := h
        refine CandidateEffect.of_amended _ _ ?_ rfl rfl rfl rfl
        intro c
        exact ⟨rfl, rfl, fun w =>
          ⟨w.1, (ValidateCandidateName_iff st newName).mp (v1 _ rfl), w.2.2.1, w.2.2.2⟩⟩
    · split at h
      · obtain ⟨⟨r, st1, p1⟩, h1, h⟩ := Run.bind_eq_done.mp h
        obtain ⟨⟨m1, rfl⟩, v1⟩ := promptUntilValid_done isRule_ValidatePartySymbol h1
        cases r with
        | none =>
          simp only [Run.pure_eq_done, Prod.mk.injEq] at h
          obtain ⟨-, rfl, -⟩ := h
          exact CandidateEffect.of_fields rfl rfl rfl rfl
        | some newPartySymbol =>
          simp only [Run.pure_eq_done, Prod.mk.injEq] at h
          obtain ⟨-, rfl, -⟩ := h
          refine CandidateEffect.of_amended _ _ ?_ rfl rfl rfl rfl
          intro c
          exact ⟨rfl, rfl, fun w =>
            ⟨w.1, w.2.1, ((ValidatePartySymbol_iff st newPartySymbol).mp (v1 _ rfl)).1,
              w.2.2.2⟩⟩
      · split at h
        · obtain ⟨⟨r, st1, p1⟩, h1, h⟩ := Run.bind_eq_done.mp h
          obtain ⟨⟨m1, rfl⟩, v1⟩ := promptUntilValid_done isRule_ValidateRegionCode h1
          cases r with
          | none =>
            simp only [Run.pure_eq_done, Prod.mk.injEq] at h
            obtain ⟨-, rfl, -⟩ := h
            exact CandidateEffect.of_fields rfl rfl rfl rfl
          | some newRegionCode =>
            simp only [Run.pure_eq_done, Prod.mk.injEq] at h
            obtain ⟨-, rfl, -⟩ := h
            refine CandidateEffect.of_amended _ _ ?_ rfl rfl rfl rfl
            intro c
            exact ⟨rfl, rfl, fun w =>
              ⟨w.1, w.2.1, w.2.2.1, (ValidateRegionCode_iff st newRegionCode).mp (v1 _ rfl)⟩⟩
        · split at h
          · simp at h
          · split at h
            · simp only [Run.done.injEq, Prod.mk.injEq] at h
              obtain ⟨-, rfl, -⟩ := h
              exact CandidateEffect.of_fields rfl rfl rfl rfl
            · exact ih _ _ _ _ _ _ h

theorem ModifyCandidate_effect {st st' : ElectionSystem} {p p' : Prompter} {b : Bool}
    (h : ModifyCandidate st p = .done (b, st', p')) : CandidateEffect st st' := by
  unfold ModifyCandidate at h
  split at h
  · simp only [Run.done.injEq, Prod.mk.injEq] at h
    obtain ⟨-, rfl, -⟩ := h
    exact CandidateEffect.of_fields rfl rfl rfl rfl
  · obtain ⟨⟨r, st1, p1⟩, h1, h⟩ := Run.bind_eq_done.mp h
    obtain ⟨⟨m1, rfl⟩, -⟩ := promptUntilValid_done isRule_candidateListed h1
    cases r with
    | none =>
      simp only [Run.pure_eq_done, Prod.mk.injEq] at h
      obtain ⟨-, rfl, -⟩ := h
      exact CandidateEffect.of_fields rfl rfl rfl rfl
    | some candidateID =>
      exact CandidateEffect_trans (CandidateEffect_of_sameData ⟨m1, rfl⟩)
        (ModifyCandidate_menu_effect candidateID _ _ _ _ _ _ _ h) (Finset.Subset.refl _)

theorem RemoveCandidate_effect {st st' : ElectionSystem} {p p' : Prompter} {b : Bool}
    (h : RemoveCandidate st p = .done (b, st', p')) : CandidateEffect st st' := by
  unfold RemoveCandidate at h
  split at h
  · simp only [Run.done.injEq, Prod.mk.injEq] at h
    obtain ⟨-, rfl, -⟩ := h
    exact CandidateEffect.of_fields rfl rfl rfl rfl
  · obtain ⟨⟨r, st1, p1⟩, h1, h⟩ := Run.bind_eq_done.mp h
    obtain ⟨⟨m1, rfl⟩, -⟩ := promptUntilValid_done isRule_candidateListed h1
    cases r with
    | none =>
      simp only [Run.pure_eq_done, Prod.mk.injEq] at h
      obtain ⟨-, rfl, -⟩ := h
      exact CandidateEffect.of_fields rfl rfl rfl rfl
    | some candidateID =>
      simp only [Run.pure_eq_done, Prod.mk.injEq] at h
      obtain ⟨-, rfl, -⟩ := h
      refine ⟨?_, rfl, fun r hr => Or.inl hr, ?_⟩
      · intro c' hc'
        exact Or.inl ⟨c', (List.eraseP_sublist _).subset hc', rfl, rfl, fun w => w⟩
      · intro e he
        exact Or.inl (List.mem_of_mem_filter he)

/-! ## The voter operations keep the identifiers well-formed -/

theorem aadharFormat_of_ValidateNewAadhar {st : ElectionSystem} {aadhar : String}
    (h : (ValidateNewAadhar st aadhar).1 = true) : AadharFormat aadhar := by
  unfold ValidateNewAadhar at h
  dsimp only at h
  split at h
  · rename_i hv
    exact (IsValidAadhar_iff st aadhar).mp hv
  · exact Bool.noConfusion h

theorem VotersWellFormed.append {l : List Voter} (h : VotersWellFormed l) (v : Voter)
    (hv : AadharFormat v.aadhaarID) : VotersWellFormed (l ++ [v]) := by
  intro w hw
  rcases List.mem_append.mp hw with hw | hw
  · exact h w hw
  · rw [List.mem_singleton.mp hw]
    exact hv

theorem VotersWellFormed.set {l : List Voter} (h : VotersWellFormed l) (k : Nat) (v : Voter)
    (hv : AadharFormat v.aadhaarID) : VotersWellFormed (l.set k v) := by
  intro w hw
  rcases List.mem_or_eq_of_mem_set hw with hw | hw
  · exact h w hw
  · rw [hw]
    exact hv

theorem VoterCsvCheck_line_votersWellFormed (st : ElectionSystem)
    (row : String × Option String) (h : VotersWellFormed st.validVoterList) :
    VotersWellFormed (VoterCsvCheck.line st row).validVoterList := by
  obtain ⟨aadhar, status⟩ := row
  by_cases hp : ∃ s, status = some s ∧ voterRowPasses st aadhar s = true
  · obtain ⟨s, rfl, hp⟩ := hp
    rw [VoterCsvCheck_line_of_passes st aadhar s hp]
    apply h.append
    simp only [voterRowPasses, Bool.and_eq_true] at hp
    exact (IsValidAadhar_iff st aadhar).mp hp.1.1
  · obtain ⟨m, e⟩ := VoterCsvCheck_line_of_refused st aadhar status (by
      intro s hs
      rw [Bool.eq_false_iff]
      exact fun hh => hp ⟨s, hs, hh⟩)
    rw [e]
    exact h

theorem VoterCsvCheck_votersWellFormed (file : Option (List (String × Option String)))
    (st : ElectionSystem) (h : VotersWellFormed st.validVoterList) :
    VotersWellFormed (VoterCsvCheck file st).2.validVoterList := by
  cases file with
  | none => exact h
  | some rows =>
    simp only [VoterCsvCheck]
    induction rows generalizing st with
    | nil => exact h
    | cons row rows ih =>
      rw [List.foldl_cons]
      exact ih _ (VoterCsvCheck_line_votersWellFormed st row h)

theorem AddVoter_votersWellFormed {st st' : ElectionSystem} {p p' : Prompter} {b : Bool}
    (h : AddVoter st p = .done (b, st', p')) (hv : VotersWellFormed st.validVoterList) :
    VotersWellFormed st'.validVoterList := by
  unfold AddVoter at h
  obtain ⟨⟨r, st1, p1⟩, h1, h⟩ := Run.bind_eq_done.mp h
  obtain ⟨⟨m1, rfl⟩, v1⟩ := promptUntilValid_done isRule_ValidateNewAadhar h1
  cases r with
  | none =>
    simp only [Run.pure_eq_done, Prod.mk.injEq] at h
    obtain ⟨-, rfl, -⟩ := h
    exact hv
  | some aadhar =>
    simp only [Run.pure_eq_done, Prod.mk.injEq] at h
    obtain ⟨-, rfl, -⟩ := h
    exact hv.append _ (aadharFormat_of_ValidateNewAadhar (v1 _ rfl))

theorem ModifyVoter_update_votersWellFormed {st st' : ElectionSystem} {p p' : Prompter}
    {k : Nat} {voter : Voter} {updateChoice : Int} {b : Bool}
    {r : Run (Bool × ElectionSystem × Prompter)}
    (hr : ModifyVoter.update st p k voter updateChoice = some r)
    (h : r = .done (b, st', p')) (hv : VotersWellFormed st.validVoterList)
    (hvoter : AadharFormat voter.aadhaarID) : VotersWellFormed st'.validVoterList := by
  unfold ModifyVoter.update at hr
  split at hr
  · simp only [Option.some.injEq] at hr
    subst hr
    split at h
    · obtain ⟨⟨r1, st1, p1⟩, h1, h⟩ := Run.bind_eq_done.mp h
      obtain ⟨⟨m1, rfl⟩, v1⟩ := promptUntilValid_done isRule_ValidateNewAadhar h1
      cases r1 with
      | none =>
        simp only [Run.pure_eq_done, Prod.mk.injEq] at h
        obtain ⟨-, rfl, -⟩ := h
        exact hv
      | some aadhar =>
        simp only [Run.pure_eq_done, Prod.mk.injEq] at h
        obtain ⟨-, rfl, -⟩ := h
        exact hv.set k _ (aadharFormat_of_ValidateNewAadhar (v1 _ rfl))
    · simp at h
  · split at hr
    · simp only [Option.some.injEq] at hr
      subst hr
      split at h
      · rename_i status st1 ss heq
        obtain ⟨m1, rfl⟩ := ModifyVoter_statusLoop_sameData _ _ _ _ _ heq
        simp only [Run.done.injEq, Prod.mk.injEq] at h
        obtain ⟨-, rfl, -⟩ := h
        exact hv.set k _ hvoter
      · simp at h
      · simp at h
    · simp at hr

theorem ModifyVoter_menu_votersWellFormed :
    ∀ (n : Nat) (ns : List Int), ns.length ≤ n → ∀ (st : ElectionSystem) (ss : List String)
      (cs : List Char) (b : Bool) (st' : ElectionSystem) (p' : Prompter),
      ModifyVoter.menu st ns ss cs = .done (b, st', p') →
      VotersWellFormed st.validVoterList → VotersWellFormed st'.validVoterList := by
  intro n
  induction n with
  | zero =>
    intro ns hn st ss cs b st' p' h
    have : ns = [] := List.length_eq_zero.mp (Nat.le_zero.mp hn)
    subst this
    simp [ModifyVoter.menu] at h
  | succ n ih =>
    intro ns hn st ss cs b st' p' h hv
    cases ns with
    | nil => simp [ModifyVoter.menu] at h
    | cons c1 ns =>
      rw [ModifyVoter_menu_cons] at h
      simp only [List.length_cons, Nat.add_le_add_iff_right] at hn
      split at h
      · split at h
        · simp at h
        · rename_i voter hget
          split at h
          · simp at h
          · rename_i c2 ns2
            split at h
            · rename_i r hr
              exact ModifyVoter_update_votersWellFormed hr h hv
                (hv voter (List.getElem?_mem hget))
            · simp only [List.length_cons] at hn
              exact ih ns2 (by omega) _ _ _ _ _ _ h hv
      · split at h
        · simp at h
        · split at h
          · simp only [Run.done.injEq, Prod.mk.injEq] at h
            obtain ⟨-, rfl, -⟩ := h
            exact hv
          · exact ih ns hn _ _ _ _ _ _ h hv

theorem ModifyVoter_votersWellFormed {st st' : ElectionSystem} {p p' : Prompter} {b : Bool}
    (h : ModifyVoter st p = .done (b, st', p')) (hv : VotersWellFormed st.validVoterList) :
    VotersWellFormed st'.validVoterList := by
  unfold ModifyVoter at h
  split at h
  · simp only [Run.done.injEq, Prod.mk.injEq] at h
    obtain ⟨-, rfl, -⟩ := h
    exact hv
  · exact ModifyVoter_menu_votersWellFormed _ _ (Nat.le_refl _) _ _ _ _ _ _ h hv

theorem RemoveVoter_votersWellFormed {st st' : ElectionSystem} {p p' : Prompter} {b : Bool}
    (h : RemoveVoter st p = .done (b, st', p')) (hv : VotersWellFormed st.validVoterList) :
    VotersWellFormed st'.validVoterList := by
  unfold RemoveVoter at h
  split at h
  · simp only [Run.done.injEq, Prod.mk.injEq] at h
    obtain ⟨-, rfl, -⟩ := h
    exact hv
  · obtain ⟨⟨r, st1, p1⟩, h1, h⟩ := Run.bind_eq_done.mp h
    obtain ⟨⟨m1, rfl⟩, -⟩ := promptUntilValid_done isRule_IsValidAadhar h1
    cases r with
    | none =>
      simp only [Run.pure_eq_done, Prod.mk.injEq] at h
      obtain ⟨-, rfl, -⟩ := h
      exact hv
    | some aadharID =>
      dsimp only at h
      split at h
      · split at h
        · simp only [Run.pure_eq_done, Prod.mk.injEq] at h
          obtain ⟨-, rfl, -⟩ := h
          intro w hw
          exact hv w ((List.eraseP_sublist _).subset hw)
        · simp at h
      · simp only [Run.pure_eq_done, Prod.mk.injEq] at h
        obtain ⟨-, rfl, -⟩ := h
        exact hv

theorem FillMissingVoterInfo_repair_votersWellFormed {st st' : ElectionSystem}
    {p p' : Prompter} {k : Nat} {pair : String × String} {b : Bool}
    (h : FillMissingVoterInfo.repair st p k pair = .done (b, st', p'))
    (hv : VotersWellFormed st.validVoterList) : VotersWellFormed st'.validVoterList := by
  unfold FillMissingVoterInfo.repair at h
  obtain ⟨⟨ra, st1, p1⟩, h1, h⟩ := Run.bind_eq_done.mp h
  obtain ⟨⟨m1, rfl⟩, v1⟩ := repairSlot_done isRule_ValidateNewAadhar h1
  cases ra with
  | none =>
    simp only [Run.pure_eq_done, Prod.mk.injEq] at h
    obtain ⟨-, rfl, -⟩ := h
    exact hv
  | some ra =>
    obtain ⟨aadhar, e1⟩ := ra
    dsimp only at h
    obtain ⟨⟨rs, st2, p2⟩, h2, h⟩ := Run.bind_eq_done.mp h
    obtain ⟨⟨m2, rfl⟩, -⟩ := repairSlot_done isRule_IsValidStatus h2
    cases rs with
    | none =>
      simp only [Run.pure_eq_done, Prod.mk.injEq] at h
      obtain ⟨-, rfl, -⟩ := h
      exact hv
    | some rs =>
      simp only [Run.pure_eq_done, Prod.mk.injEq] at h
      obtain ⟨-, rfl, -⟩ := h
      exact hv.append _ (aadharFormat_of_ValidateNewAadhar (v1 _ _ rfl))

theorem FillMissingVoterInfo_menu_votersWellFormed :
    ∀ (ns : List Int) (st : ElectionSystem) (ss : List String) (cs : List Char)
      (b : Bool) (st' : ElectionSystem) (p' : Prompter),
      FillMissingVoterInfo.menu st ns ss cs = .done (b, st', p') →
      VotersWellFormed st.validVoterList → VotersWellFormed st'.validVoterList := by
  intro ns
  induction ns with
  | nil => intro st ss cs b st' p' h; simp [FillMissingVoterInfo.menu] at h
  | cons n ns ih =>
    intro st ss cs b st' p' h hv
    rw [FillMissingVoterInfo_menu_cons] at h
    split at h
    · split at h
      · exact FillMissingVoterInfo_repair_votersWellFormed h hv
      · simp at h
    · split at h
      · simp at h
      · split at h
        · simp only [Run.done.injEq, Prod.mk.injEq] at h
          obtain ⟨-, rfl, -⟩ := h
          exact hv
        · exact ih _ _ _ _ _ _ h hv

theorem FillMissingVoterInfo_votersWellFormed {st st' : ElectionSystem} {p p' : Prompter}
    {b : Bool} (h : FillMissingVoterInfo st p = .done (b, st', p'))
    (hv : VotersWellFormed st.validVoterList) : VotersWellFormed st'.validVoterList := by
  unfold FillMissingVoterInfo at h
  split at h
  · simp only [Run.done.injEq, Prod.mk.injEq] at h
    obtain ⟨-, rfl, -⟩ := h
    exact hv
  · exact FillMissingVoterInfo_menu_votersWellFormed _ _ _ _ _ _ _ h hv

/-! ## Well-formed records in every reachable state -/

theorem WellFormedRecords_empty : WellFormedRecords ElectionSystem.empty :=
  ⟨fun _ h => absurd h (List.not_mem_nil _), fun _ h => absurd h (List.not_mem_nil _),
    fun _ h => absurd h (List.not_mem_nil _)⟩

theorem WellFormedRecords_of_effect {st st' : ElectionSystem} (h : WellFormedRecords st)
    (heff : CandidateEffect st st') : WellFormedRecords st' := by
  constructor
  · intro c' hc'
    rcases heff.shape c' hc' with ⟨c, hc, -, -, hwf⟩ | ⟨-, hwf, -⟩
    · exact hwf (h.candidates c hc)
    · exact hwf
  · rw [heff.voters]
    exact h.voters
  · intro r hr
    rcases heff.rejected r hr with hr | hr
    · exact h.rejected r hr
    · exact hr

theorem WellFormedRecords.of_voters {st st' : ElectionSystem} (h : WellFormedRecords st)
    (hd : CandidateData st' = CandidateData st)
    (hv : VotersWellFormed st'.validVoterList) : WellFormedRecords st' := by
  simp only [CandidateData, Prod.mk.injEq] at hd
  obtain ⟨h1, h2, -, -, -⟩ := hd
  constructor
  · rw [h1]
    exact h.candidates
  · exact hv
  · rw [h2]
    exact h.rejected

theorem CastVote_commit_wellFormed (st : ElectionSystem) (candidateID aadhaarID : String)
    (h : WellFormedRecords st) : WellFormedRecords (CastVote.commit st candidateID aadhaarID) := by
  unfold CastVote.commit
  split
  · constructor
    · intro c' hc'
      rcases mem_setFirst _ _ _ c' hc' with hc' | ⟨x, hx, -, rfl⟩
      · exact h.candidates c' hc'
      · exact h.candidates x hx
    · intro v' hv'
      rcases mem_setFirst _ _ _ v' hv' with hv' | ⟨x, hx, -, rfl⟩
      · exact h.voters v' hv'
      · exact h.voters x hx
    · exact h.rejected
  · exact h

theorem IndividualResult_done {st st' : ElectionSystem} {p p' : Prompter} {b : Bool}
    (h : IndividualResult st p = .done (b, st', p')) :
    st' = st ∨ ∃ candidateID, st' = { st with votesSet := mapTouch st.votesSet candidateID } := by
  unfold IndividualResult at h
  obtain ⟨⟨r, st1, p1⟩, h1, h⟩ := Run.bind_eq_done.mp h
  have hst1 : st1 = st :=
    promptUntilValid_reader (fun s candidateID => decide (candidateID ∈ s.idSet)) h1
  subst hst1
  cases r with
  | none =>
    simp only [Run.pure_eq_done, Prod.mk.injEq] at h
    exact Or.inl h.2.1.symm
  | some candidateID =>
    simp only [Run.pure_eq_done, Prod.mk.injEq] at h
    exact Or.inr ⟨candidateID, h.2.1.symm⟩

theorem Operation.run_wellFormed {op : Operation} {st st' : ElectionSystem}
    {p p' : Prompter} {b : Bool} (h : op.run st p = .done (b, st', p'))
    (hwf : WellFormedRecords st) : WellFormedRecords st' := by
  cases op with
  | candidateCsvCheck file =>
    simp only [Operation.run, Run.done.injEq, Prod.mk.injEq] at h
    obtain ⟨-, rfl, -⟩ := h
    exact WellFormedRecords_of_effect hwf (CandidateCsvCheck_effect file st)
  | voterCsvCheck file =>
    simp only [Operation.run, Run.done.injEq, Prod.mk.injEq] at h
    obtain ⟨-, rfl, -⟩ := h
    exact hwf.of_voters (VoterCsvCheck_candidateData file st)
      (VoterCsvCheck_votersWellFormed file st hwf.voters)
  | addCandidate => exact WellFormedRecords_of_effect hwf (AddCandidate_effect h)
  | fillMissingCandidateInfo => exact WellFormedRecords_of_effect hwf (FillMissingCandidateInfo_effect h)
  | modifyCandidate => exact WellFormedRecords_of_effect hwf (ModifyCandidate_effect h)
  | removeCandidate => exact WellFormedRecords_of_effect hwf (RemoveCandidate_effect h)
  | addVoter =>
    exact hwf.of_voters (AddVoter_candidateData h) (AddVoter_votersWellFormed h hwf.voters)
  | fillMissingVoterInfo =>
    exact hwf.of_voters (FillMissingVoterInfo_candidateData h)
      (FillMissingVoterInfo_votersWellFormed h hwf.voters)
  | modifyVoter =>
    exact hwf.of_voters (ModifyVoter_candidateData h) (ModifyVoter_votersWellFormed h hwf.voters)
  | removeVoter =>
    exact hwf.of_voters (RemoveVoter_candidateData h) (RemoveVoter_votersWellFormed h hwf.voters)
  | castVote =>
    rcases CastVote_done h with ⟨-, -, rfl⟩ | ⟨cid, aid, -, -, ⟨-, rfl⟩ | ⟨-, rfl⟩⟩
    · exact hwf
    · exact hwf
    · exact CastVote_commit_wellFormed st cid aid hwf
  | showResult =>
    simp only [Operation.run, Run.done.injEq, Prod.mk.injEq] at h
    obtain ⟨-, rfl, -⟩ := h
    exact ⟨hwf.candidates, hwf.voters, hwf.rejected⟩
  | individualResult =>
    rcases IndividualResult_done h with rfl | ⟨cid, rfl⟩
    · exact hwf
    · exact ⟨hwf.candidates, hwf.voters, hwf.rejected⟩

theorem Reachable.wellFormed {st : ElectionSystem} (h : Reachable st) : WellFormedRecords st := by
  induction h with
  | init => exact WellFormedRecords_empty
  | step op p p' b _ hrun ih => exact Operation.run_wellFormed hrun ih

/-! ## Stored vote counts under the operations -/

theorem votesKept_of_effect {st st' : ElectionSystem} (hinv : CandidateInv st)
    (heff : CandidateEffect st st') (c c' : Candidate) (hc : c ∈ st.validCandidateList)
    (hc' : c' ∈ st'.validCandidateList) (hid : c'.candidateID = c.candidateID) :
    c'.numOfVotes = c.numOfVotes := by
  rcases heff.shape c' hc' with ⟨c0, hc0, hid0, hvotes, -⟩ | ⟨hnew, -, -⟩
  · have : c0 = c := List.inj_on_of_nodup_map hinv.idsNodup hc0 hc (hid0.trans hid)
    rw [← this, hvotes]
  · rw [hid] at hnew
    exact absurd (hinv.idIndexed c hc) hnew

theorem votesKept_of_same {st st' : ElectionSystem} (hinv : CandidateInv st)
    (hv : st'.validCandidateList = st.validCandidateList) (c c' : Candidate)
    (hc : c ∈ st.validCandidateList) (hc' : c' ∈ st'.validCandidateList)
    (hid : c'.candidateID = c.candidateID) : c'.numOfVotes = c.numOfVotes := by
  rw [hv] at hc'
  have : c' = c := List.inj_on_of_nodup_map hinv.idsNodup hc' hc hid
  rw [this]

theorem validCandidateList_of_candidateData {st st' : ElectionSystem}
    (hd : CandidateData st' = CandidateData st) :
    st'.validCandidateList = st.validCandidateList := by
  simp only [CandidateData, Prod.mk.injEq] at hd
  exact hd.1

/-- Every operation other than `CastVote` keeps the stored vote count of a candidate
that stays admitted. -/
theorem Operation.run_votesKept {op : Operation} {st st' : ElectionSystem}
    {p p' : Prompter} {b : Bool} (h : op.run st p = .done (b, st', p'))
    (hop : op ≠ Operation.castVote) (hinv : CandidateInv st) (c c' : Candidate)
    (hc : c ∈ st.validCandidateList) (hc' : c' ∈ st'.validCandidateList)
    (hid : c'.candidateID = c.candidateID) : c'.numOfVotes = c.numOfVotes := by
  cases op with
  | candidateCsvCheck file =>
    simp only [Operation.run, Run.done.injEq, Prod.mk.injEq] at h
    obtain ⟨-, rfl, -⟩ := h
    exact votesKept_of_effect hinv (CandidateCsvCheck_effect file st) c c' hc hc' hid
  | voterCsvCheck file =>
    simp only [Operation.run, Run.done.injEq, Prod.mk.injEq] at h
    obtain ⟨-, rfl, -⟩ := h
    exact votesKept_of_same hinv
      (validCandidateList_of_candidateData (VoterCsvCheck_candidateData file st)) c c' hc hc' hid
  | addCandidate => exact votesKept_of_effect hinv (AddCandidate_effect h) c c' hc hc' hid
  | fillMissingCandidateInfo =>
    exact votesKept_of_effect hinv (FillMissingCandidateInfo_effect h) c c' hc hc' hid
  | modifyCandidate => exact votesKept_of_effect hinv (ModifyCandidate_effect h) c c' hc hc' hid
  | removeCandidate => exact votesKept_of_effect hinv (RemoveCandidate_effect h) c c' hc hc' hid
  | addVoter =>
    exact votesKept_of_same hinv
      (validCandidateList_of_candidateData (AddVoter_candidateData h)) c c' hc hc' hid
  | fillMissingVoterInfo =>
    exact votesKept_of_same hinv
      (validCandidateList_of_candidateData (FillMissingVoterInfo_candidateData h)) c c' hc hc' hid
  | modifyVoter =>
    exact votesKept_of_same hinv
      (validCandidateList_of_candidateData (ModifyVoter_candidateData h)) c c' hc hc' hid
  | removeVoter =>
    exact votesKept_of_same hinv
      (validCandidateList_of_candidateData (RemoveVoter_candidateData h)) c c' hc hc' hid
  | castVote => exact absurd rfl hop
  | showResult =>
    simp only [Operation.run, Run.done.injEq, Prod.mk.injEq] at h
    obtain ⟨-, rfl, -⟩ := h
    exact votesKept_of_same hinv rfl c c' hc hc' hid
  | individualResult =>
    rcases IndividualResult_done h with rfl | ⟨cid, rfl⟩
    · exact votesKept_of_same hinv rfl c c' hc hc' hid
    · exact votesKept_of_same hinv rfl c c' hc hc' hid

/-- C34 (vote counts change only by casting). For every reachable state and every
operation other than `CastVote` (the two loaders, `AddCandidate`,
`FillMissingCandidateInfo`, `ModifyCandidate`, `RemoveCandidate`, `ShowResult`,
`IndividualResult` and the four voter operations), a candidate admitted before the
operation and still admitted after it, recognised by its ID, has the same stored vote
count after it as before. -/
theorem C34_counts_change_only_by_casting (st st' : ElectionSystem) (h : Reachable st)
    (op : Operation) (hop : op ≠ Operation.castVote) (p p' : Prompter) (b : Bool)
    (hrun : op.run st p = .done (b, st', p')) (c c' : Candidate)
    (hc : c ∈ st.validCandidateList) (hc' : c' ∈ st'.validCandidateList)
    (hid : c'.candidateID = c.candidateID) : c'.numOfVotes = c.numOfVotes :=
  Operation.run_votesKept hrun hop h.candidateInv c c' hc hc' hid

theorem C34_counts_change_only_by_casting_witness :
    Reachable Scenario.twoCandidates ∧
    Operation.removeCandidate.run Scenario.twoCandidates ⟨["C1a"], [], []⟩
      = .done (true, Scenario.twoCandidatesRemoved, ⟨[], [], []⟩) ∧
    (⟨"B2b", "Bob", "Blue", "R2b", 3⟩ : Candidate) ∈ Scenario.twoCandidates.validCandidateList ∧
    (⟨"B2b", "Bob", "Blue", "R2b", 3⟩ : Candidate)
      ∈ Scenario.twoCandidatesRemoved.validCandidateList ∧
    (⟨"B2b", "Bob", "Blue", "R2b", 3⟩ : Candidate).numOfVotes
      = (⟨"B2b", "Bob", "Blue", "R2b", 3⟩ : Candidate).numOfVotes :=
  ⟨Scenario.twoCandidates_reachable, Scenario.twoCandidatesRemoved_run, by decide, by decide,
    C34_counts_change_only_by_casting Scenario.twoCandidates Scenario.twoCandidatesRemoved
      Scenario.twoCandidates_reachable Operation.removeCandidate
      (fun h => Operation.noConfusion h) ⟨["C1a"], [], []⟩ ⟨[], [], []⟩ true
      Scenario.twoCandidatesRemoved_run ⟨"B2b", "Bob", "Blue", "R2b", 3⟩
      ⟨"B2b", "Bob", "Blue", "R2b", 3⟩ (by decide) (by decide) rfl⟩

/-- The stored count of a candidate after the commit of a cast: the wrapped successor of
the ledger value for the chosen candidate, the old count for every other. -/
theorem CastVote_commit_votes {st : ElectionSystem} (hinv : CandidateInv st)
    (candidateID aadhaarID : String) (c c' : Candidate) (hc : c ∈ st.validCandidateList)
    (hc' : c' ∈ (CastVote.commit st candidateID aadhaarID).validCandidateList)
    (hid : c'.candidateID = c.candidateID) :
    c'.numOfVotes =
      if c.candidateID = candidateID then wrap32 (wrap64 (mapAt st.votesSet candidateID + 1))
      else c.numOfVotes := by
  unfold CastVote.commit at hc'
  split at hc'
  · dsimp only at hc'
    rw [setFirst_eq_map_of_nodup (fun c : Candidate => c.candidateID) candidateID _ _
      hinv.idsNodup] at hc'
    have hg : ∀ x : Candidate,
        (if x.candidateID = candidateID then
          { x with numOfVotes := wrap32 (wrap64 (mapAt st.votesSet candidateID + 1)) }
        else x).candidateID = x.candidateID := by
      intro x
      split <;> rfl
    have := mem_map_of_ids_nodup _ hg hinv.idsNodup hc hc' hid
    rw [this]
    split <;> rfl
  · rename_i hnone
    have hcc : c' = c := List.inj_on_of_nodup_map hinv.idsNodup hc' hc hid
    have hne : ¬ c.candidateID = candidateID := by
      intro he
      apply hnone
      exact List.any_eq_true.mpr ⟨c, hc, by simpa using he⟩
    rw [hcc, if_neg hne]

theorem successor_of_int_count (v : Int) (h0 : -2147483648 ≤ v) (h1 : v < 2147483647) :
    wrap32 (wrap64 (v + 1)) = v + 1 := by
  rw [wrap64_of_range _ (by omega) (by omega), wrap32_of_range _ (by omega) (by omega)]

/-- C37 as stated fails in reachable states. A committed `CastVote` for `C1a` lowers its
stored count from 2147483647 to -2147483648 (the stored count is an `int`); and after
`C1a,,Red,R1a,5` was rejected and then promoted by `FillMissingCandidateInfo`, a
committed `CastVote` for `C1a` lowers its stored count from 5 to 1, because the
promotion left no ledger entry. -/
theorem C37_stored_counts_counterexample :
    (Reachable Scenario.atIntMax ∧
      Scenario.atIntMax.validCandidateList = [⟨"C1a", "Alice", "Red", "R1a", 2147483647⟩] ∧
      CastVote Scenario.atIntMax ⟨["C1a", "123456789012"], [], []⟩
        = .done (true, Scenario.pastIntMax, ⟨[], [], []⟩) ∧
      Scenario.pastIntMax.validCandidateList
        = [⟨"C1a", "Alice", "Red", "R1a", -2147483648⟩]) ∧
    (Reachable Scenario.promotedWithVoter ∧
      Scenario.promotedWithVoter.validCandidateList = [⟨"C1a", "Alice", "Red", "R1a", 5⟩] ∧
      CastVote Scenario.promotedWithVoter ⟨["C1a", "123456789012"], [], []⟩
        = .done (true,
            { Scenario.promotedWithVoter with
              validCandidateList := [⟨"C1a", "Alice", "Red", "R1a", 1⟩]
              validVoterList := [⟨"123456789012", true⟩]
              votesSet := [("C1a", 1)] }, ⟨[], [], []⟩)) := by
  refine ⟨⟨Scenario.atIntMax_reachable, by decide, by decide, rfl⟩, ⟨?_, rfl, by decide⟩⟩
  have h0 : Reachable Scenario.rejectedWithVotes :=
    Reachable.step (.candidateCsvCheck (some [⟨"C1a", "", "Red", "R1a", "5"⟩]))
      ⟨[], [], []⟩ ⟨[], [], []⟩ false Reachable.init rfl
  have h1 : Reachable
      (VoterCsvCheck (some [("123456789012", some "0")]) Scenario.rejectedWithVotes).2 :=
    Reachable.step (.voterCsvCheck (some [("123456789012", some "0")]))
      ⟨[], [], []⟩ ⟨[], [], []⟩ true h0 (by decide)
  exact Reachable.step .fillMissingCandidateInfo ⟨["Alice"], [], [1]⟩ ⟨[], [], []⟩ true h1
    (by decide)

/-- C37, amended (stored vote counts never go down). In every reachable state, every
operation other than `CastVote` leaves the stored count of a candidate that remains
admitted unchanged. When the candidate's ledger value equals its stored count, an `int`
below 2147483647, no operation lowers the stored count: it stays or rises by one, and a
committed `CastVote` that names the candidate raises it by exactly one. -/
theorem C37_stored_counts_never_fall (st st' : ElectionSystem) (h : Reachable st)
    (op : Operation) (p p' : Prompter) (b : Bool)
    (hrun : op.run st p = .done (b, st', p')) (c c' : Candidate)
    (hc : c ∈ st.validCandidateList) (hc' : c' ∈ st'.validCandidateList)
    (hid : c'.candidateID = c.candidateID) :
    (op ≠ Operation.castVote → c'.numOfVotes = c.numOfVotes) ∧
    (mapAt st.votesSet c.candidateID = c.numOfVotes → -2147483648 ≤ c.numOfVotes →
      c.numOfVotes < 2147483647 →
      (c'.numOfVotes = c.numOfVotes ∨ c'.numOfVotes = c.numOfVotes + 1) ∧
      ∀ aadhaarID, op = Operation.castVote →
        CastVote.select st p = .done (some (c.candidateID, aadhaarID), p') →
        CastVote.currentStatus st.validVoterList aadhaarID = some false →
        c'.numOfVotes = c.numOfVotes + 1) := by
  have hinv := h.candidateInv
  have hkeep : op ≠ Operation.castVote → c'.numOfVotes = c.numOfVotes :=
    fun hop => Operation.run_votesKept hrun hop hinv c c' hc hc' hid
  refine ⟨hkeep, ?_⟩
  intro hledger hlo hhi
  have hsucc := successor_of_int_count (mapAt st.votesSet c.candidateID) (by omega) (by omega)
  by_cases hop : op = Operation.castVote
  · subst hop
    have hcommit : ∀ cid aid, st' = CastVote.commit st cid aid →
        c'.numOfVotes = if c.candidateID = cid then c.numOfVotes + 1 else c.numOfVotes := by
      intro cid aid e
      rw [e] at hc'
      rw [CastVote_commit_votes hinv cid aid c c' hc hc' hid]
      split
      · rename_i hcid
        rw [← hcid, hsucc, hledger]
      · rfl
    constructor
    · rcases CastVote_done hrun with ⟨-, -, rfl⟩ | ⟨cid, aid, -, -, ⟨-, rfl⟩ | ⟨-, e⟩⟩
      · exact Or.inl (votesKept_of_same hinv rfl c c' hc hc' hid)
      · exact Or.inl (votesKept_of_same hinv rfl c c' hc hc' hid)
      · rw [hcommit cid aid e]
        split
        · exact Or.inr rfl
        · exact Or.inl rfl
    · intro aadhaarID _ hsel hstatus
      have hrun' := CastVote_of_fresh hsel hstatus
      have e : st' = CastVote.commit st c.candidateID aadhaarID := by
        have hrun2 : CastVote st p = .done (b, st', p') := hrun
        rw [hrun'] at hrun2
        simp only [Run.done.injEq, Prod.mk.injEq] at hrun2
        exact hrun2.2.1.symm
      rw [hcommit _ _ e, if_pos rfl]
  · exact ⟨Or.inl (hkeep hop), fun _ hcast => absurd hcast hop⟩

theorem C37_stored_counts_never_fall_witness :
    Reachable Scenario.oneEach ∧
    Operation.castVote.run Scenario.oneEach ⟨["C1a", "123456789012"], [], []⟩
      = .done (true, CastVote.commit Scenario.oneEach "C1a" "123456789012", ⟨[], [], []⟩) ∧
    (⟨"C1a", "Alice", "Red", "R1a", 0⟩ : Candidate) ∈ Scenario.oneEach.validCandidateList ∧
    (⟨"C1a", "Alice", "Red", "R1a", 1⟩ : Candidate)
      ∈ (CastVote.commit Scenario.oneEach "C1a" "123456789012").validCandidateList ∧
    (⟨"C1a", "Alice", "Red", "R1a", 1⟩ : Candidate).numOfVotes
      = (⟨"C1a", "Alice", "Red", "R1a", 0⟩ : Candidate).numOfVotes + 1 :=
  ⟨Scenario.oneEach_reachable, by decide, by decide, by decide,
    ((C37_stored_counts_never_fall Scenario.oneEach
      (CastVote.commit Scenario.oneEach "C1a" "123456789012") Scenario.oneEach_reachable
      Operation.castVote ⟨["C1a", "123456789012"], [], []⟩ ⟨[], [], []⟩ true (by decide)
      ⟨"C1a", "Alice", "Red", "R1a", 0⟩ ⟨"C1a", "Alice", "Red", "R1a", 1⟩ (by decide)
      (by decide) rfl).2 (by decide) (by decide) (by decide)).2 "123456789012" rfl
      (by decide) (by decide)⟩

/-! ## The sign of the counts -/

theorem mem_of_mapFind {m : VoteMap} {k : String} {v : Int} (h : mapFind m k = some v) :
    ∃ e ∈ m, e.2 = v := by
  induction m with
  | nil => simp [mapFind] at h
  | cons x xs ih =>
    obtain ⟨k', v'⟩ := x
    simp only [mapFind] at h
    split at h
    · simp only [Option.some.injEq] at h
      exact ⟨(k', v'), List.mem_cons_self _ _, h⟩
    · obtain ⟨e, he, hv⟩ := ih h
      exact ⟨e, List.mem_cons_of_mem _ he, hv⟩

theorem mapAt_bounds {m : VoteMap} (k : String) (hi : Int) (hlo : ∀ e ∈ m, 0 ≤ e.2)
    (hhi : ∀ e ∈ m, e.2 < hi) (hpos : 0 < hi) : 0 ≤ mapAt m k ∧ mapAt m k < hi := by
  unfold mapAt
  cases hf : mapFind m k with
  | none => exact ⟨le_refl _, hpos⟩
  | some v =>
    obtain ⟨e, he, hv⟩ := mem_of_mapFind hf
    rw [Option.getD_some, ← hv]
    exact ⟨hlo e he, hhi e he⟩

theorem mem_mapTouch {m : VoteMap} {k : String} {e : String × Int}
    (h : e ∈ mapTouch m k) : e ∈ m ∨ e.2 = 0 := by
  unfold mapTouch at h
  split at h
  · exact Or.inl h
  · exact mem_mapAssign h

theorem mem_foldl_mapAssign (l : List Candidate) :
    ∀ (m : VoteMap) (e : String × Int),
      e ∈ l.foldl (fun m c => mapAssign m c.candidateID c.numOfVotes) m →
      e ∈ m ∨ ∃ c ∈ l, e.2 = c.numOfVotes := by
  induction l with
  | nil =>
    intro m e h
    exact Or.inl h
  | cons c cs ih =>
    intro m e h
    rw [List.foldl_cons] at h
    rcases ih _ e h with h | ⟨x, hx, hv⟩
    · rcases mem_mapAssign h with h | h
      · exact Or.inl h
      · exact Or.inr ⟨c, List.mem_cons_self _ _, h⟩
    · exact Or.inr ⟨x, List.mem_cons_of_mem _ hx, hv⟩

theorem CountsNonneg_empty : CountsNonneg ElectionSystem.empty :=
  ⟨fun _ h => absurd h (List.not_mem_nil _), fun _ h => absurd h (List.not_mem_nil _)⟩

theorem CountsNonneg_of_effect {st st' : ElectionSystem} (h : CountsNonneg st)
    (hwf : WellFormedRecords st) (heff : CandidateEffect st st') : CountsNonneg st' := by
  constructor
  · intro c' hc'
    rcases heff.shape c' hc' with ⟨c, hc, -, hvotes, -⟩ | ⟨-, -, hcount⟩
    · rw [← hvotes]
      exact h.stored c hc
    · exact hcount hwf.rejected
  · intro e he
    rcases heff.ledger e he with he | he
    · exact h.ledger e he
    · exact he

theorem CountsNonneg_of_candidateData {st st' : ElectionSystem} (h : CountsNonneg st)
    (hd : CandidateData st' = CandidateData st) : CountsNonneg st' := by
  simp only [CandidateData, Prod.mk.injEq] at hd
  obtain ⟨h1, -, -, -, h5⟩ := hd
  constructor
  · rw [h1]
    exact h.stored
  · rw [h5]
    exact h.ledger

theorem CastVote_commit_countsNonneg (st : ElectionSystem) (candidateID aadhaarID : String)
    (h : CountsNonneg st) (hbound : ∀ e ∈ st.votesSet, e.2 < 2147483647) :
    CountsNonneg (CastVote.commit st candidateID aadhaarID) := by
  have hb := mapAt_bounds candidateID 2147483647 h.ledger hbound (by decide)
  have h64 : wrap64 (mapAt st.votesSet candidateID + 1) = mapAt st.votesSet candidateID + 1 :=
    wrap64_of_range _ (by omega) (by omega)
  have h32 : wrap32 (mapAt st.votesSet candidateID + 1) = mapAt st.votesSet candidateID + 1 :=
    wrap32_of_range _ (by omega) (by omega)
  unfold CastVote.commit
  split
  · constructor
    · intro c' hc'
      rcases mem_setFirst _ _ _ c' hc' with hc' | ⟨x, hx, -, rfl⟩
      · exact h.stored c' hc'
      · show 0 ≤ wrap32 (wrap64 (mapAt st.votesSet candidateID + 1))
        rw [h64, h32]
        omega
    · intro e he
      rcases mem_mapAssign he with he | he
      · exact h.ledger e he
      · rw [he, h64]
        omega
  · exact h

theorem Operation.run_countsNonneg {op : Operation} {st st' : ElectionSystem}
    {p p' : Prompter} {b : Bool} (h : op.run st p = .done (b, st', p'))
    (hwf : WellFormedRecords st) (hc : CountsNonneg st)
    (hbound : op = Operation.castVote → ∀ e ∈ st.votesSet, e.2 < 2147483647) :
    CountsNonneg st' := by
  cases op with
  | candidateCsvCheck file =>
    simp only [Operation.run, Run.done.injEq, Prod.mk.injEq] at h
    obtain ⟨-, rfl, -⟩ := h
    exact CountsNonneg_of_effect hc hwf (CandidateCsvCheck_effect file st)
  | voterCsvCheck file =>
    simp only [Operation.run, Run.done.injEq, Prod.mk.injEq] at h
    obtain ⟨-, rfl, -⟩ := h
    exact CountsNonneg_of_candidateData hc (VoterCsvCheck_candidateData file st)
  | addCandidate => exact CountsNonneg_of_effect hc hwf (AddCandidate_effect h)
  | fillMissingCandidateInfo => exact CountsNonneg_of_effect hc hwf (FillMissingCandidateInfo_effect h)
  | modifyCandidate => exact CountsNonneg_of_effect hc hwf (ModifyCandidate_effect h)
  | removeCandidate => exact CountsNonneg_of_effect hc hwf (RemoveCandidate_effect h)
  | addVoter => exact CountsNonneg_of_candidateData hc (AddVoter_candidateData h)
  | fillMissingVoterInfo => exact CountsNonneg_of_candidateData hc (FillMissingVoterInfo_candidateData h)
  | modifyVoter => exact CountsNonneg_of_candidateData hc (ModifyVoter_candidateData h)
  | removeVoter => exact CountsNonneg_of_candidateData hc (RemoveVoter_candidateData h)
  | castVote =>
    rcases CastVote_done h with ⟨-, -, rfl⟩ | ⟨cid, aid, -, -, ⟨-, rfl⟩ | ⟨-, rfl⟩⟩
    · exact hc
    · exact hc
    · exact CastVote_commit_countsNonneg st cid aid hc (hbound rfl)
  | showResult =>
    simp only [Operation.run, Run.done.injEq, Prod.mk.injEq] at h
    obtain ⟨-, rfl, -⟩ := h
    refine ⟨hc.stored, ?_⟩
    intro e he
    rcases mem_foldl_mapAssign _ _ e he with he | ⟨c, hcm, hv⟩
    · exact hc.ledger e he
    · rw [hv]
      exact hc.stored c hcm
  | individualResult =>
    rcases IndividualResult_done h with rfl | ⟨cid, rfl⟩
    · exact hc
    · refine ⟨hc.stored, ?_⟩
      intro e he
      rcases mem_mapTouch he with he | he
      · exact hc.ledger e he
      · rw [he]

theorem ReachableWithinInt.reachable {st : ElectionSystem} (h : ReachableWithinInt st) :
    Reachable st := by
  induction h with
  | init => exact Reachable.init
  | step op p p' b _ _ hrun ih => exact Reachable.step op p p' b ih hrun

theorem ReachableWithinInt.countsNonneg {st : ElectionSystem} (h : ReachableWithinInt st) :
    CountsNonneg st := by
  induction h with
  | init => exact CountsNonneg_empty
  | step op p p' b hprev hbound hrun ih =>
    exact Operation.run_countsNonneg hrun hprev.reachable.wellFormed ih hbound

theorem Scenario.oneEach_reachableWithinInt : ReachableWithinInt Scenario.oneEach := by
  have h0 : ReachableWithinInt
      (CandidateCsvCheck (some [⟨"C1a", "Alice", "Red", "R1a", "0"⟩]) ElectionSystem.empty).2 :=
    ReachableWithinInt.step (.candidateCsvCheck (some [⟨"C1a", "Alice", "Red", "R1a", "0"⟩]))
      ⟨[], [], []⟩ ⟨[], [], []⟩ true ReachableWithinInt.init
      (fun h => Operation.noConfusion h) (by decide)
  exact ReachableWithinInt.step (.voterCsvCheck (some [("123456789012", some "0")]))
    ⟨[], [], []⟩ ⟨[], [], []⟩ true h0 (fun h => Operation.noConfusion h) (by decide)

/-- C40 as stated fails: the state reached by loading `C1a,Alice,Red,R1a,2147483647` and
`123456789012,0` and one committed `CastVote` has the admitted candidate `C1a` with the
stored vote count -2147483648. -/
theorem C40_well_formed_counterexample :
    Reachable Scenario.pastIntMax ∧
    ∃ c ∈ Scenario.pastIntMax.validCandidateList, c.numOfVotes < 0 :=
  ⟨Reachable.step .castVote ⟨["C1a", "123456789012"], [], []⟩ ⟨[], [], []⟩ true
      Scenario.atIntMax_reachable (by decide),
    ⟨"C1a", "Alice", "Red", "R1a", -2147483648⟩, by decide, by decide⟩

/-- C40, amended (admitted records are well-formed). In every reachable state every
entry of `validCandidateList` has an ID of length 3 to 5 with a letter and a digit, a
name and a party symbol of 2 to 20 letters and a region code with a letter and a digit,
and every entry of `validVoterList` has an identifier of exactly 12 digits not starting
with `0`. In every state reached without starting `CastVote` while a ledger entry
stands at 2147483647 or more, every stored vote count is non-negative. -/
theorem C40_admitted_records_well_formed (st : ElectionSystem) :
    (Reachable st →
      (∀ c ∈ st.validCandidateList, WellFormedCandidate c) ∧
      (∀ v ∈ st.validVoterList, AadharFormat v.aadhaarID)) ∧
    (ReachableWithinInt st → ∀ c ∈ st.validCandidateList, 0 ≤ c.numOfVotes) :=
  ⟨fun h => ⟨h.wellFormed.candidates, h.wellFormed.voters⟩, fun h => h.countsNonneg.stored⟩

theorem C40_admitted_records_well_formed_witness :
    (WellFormedCandidate ⟨"C1a", "Alice", "Red", "R1a", 0⟩ ∧
      AadharFormat (⟨"123456789012", false⟩ : Voter).aadhaarID) ∧
    0 ≤ (⟨"C1a", "Alice", "Red", "R1a", 1⟩ : Candidate).numOfVotes :=
  ⟨⟨((C40_admitted_records_well_formed Scenario.oneEach).1 Scenario.oneEach_reachable).1
      ⟨"C1a", "Alice", "Red", "R1a", 0⟩ (by decide),
    ((C40_admitted_records_well_formed Scenario.oneEach).1 Scenario.oneEach_reachable).2
      ⟨"123456789012", false⟩ (by decide)⟩,
    (C40_admitted_records_well_formed
      (CastVote.commit Scenario.oneEach "C1a" "123456789012")).2
      (@ReachableWithinInt.step Scenario.oneEach
        (CastVote.commit Scenario.oneEach "C1a" "123456789012") Operation.castVote
        ⟨["C1a", "123456789012"], [], []⟩ ⟨[], [], []⟩ true
        Scenario.oneEach_reachableWithinInt (fun _ => by decide) (by decide))
      ⟨"C1a", "Alice", "Red", "R1a", 1⟩ (by decide)⟩

/-! ## Reading back what was written -/

theorem splitOn_of_not_mem (d : Char) (p : List Char) (h : d ∉ p) : splitOn d p = [p] := by
  induction p with
  | nil => rfl
  | cons c p ih =>
    have hc : ¬ c = d := fun e => h (e ▸ List.mem_cons_self _ _)
    have hp : d ∉ p := fun e => h (List.mem_cons_of_mem _ e)
    simp only [splitOn, if_neg hc, ih hp]

theorem splitOn_append (d : Char) (p rest : List Char) (h : d ∉ p) :
    splitOn d (p ++ d :: rest) = p :: splitOn d rest := by
  induction p with
  | nil => simp only [List.nil_append, splitOn, if_true]
  | cons c p ih =>
    have hc : ¬ c = d := fun e => h (e ▸ List.mem_cons_self _ _)
    have hp : d ∉ p := fun e => h (List.mem_cons_of_mem _ e)
    have e : splitOn d (c :: (p ++ d :: rest)) = (c :: p) :: splitOn d rest := by
      simp only [splitOn, if_neg hc, ih hp]
    exact e

theorem splitOn_fileText (ls : List String) (h : ∀ l ∈ ls, '\n' ∉ l.data) :
    splitOn '\n' (fileText ls).data = ls.map String.data ++ [[]] := by
  induction ls with
  | nil => rfl
  | cons l ls ih =>
    have e : (fileText (l :: ls)).data = l.data ++ '\n' :: (fileText ls).data := by
      simp only [fileText, String.data_append, List.append_assoc]
      rfl
    rw [e, splitOn_append _ _ _ (h l (List.mem_cons_self _ _)),
      ih (fun x hx => h x (List.mem_cons_of_mem _ hx))]
    rfl

/-- A file written line by line is read back line by line when no line holds a newline. -/
theorem fileLines_fileText (ls : List String) (h : ∀ l ∈ ls, '\n' ∉ l.data) :
    fileLines (fileText ls) = ls := by
  unfold fileLines
  rw [splitOn_fileText ls h]
  have e1 : (ls.map String.data ++ [[]]).getLast? = some [] := List.getLast?_concat _
  dsimp only
  rw [if_pos e1, List.dropLast_concat, List.map_map]
  have e2 : ∀ l ∈ ls, (String.mk ∘ String.data) l = l := fun l _ => rfl
  rw [List.map_congr_left e2, List.map_id'']
  intro x
  rfl

theorem isdigit_digitChar (d : Nat) (h : d < 10) :
    isdigit (Nat.digitChar d) = true ∧ (Nat.digitChar d).toNat - 48 = d := by
  have : d = 0 ∨ d = 1 ∨ d = 2 ∨ d = 3 ∨ d = 4 ∨ d = 5 ∨ d = 6 ∨ d = 7 ∨ d = 8 ∨ d = 9 := by
    omega
  rcases this with h | h | h | h | h | h | h | h | h | h <;> subst h <;> decide

theorem toDigitsCore_digits (fuel : Nat) :
    ∀ (n : Nat) (acc : List Char), (∀ c ∈ acc, isdigit c = true) →
      ∀ c ∈ Nat.toDigitsCore 10 fuel n acc, isdigit c = true := by
  induction fuel with
  | zero =>
    intro n acc hacc c hc
    exact hacc c hc
  | succ fuel ih =>
    intro n acc hacc c hc
    have hd := (isdigit_digitChar (n % 10) (Nat.mod_lt _ (by decide))).1
    have hacc' : ∀ c ∈ Nat.digitChar (n % 10) :: acc, isdigit c = true := by
      intro x hx
      rcases List.mem_cons.mp hx with hx | hx
      · rw [hx]
        exact hd
      · exact hacc x hx
    simp only [Nat.toDigitsCore] at hc
    split at hc
    · exact hacc' c hc
    · exact ih _ _ hacc' c hc

theorem toDigitsCore_ne_nil (fuel : Nat) :
    ∀ (n : Nat) (acc : List Char), (fuel ≠ 0 ∨ acc ≠ []) →
      Nat.toDigitsCore 10 fuel n acc ≠ [] := by
  induction fuel with
  | zero =>
    intro n acc h
    rcases h with h | h
    · exact absurd rfl h
    · exact h
  | succ fuel ih =>
    intro n acc _
    simp only [Nat.toDigitsCore]
    split
    · exact List.cons_ne_nil _ _
    · exact ih _ _ (Or.inr (List.cons_ne_nil _ _))

theorem toDigitsCore_value (fuel : Nat) :
    ∀ (n : Nat) (acc : List Char), n < fuel →
      (Nat.toDigitsCore 10 fuel n acc).foldl (fun a c => a * 10 + (c.toNat - 48)) 0
        = acc.foldl (fun a c => a * 10 + (c.toNat - 48)) n := by
  induction fuel with
  | zero =>
    intro n acc h
    exact absurd h (Nat.not_lt_zero _)
  | succ fuel ih =>
    intro n acc h
    have hd := (isdigit_digitChar (n % 10) (Nat.mod_lt _ (by decide))).2
    simp only [Nat.toDigitsCore]
    split
    · rename_i h0
      rw [List.foldl_cons, hd]
      have : 0 * 10 + n % 10 = n := by omega
      rw [this]
    · rename_i h0
      rw [ih _ _ (by omega), List.foldl_cons, hd]
      have : n / 10 * 10 + n % 10 = n := by omega
      rw [this]

/-- The decimal text of a natural number: digits only, not empty, and its decimal value
is the number. -/
theorem repr_digits (n : Nat) :
    (∀ c ∈ (Nat.repr n).data, isdigit c = true) ∧ Nat.repr n ≠ "" ∧
      decimalValue (Nat.repr n) = n := by
  refine ⟨?_, ?_, ?_⟩
  · exact toDigitsCore_digits _ _ _ (fun _ h => absurd h (List.not_mem_nil _))
  · intro h
    have := congrArg String.data h
    exact toDigitsCore_ne_nil (n + 1) n [] (Or.inl (Nat.succ_ne_zero _)) this
  · exact toDigitsCore_value (n + 1) n [] (Nat.lt_succ_self n)

theorem not_mem_of_digits {s : String} (h : ∀ c ∈ s.data, isdigit c = true) :
    ',' ∉ s.data ∧ '\n' ∉ s.data :=
  ⟨fun hm => absurd (h ',' hm) (by decide), fun hm => absurd (h '\n' hm) (by decide)⟩

theorem not_mem_of_letters {s : String} (h : ∀ c ∈ s.data, isalpha c = true) :
    ',' ∉ s.data ∧ '\n' ∉ s.data :=
  ⟨fun hm => absurd (h ',' hm) (by decide), fun hm => absurd (h '\n' hm) (by decide)⟩

theorem candidateLine_data (id name symbol reg count : String) :
    (id ++ "," ++ name ++ "," ++ symbol ++ "," ++ reg ++ "," ++ count).data =
      id.data ++ ',' :: (name.data ++ ',' :: (symbol.data ++ ',' :: (reg.data ++
        ',' :: count.data))) := by
  have hc : (",").data = [','] := rfl
  simp only [String.data_append, hc, List.append_assoc, List.singleton_append,
    List.cons_append, List.nil_append]

/-- The five fields of a written candidate line are read back when none of them holds a
comma. -/
theorem parseCandidateLine_written (id name symbol reg count : String)
    (h1 : ',' ∉ id.data) (h2 : ',' ∉ name.data) (h3 : ',' ∉ symbol.data)
    (h4 : ',' ∉ reg.data) (h5 : ',' ∉ count.data) :
    parseCandidateLine (id ++ "," ++ name ++ "," ++ symbol ++ "," ++ reg ++ "," ++ count)
      = ⟨id, name, symbol, reg, count⟩ := by
  unfold parseCandidateLine
  rw [candidateLine_data, splitOn_append _ _ _ h1, splitOn_append _ _ _ h2,
    splitOn_append _ _ _ h3, splitOn_append _ _ _ h4, splitOn_of_not_mem _ _ h5]
  rfl

theorem candidateLine_no_newline (id name symbol reg count : String)
    (h1 : '\n' ∉ id.data) (h2 : '\n' ∉ name.data) (h3 : '\n' ∉ symbol.data)
    (h4 : '\n' ∉ reg.data) (h5 : '\n' ∉ count.data) :
    '\n' ∉ (id ++ "," ++ name ++ "," ++ symbol ++ "," ++ reg ++ "," ++ count).data := by
  rw [candidateLine_data]
  have hne : ¬ '\n' = ',' := by decide
  simp only [List.mem_append, List.mem_cons, h1, h2, h3, h4, h5, hne, or_self, not_false_eq_true]

theorem voterLine_data (aadhar status : String) :
    (aadhar ++ "," ++ status).data = aadhar.data ++ ',' :: status.data := by
  have hc : (",").data = [','] := rfl
  simp only [String.data_append, hc, List.append_assoc, List.singleton_append,
    List.cons_append, List.nil_append]

/-- The two fields of a written voter line are read back when neither holds a comma and
the second is not empty. -/
theorem parseVoterLine_written (aadhar status : String) (h1 : ',' ∉ aadhar.data)
    (h2 : ',' ∉ status.data) (h3 : status.data ≠ []) :
    parseVoterLine (aadhar ++ "," ++ status) = some (aadhar, some status) := by
  unfold parseVoterLine
  rw [voterLine_data, splitOn_append _ _ _ h1, splitOn_of_not_mem _ _ h2]
  have hne : aadhar.data ++ ',' :: status.data ≠ [] := by
    intro h
    have := congrArg List.length h
    simp at this
  rw [if_neg hne]
  simp only [h3, false_and, if_false]

theorem showBool_cases (b : Bool) :
    (showBool b = "0" ∨ showBool b = "1") ∧ decide (showBool b = "1") = b ∧
      ',' ∉ (showBool b).data ∧ '\n' ∉ (showBool b).data ∧ (showBool b).data ≠ [] := by
  cases b <;> decide

theorem showInt_of_count (n : Int) (h0 : 0 ≤ n) (h1 : n ≤ 2147483647) :
    (showInt n ≠ "" ∧ (∀ c ∈ (showInt n).data, isdigit c = true) ∧
      decimalValue (showInt n) ≤ 2147483647) ∧ (decimalValue (showInt n) : Int) = n := by
  have e : showInt n = Nat.repr n.toNat := by
    unfold showInt
    rw [if_neg (by omega)]
  obtain ⟨hd, hne, hv⟩ := repr_digits n.toNat
  rw [e, hv]
  refine ⟨⟨hne, hd, ?_⟩, ?_⟩ <;> omega

/-- Loading the rows written for a list of well-formed candidates with counts in
`0..2147483647`, pairwise different IDs and symbols, none of them indexed yet: all are
admitted in order. -/
theorem load_written_candidates (l : List Candidate) :
    ∀ (s : ElectionSystem),
      (∀ c ∈ l, WellFormedCandidate c ∧ 0 ≤ c.numOfVotes ∧ c.numOfVotes ≤ 2147483647) →
      (l.map fun c => c.candidateID).Nodup → (l.map fun c => c.partySymbol).Nodup →
      (∀ c ∈ l, c.candidateID ∉ s.idSet ∧ c.partySymbol ∉ s.symbolSet) →
      ((l.map fun c => (⟨c.candidateID, c.candidateName, c.partySymbol, c.regionID,
          showInt c.numOfVotes⟩ : CandidateRow)).foldl CandidateCsvCheck.line s).validCandidateList
          = s.validCandidateList ++ l ∧
        ((l.map fun c => (⟨c.candidateID, c.candidateName, c.partySymbol, c.regionID,
          showInt c.numOfVotes⟩ : CandidateRow)).foldl CandidateCsvCheck.line s).idSet
          = s.idSet ∪ (l.map fun c => c.candidateID).toFinset ∧
        ((l.map fun c => (⟨c.candidateID, c.candidateName, c.partySymbol, c.regionID,
          showInt c.numOfVotes⟩ : CandidateRow)).foldl CandidateCsvCheck.line s).symbolSet
          = s.symbolSet ∪ (l.map fun c => c.partySymbol).toFinset ∧
        ((l.map fun c => (⟨c.candidateID, c.candidateName, c.partySymbol, c.regionID,
          showInt c.numOfVotes⟩ : CandidateRow)).foldl CandidateCsvCheck.line s).invalidCandidateList
          = s.invalidCandidateList ∧
        ((l.map fun c => (⟨c.candidateID, c.candidateName, c.partySymbol, c.regionID,
          showInt c.numOfVotes⟩ : CandidateRow)).foldl CandidateCsvCheck.line s).validVoterList
          = s.validVoterList ∧
        ((l.map fun c => (⟨c.candidateID, c.candidateName, c.partySymbol, c.regionID,
          showInt c.numOfVotes⟩ : CandidateRow)).foldl CandidateCsvCheck.line s).invalidVoterList
          = s.invalidVoterList ∧
        ((l.map fun c => (⟨c.candidateID, c.candidateName, c.partySymbol, c.regionID,
          showInt c.numOfVotes⟩ : CandidateRow)).foldl CandidateCsvCheck.line s).checkAadhar
          = s.checkAadhar := by
  induction l with
  | nil =>
    intro s _ _ _ _
    simp
  | cons c l ih =>
    intro s hwf hids hsyms hfresh
    obtain ⟨hc, h0, h1⟩ := hwf c (List.mem_cons_self _ _)
    obtain ⟨hidc, hsymc⟩ := hfresh c (List.mem_cons_self _ _)
    rw [List.map_cons, List.nodup_cons] at hids hsyms
    have hpass : CandidateRow.passes s ⟨c.candidateID, c.candidateName, c.partySymbol,
        c.regionID, showInt c.numOfVotes⟩ = true := by
      simp only [CandidateRow.passes, Bool.and_eq_true]
      exact ⟨⟨⟨(ValidateCandidateID_iff s _).mpr ⟨hidc, hc.1.1, hc.1.2.1, hc.1.2.2.1,
        hc.1.2.2.2⟩, (ValidateCandidateName_iff s _).mpr hc.2.1⟩,
        (ValidatePartySymbol_iff s _).mpr ⟨hc.2.2.1, hsymc⟩⟩,
        (ValidateRegionCode_iff s _).mpr hc.2.2.2⟩
    have hne : c.candidateID ≠ "" := by
      intro e
      have h3 := hc.1.1
      rw [e] at h3
      exact absurd h3 (by decide)
    have hcount : CandidateRow.parsedCount ⟨c.candidateID, c.candidateName, c.partySymbol,
        c.regionID, showInt c.numOfVotes⟩ = c.numOfVotes := by
      rw [parsedCount_eq, if_pos (showInt_of_count _ h0 h1).1]
      exact (showInt_of_count _ h0 h1).2
    have hline := CandidateCsvCheck_line_of_passes s _ hne hpass
    rw [hcount] at hline
    rw [List.map_cons, List.foldl_cons, hline]
    have hfresh' : ∀ x ∈ l, x.candidateID ∉ insert c.candidateID s.idSet ∧
        x.partySymbol ∉ insert c.partySymbol s.symbolSet := by
      intro x hx
      have hx1 := hfresh x (List.mem_cons_of_mem _ hx)
      constructor
      · intro hm
        rcases Finset.mem_insert.mp hm with hm | hm
        · exact hids.1 (List.mem_map.mpr ⟨x, hx, hm⟩)
        · exact hx1.1 hm
      · intro hm
        rcases Finset.mem_insert.mp hm with hm | hm
        · exact hsyms.1 (List.mem_map.mpr ⟨x, hx, hm⟩)
        · exact hx1.2 hm
    have hrest := ih
      { s with
        validCandidateList := s.validCandidateList ++ [c]
        idSet := insert c.candidateID s.idSet
        symbolSet := insert c.partySymbol s.symbolSet
        votesSet := mapAssign s.votesSet c.candidateID c.numOfVotes
        errorMessage := "" }
      (fun x hx => hwf x (List.mem_cons_of_mem _ hx)) hids.2 hsyms.2 hfresh'
    obtain ⟨r1, r2, r3, r4, r5, r6, r7⟩ := hrest
    refine ⟨?_, ?_, ?_, r4, r5, r6, r7⟩
    · rw [r1]
      simp only [List.append_assoc, List.singleton_append]
    · rw [r2]
      ext x
      simp only [Finset.mem_union, Finset.mem_insert, List.toFinset_cons, List.map_cons]
      tauto
    · rw [r3]
      ext x
      simp only [Finset.mem_union, Finset.mem_insert, List.toFinset_cons, List.map_cons]
      tauto

/-- Loading the rows written for a list of voters with well-formed, pairwise different
identifiers, none of them indexed yet: all are admitted in order with their flags. -/
theorem load_written_voters (l : List Voter) :
    ∀ (s : ElectionSystem),
      (∀ v ∈ l, AadharFormat v.aadhaarID) → (l.map fun v => v.aadhaarID).Nodup →
      (∀ v ∈ l, v.aadhaarID ∉ s.checkAadhar) →
      ((l.map fun v => (v.aadhaarID, some (showBool v.votingStatus))).foldl
          VoterCsvCheck.line s).validVoterList = s.validVoterList ++ l ∧
        ((l.map fun v => (v.aadhaarID, some (showBool v.votingStatus))).foldl
          VoterCsvCheck.line s).checkAadhar
          = s.checkAadhar ∪ (l.map fun v => v.aadhaarID).toFinset ∧
        ((l.map fun v => (v.aadhaarID, some (showBool v.votingStatus))).foldl
          VoterCsvCheck.line s).invalidVoterList = s.invalidVoterList ∧
        CandidateData ((l.map fun v => (v.aadhaarID, some (showBool v.votingStatus))).foldl
          VoterCsvCheck.line s) = CandidateData s := by
  induction l with
  | nil =>
    intro s _ _ _
    simp
  | cons v l ih =>
    intro s hwf hids hfresh
    have hv := hwf v (List.mem_cons_self _ _)
    have hfv := hfresh v (List.mem_cons_self _ _)
    rw [List.map_cons, List.nodup_cons] at hids
    obtain ⟨hstatus, hflag, -, -, -⟩ := showBool_cases v.votingStatus
    have hpass : voterRowPasses s v.aadhaarID (showBool v.votingStatus) = true :=
      (voterRowPasses_iff s _ _).mpr ⟨hv.1, hv.2.1, hv.2.2, hfv, hstatus⟩
    have hline := VoterCsvCheck_line_of_passes s _ _ hpass
    rw [hflag] at hline
    rw [List.map_cons, List.foldl_cons, hline]
    have hfresh' : ∀ x ∈ l, x.aadhaarID ∉ insert v.aadhaarID s.checkAadhar := by
      intro x hx hm
      rcases Finset.mem_insert.mp hm with hm | hm
      · exact hids.1 (List.mem_map.mpr ⟨x, hx, hm⟩)
      · exact hfresh x (List.mem_cons_of_mem _ hx) hm
    obtain ⟨r1, r2, r3, r4⟩ := ih
      { s with
        checkAadhar := insert v.aadhaarID s.checkAadhar
        validVoterList := s.validVoterList ++ [v]
        errorMessage := "" }
      (fun x hx => hwf x (List.mem_cons_of_mem _ hx)) hids.2 hfresh'
    refine ⟨?_, ?_, r3, r4⟩
    · rw [r1]
      simp only [List.append_assoc, List.singleton_append]
    · rw [r2]
      ext x
      simp only [Finset.mem_union, Finset.mem_insert, List.toFinset_cons, List.map_cons]
      tauto

theorem filterMap_of_some {α β γ : Type} (f : β → Option γ) (g : α → β) (k : α → γ)
    (l : List α) (h : ∀ x ∈ l, f (g x) = some (k x)) :
    (l.map g).filterMap f = l.map k := by
  induction l with
  | nil => rfl
  | cons x l ih =>
    rw [List.map_cons, List.filterMap_cons, h x (List.mem_cons_self _ _),
      ih (fun y hy => h y (List.mem_cons_of_mem _ hy))]
    rfl

/-- The round trip for a state whose records are well-formed and whose keys are unique. -/
theorem reload_of_wellFormed (st : ElectionSystem) (hwf : WellFormedRecords st)
    (hinv : CandidateInv st)
    (hvoters : (st.validVoterList.map fun v => v.aadhaarID).Nodup)
    (htext : ∀ c ∈ st.validCandidateList,
      ',' ∉ c.candidateID.data ∧ '\n' ∉ c.candidateID.data ∧
        ',' ∉ c.regionID.data ∧ '\n' ∉ c.regionID.data)
    (hcount : ∀ c ∈ st.validCandidateList, 0 ≤ c.numOfVotes ∧ c.numOfVotes ≤ 2147483647) :
    (reload st).validCandidateList = st.validCandidateList ∧
      (reload st).validVoterList = st.validVoterList ∧
      (reload st).idSet = (st.validCandidateList.map fun c => c.candidateID).toFinset ∧
      (reload st).symbolSet = (st.validCandidateList.map fun c => c.partySymbol).toFinset ∧
      (reload st).checkAadhar = (st.validVoterList.map fun v => v.aadhaarID).toFinset ∧
      (reload st).invalidCandidateList = [] ∧ (reload st).invalidVoterList = [] := by
  have hrows : (fileLines (WriteCandidateDataToCSV st)).map parseCandidateLine
      = st.validCandidateList.map fun c => (⟨c.candidateID, c.candidateName, c.partySymbol,
          c.regionID, showInt c.numOfVotes⟩ : CandidateRow) := by
    unfold WriteCandidateDataToCSV
    rw [fileLines_fileText, List.map_map]
    · apply List.map_congr_left
      intro c hc
      have hw := hwf.candidates c hc
      have ht := htext c hc
      have hn := (showInt_of_count _ (hcount c hc).1 (hcount c hc).2).1.2.1
      exact parseCandidateLine_written _ _ _ _ _ ht.1 (not_mem_of_letters hw.2.1.2.2).1
        (not_mem_of_letters hw.2.2.1.2.2).1 ht.2.2.1 (not_mem_of_digits hn).1
    · intro line hl
      obtain ⟨c, hc, rfl⟩ := List.mem_map.mp hl
      have hw := hwf.candidates c hc
      have ht := htext c hc
      have hn := (showInt_of_count _ (hcount c hc).1 (hcount c hc).2).1.2.1
      exact candidateLine_no_newline _ _ _ _ _ ht.2.1 (not_mem_of_letters hw.2.1.2.2).2
        (not_mem_of_letters hw.2.2.1.2.2).2 ht.2.2.2 (not_mem_of_digits hn).2
  have hvrows : (fileLines (WriteVoterDataToCSV st)).filterMap parseVoterLine
      = st.validVoterList.map fun v => (v.aadhaarID, some (showBool v.votingStatus)) := by
    unfold WriteVoterDataToCSV
    rw [fileLines_fileText]
    · apply filterMap_of_some
      intro v hv
      obtain ⟨-, -, h2, -, h3⟩ := showBool_cases v.votingStatus
      exact parseVoterLine_written _ _ (not_mem_of_digits (hwf.voters v hv).2.1).1 h2 h3
    · intro line hl
      obtain ⟨v, hv, rfl⟩ := List.mem_map.mp hl
      obtain ⟨-, -, -, h2, -⟩ := showBool_cases v.votingStatus
      rw [voterLine_data]
      have hne : ¬ '\n' = ',' := by decide
      simp only [List.mem_append, List.mem_cons, (not_mem_of_digits (hwf.voters v hv).2.1).2,
        h2, hne, or_self, not_false_eq_true]
  obtain ⟨c1, c2, c3, c4, c5, c6, c7⟩ := load_written_candidates st.validCandidateList
    ElectionSystem.empty (fun c hc => ⟨hwf.candidates c hc, hcount c hc⟩) hinv.idsNodup
    hinv.symbolsNodup (fun c _ => ⟨Finset.not_mem_empty _, Finset.not_mem_empty _⟩)
  obtain ⟨v1, v2, v3, v4⟩ := load_written_voters st.validVoterList
    ((st.validCandidateList.map fun c => (⟨c.candidateID, c.candidateName, c.partySymbol,
      c.regionID, showInt c.numOfVotes⟩ : CandidateRow)).foldl CandidateCsvCheck.line
      ElectionSystem.empty)
    hwf.voters hvoters (by
      intro v _
      rw [c7]
      exact Finset.not_mem_empty _)
  simp only [CandidateData, Prod.mk.injEq] at v4
  obtain ⟨d1, d2, d3, d4, -⟩ := v4
  have hre : reload st = (st.validVoterList.map fun v =>
      (v.aadhaarID, some (showBool v.votingStatus))).foldl VoterCsvCheck.line
      ((st.validCandidateList.map fun c => (⟨c.candidateID, c.candidateName, c.partySymbol,
        c.regionID, showInt c.numOfVotes⟩ : CandidateRow)).foldl CandidateCsvCheck.line
        ElectionSystem.empty) := by
    unfold reload
    rw [hrows, hvrows]
    rfl
  rw [hre]
  refine ⟨?_, ?_, ?_, ?_, ?_, ?_, ?_⟩
  · rw [d1, c1]
    rfl
  · rw [v1, c5]
    rfl
  · rw [d3, c2]
    exact Finset.empty_union _
  · rw [d4, c3]
    exact Finset.empty_union _
  · rw [v2, c7]
    exact Finset.empty_union _
  · rw [d2, c4]
    rfl
  · rw [v3, c6]
    rfl

theorem Scenario.commaInId_reachable : Reachable Scenario.commaInId :=
  Reachable.step .addCandidate ⟨["a,1", "Ann", "Sun", "R1a"], [], []⟩ ⟨[], [], []⟩ true
    Reachable.init rfl

theorem Scenario.pastIntMax_reachable : Reachable Scenario.pastIntMax :=
  Reachable.step .castVote ⟨["C1a", "123456789012"], [], []⟩ ⟨[], [], []⟩ true
    Scenario.atIntMax_reachable (by decide)

/-- C31 as stated fails in reachable states. After `ModifyCandidate` changed the symbol
of `C1a` from `Red` to `Blue`, `symbolSet` still holds `Red` and the reloaded system has
only `Blue`. A candidate admitted by `AddCandidate` with the ID `a,1` is written as the
line `a,1,Ann,Sun,R1a,0` and rejected when it is read back. A stored count of
-2147483648 is read back as 0. Of two admitted voters with the same identifier only the
first is admitted again. -/
theorem C31_round_trip_counterexample :
    (Reachable Scenario.symbolAmended ∧
      Scenario.symbolAmended.symbolSet = insert "Blue" {"Red"} ∧
      (reload Scenario.symbolAmended).symbolSet = {"Blue"} ∧
      (reload Scenario.symbolAmended).symbolSet ≠ Scenario.symbolAmended.symbolSet) ∧
    (Reachable Scenario.commaInId ∧
      Scenario.commaInId.validCandidateList = [⟨"a,1", "Ann", "Sun", "R1a", 0⟩] ∧
      WriteCandidateDataToCSV Scenario.commaInId = "a,1,Ann,Sun,R1a,0\n" ∧
      (reload Scenario.commaInId).validCandidateList = [] ∧
      (reload Scenario.commaInId).invalidCandidateList = [⟨"a", "1", "Ann", "Sun", 0⟩]) ∧
    (Reachable Scenario.pastIntMax ∧
      Scenario.pastIntMax.validCandidateList
        = [⟨"C1a", "Alice", "Red", "R1a", -2147483648⟩] ∧
      (reload Scenario.pastIntMax).validCandidateList
        = [⟨"C1a", "Alice", "Red", "R1a", 0⟩]) ∧
    (Reachable Scenario.twinVoters ∧
      Scenario.twinVoters.validVoterList.length = 2 ∧
      (reload Scenario.twinVoters).validVoterList.length = 1) :=
  ⟨⟨Scenario.symbolAmended_reachable, by decide, by decide, by decide⟩,
    ⟨Scenario.commaInId_reachable, rfl, by decide, by decide, by decide⟩,
    ⟨Scenario.pastIntMax_reachable, rfl, by decide⟩,
    ⟨Scenario.twinVoters_reachable, by decide, by decide⟩⟩

/-- C31, amended (round trip). Take a reachable state in which each uniqueness index
holds exactly the keys of the admitted records, no two admitted voters share an
identifier, no candidate ID or region code holds a comma or a newline, and every stored
vote count lies between 0 and 2147483647. Writing the admitted candidates and voters
with `WriteCandidateDataToCSV` and `WriteVoterDataToCSV` and loading the written text
with `CandidateCsvCheck` and `VoterCsvCheck` into an empty system admits every record:
the loaded system has the same `validCandidateList`, the same `validVoterList`, the same
`idSet`, `symbolSet` and `checkAadhar`, and nothing in its rejected collections. -/
theorem C31_round_trip (st : ElectionSystem) (h : Reachable st) (hindex : IndexExact st)
    (hvoters : (st.validVoterList.map fun v => v.aadhaarID).Nodup)
    (htext : ∀ c ∈ st.validCandidateList,
      ',' ∉ c.candidateID.data ∧ '\n' ∉ c.candidateID.data ∧
        ',' ∉ c.regionID.data ∧ '\n' ∉ c.regionID.data)
    (hcount : ∀ c ∈ st.validCandidateList, 0 ≤ c.numOfVotes ∧ c.numOfVotes ≤ 2147483647) :
    (reload st).validCandidateList = st.validCandidateList ∧
      (reload st).validVoterList = st.validVoterList ∧
      (reload st).idSet = st.idSet ∧ (reload st).symbolSet = st.symbolSet ∧
      (reload st).checkAadhar = st.checkAadhar ∧
      (reload st).invalidCandidateList = [] ∧ (reload st).invalidVoterList = [] := by
  obtain ⟨r1, r2, r3, r4, r5, r6, r7⟩ :=
    reload_of_wellFormed st h.wellFormed h.candidateInv hvoters htext hcount
  obtain ⟨i1, i2, i3⟩ := hindex
  exact ⟨r1, r2, r3.trans i1.symm, r4.trans i2.symm, r5.trans i3.symm, r6, r7⟩

theorem Scenario.twoVotersOnce_reachable : Reachable Scenario.twoVotersOnce := by
  have h0 : Reachable
      (CandidateCsvCheck (some [⟨"C1a", "Alice", "Red", "R1a", "0"⟩]) ElectionSystem.empty).2 :=
    Reachable.step (.candidateCsvCheck (some [⟨"C1a", "Alice", "Red", "R1a", "0"⟩]))
      ⟨[], [], []⟩ ⟨[], [], []⟩ true Reachable.init (by decide)
  have h1 : Reachable Scenario.twoVoters :=
    Reachable.step
      (.voterCsvCheck (some [("123456789012", some "0"), ("223456789012", some "0")]))
      ⟨[], [], []⟩ ⟨[], [], []⟩ true h0 (by decide)
  exact Reachable.step .castVote ⟨["C1a", "123456789012"], [], []⟩ ⟨[], [], []⟩ true h1
    (by decide)

theorem C31_round_trip_witness :
    (reload Scenario.twoVotersOnce).validCandidateList
        = Scenario.twoVotersOnce.validCandidateList ∧
      (reload Scenario.twoVotersOnce).validVoterList = Scenario.twoVotersOnce.validVoterList ∧
      (reload Scenario.twoVotersOnce).idSet = Scenario.twoVotersOnce.idSet ∧
      (reload Scenario.twoVotersOnce).symbolSet = Scenario.twoVotersOnce.symbolSet ∧
      (reload Scenario.twoVotersOnce).checkAadhar = Scenario.twoVotersOnce.checkAadhar ∧
      (reload Scenario.twoVotersOnce).invalidCandidateList = [] ∧
      (reload Scenario.twoVotersOnce).invalidVoterList = [] :=
  C31_round_trip Scenario.twoVotersOnce Scenario.twoVotersOnce_reachable
    ⟨by decide, by decide, by decide⟩ (by decide) (by decide) (by decide)

end Election
